import Mathlib

/-!
# Space Invaders emulator (`src/emu.cpp`): shallow embedding and verified properties

The C++ program keeps the whole processor in global variables and executes one
instruction per call of `emulateCycle`.  Here the globals become the fields of
`State` and every function of the source becomes a pure function on `State`.

Conventions of the embedding

* Machine integers are natural numbers.  A value that the source stores into an
  `unsigned char`, `u_int16_t` or `u_int32_t` variable is reduced modulo `2^8`,
  `2^16` or `2^32` at the point of the store (`u8`, `u16`, `u32` below when the
  stored C `int` may be negative, a plain `%` otherwise).
* `memory` is a function from the C array index (an `int`, hence `Int`) to the
  byte stored there.  The array has the indices `0 .. 65535`; the source never
  reduces an index, so an index outside that range is kept as it is and is
  visible in the model as an access outside the array.
* `printf` produces no state change and has no counterpart.
-/

namespace Emu

/-! ## Conversions of C integers -/

/-- Conversion of a C `int` to `unsigned char`. -/
def u8 (i : Int) : Nat := (i % 256).toNat

/-- Conversion of a C `int` to `u_int16_t`. -/
def u16 (i : Int) : Nat := (i % 65536).toNat

/-- Conversion of a C `int` to `unsigned int` / `u_int32_t`. -/
def u32 (i : Int) : Nat := (i % 4294967296).toNat

/-- Conversion of an `unsigned int` to `int` (two's complement). -/
def i32 (n : Nat) : Int := if n < 2147483648 then (n : Int) else (n : Int) - 4294967296

/-! ## `parity` (emu.cpp, lines 98-107) -/

/-- The `for` loop of `parity`: `k` iterations remain, `x` is the shifted
argument and `p` the number of one bits seen so far. -/
def parityLoop : Nat → Int → Nat → Nat
  | 0, _, p => p
  | k + 1, x, p => parityLoop k (x >>> (1 : Nat)) (if Int.land x 1 ≠ 0 then p + 1 else p)

/-- The function `int parity(int x, int size)`. -/
def parity (x : Int) (size : Nat) : Nat :=
  let x := Int.land x (((1 <<< size : Nat) : Int) - 1)
  let p := parityLoop size x 0
  if 0 = p &&& 1 then 1 else 0

/-- Number of one bits among the `size` low bits of `x` (two's complement). -/
def lowBitCount (x : Int) (size : Nat) : Nat :=
  (List.range size).countP (fun i => x.testBit i)

/-- Number of one bits of a natural number, by binary digits. -/
def popcount (v : Nat) : Nat := (Nat.digits 2 v).sum

/-- Even-parity bit of a byte: `1` when the number of one bits is even. -/
def evenParity (v : Nat) : Nat := if Even (popcount v) then 1 else 0

/-! ## Processor state (the global variables of emu.cpp, lines 11-48) -/

/-- The global variables of the emulator. -/
structure State where
  /-- Accumulator, `u_int8_t`. -/
  A : Nat
  B : Nat
  C : Nat
  D : Nat
  E : Nat
  H : Nat
  L : Nat
  /-- Stack pointer, `u_int16_t`. -/
  sp : Nat
  /-- Program counter, `u_int16_t`. -/
  pc : Nat
  /-- The array `u_int8_t memory[8192 * 8]`, by C index.  An index outside `0..65535` is
  outside the array, and the source does not determine what the program finds or changes
  there. -/
  memory : Int → Nat
  Read0 : Nat
  Read1 : Nat
  Read2 : Nat
  ShiftRegister : Nat
  noOfBitsToShift : Nat
  shift0 : Nat
  shift1 : Nat
  Z : Nat
  S : Nat
  P : Nat
  CY : Nat
  AC : Nat
  /-- Cycle counter, `u_int32_t`. -/
  cycles : Nat
  /-- Interrupt enable latch, `int`. -/
  INT : Int
  /-- The alternation state `int decideINT`: the variable that `main2` reads and writes is
  its local of that name (line 1870), which hides the global of line 48; both start at 0. -/
  decideINT : Int
  /-- Count of executed loop iterations, `u_int32_t veces` (line 11). -/
  veces : Nat

/-- The assignment `memory[i] = v`. -/
def store (m : Int → Nat) (i : Int) (v : Nat) : Int → Nat :=
  fun j => if j = i then v else m j

/-- The expression `opcode[k]` for `opcode = &memory[pc]`, read in memory `m`. -/
def opcodeAt (m : Int → Nat) (pc : Nat) (k : Int) : Nat := m ((pc : Int) + k)

/-- The expression `(h << 8) | l`. -/
def pair (h l : Nat) : Nat := (h <<< 8) ||| l

/-- The statement `pc += n` on the 16 bit program counter. -/
def pcAdd (s : State) (n : Nat) : Nat := (s.pc + n) % 65536

/-- The statement `cycles += n` on the 32 bit cycle counter. -/
def cyclesAdd (s : State) (n : Nat) : Nat := (s.cycles + n) % 4294967296

/-- The zero flag test `if (v == 0) Z = 1; else Z = 0;`. -/
def zeroFlag (v : Nat) : Nat := if v = 0 then 1 else 0

/-- The sign flag test `if ((v & 0x80) == 0x80) S = 1; else S = 0;`. -/
def signFlag (v : Nat) : Nat := if v &&& 0x80 = 0x80 then 1 else 0

/-- The local `unsigned int psw` built by PUSH PSW (lines 590-597):
`psw = 0x02; if (S == 1) psw |= 0x80; if (Z == 1) psw |= 0x40; if (P == 1) psw |= 0x04;
if (CY == 1) psw |= 0x01;`. -/
def pswWord (s : State) : Nat :=
  let psw0 := 0x02
  let psw1 := if s.S = 1 then psw0 ||| 0x80 else psw0
  let psw2 := if s.Z = 1 then psw1 ||| 0x40 else psw1
  let psw3 := if s.P = 1 then psw2 ||| 0x04 else psw2
  if s.CY = 1 then psw3 ||| 0x01 else psw3

/-- The function `NOP` (lines 109-112). -/
def NOP (s : State) : State :=
  { s with pc := pcAdd s 1, cycles := cyclesAdd s 4 }

/-- The function `LXI` (lines 114-134); `opcode` points at `memory[pc]`. -/
def LXI (s : State) : State :=
  let opcode := opcodeAt s.memory s.pc
  let s1 : State :=
    if opcode 0 = 0x01 then { s with C := opcode 1, B := opcode 2 }
    else if opcode 0 = 0x11 then { s with E := opcode 1, D := opcode 2 }
    else if opcode 0 = 0x21 then { s with L := opcode 1, H := opcode 2 }
    else if opcode 0 = 0x31 then { s with sp := ((opcode 2 <<< 8) ||| opcode 1) % 65536 }
    else s
  { s1 with pc := pcAdd s 3, cycles := cyclesAdd s 10 }

/-! ## `emulateCycle` (emu.cpp, lines 136-1738)

The `switch (*opcode)` is a chain of tests in the order of the source; the case
labels are pairwise distinct, so the order does not matter.  `opcode k` is
`opcode[k]` read before the instruction writes to memory; an instruction that
reads `opcode[k]` after one of its own writes (CALL, SHLD, the conditional
calls) reads it in the updated memory, as the source does. -/

set_option maxRecDepth 100000 in
/-- The function `void emulateCycle()`. -/
def emulateCycle (s : State) : State :=
  let m := s.memory
  let opcode := opcodeAt s.memory s.pc
  let op := opcode 0
  let sp : Int := (s.sp : Int)
  let HL : Int := ((pair s.H s.L : Nat) : Int)
  if op = 0x00 ∨ op = 0x10 ∨ op = 0x20 ∨ op = 0x30 ∨ op = 0x08 ∨ op = 0x18 ∨ op = 0x28
      ∨ op = 0x38 then
    NOP s
  else if op = 0x01 ∨ op = 0x11 ∨ op = 0x21 ∨ op = 0x31 then
    LXI s
  else if op = 0x05 then -- DCR B
    let b := u8 ((s.B : Int) - 1)
    { s with B := b, Z := zeroFlag b, S := signFlag b, P := parity (b : Int) 8,
             pc := pcAdd s 1, cycles := cyclesAdd s 5 }
  else if op = 0x06 then -- MVI B, D8
    { s with B := opcode 1, pc := pcAdd s 2, cycles := cyclesAdd s 7 }
  else if op = 0x09 then -- DAD B
    let result := (pair s.H s.L + pair s.B s.C) % 4294967296
    { s with H := (result >>> 8) % 256, L := result % 256,
             CY := if result > 0xFFFF then 1 else 0,
             pc := pcAdd s 1, cycles := cyclesAdd s 10 }
  else if op = 0x0d then -- DCR C
    let c := u8 ((s.C : Int) - 1)
    { s with C := c, Z := zeroFlag c, S := signFlag c, P := parity (c : Int) 8,
             pc := pcAdd s 1, cycles := cyclesAdd s 5 }
  else if op = 0x0e then -- MVI C,D8
    { s with C := opcode 1, pc := pcAdd s 2, cycles := cyclesAdd s 7 }
  else if op = 0x0f then -- RRC
    let result := (s.A >>> 1) ||| ((s.A &&& 0x1) <<< 7)
    { s with CY := s.A &&& 0x1, A := result &&& 0xff,
             pc := pcAdd s 1, cycles := cyclesAdd s 4 }
  else if op = 0x13 then -- INX D
    let result := (pair s.D s.E + 1) % 4294967296
    { s with E := result &&& 0xff, D := (result >>> 8) % 256,
             pc := pcAdd s 1, cycles := cyclesAdd s 5 }
  else if op = 0x19 then -- DAD D
    let result := (pair s.H s.L + pair s.D s.E) % 4294967296
    { s with H := (result >>> 8) % 256, L := result % 256,
             CY := if result > 0xFFFF then 1 else 0,
             pc := pcAdd s 1, cycles := cyclesAdd s 10 }
  else if op = 0x1a then -- LDAX D
    { s with A := m ((pair s.D s.E : Nat) : Int), pc := pcAdd s 1, cycles := cyclesAdd s 7 }
  else if op = 0x23 then -- INX H
    let result := (pair s.H s.L + 1) % 4294967296
    { s with L := result &&& 0x00FF, H := (result >>> 8) % 256,
             pc := pcAdd s 1, cycles := cyclesAdd s 5 }
  else if op = 0x26 then -- MVI H,D8
    { s with H := opcode 1, pc := pcAdd s 2, cycles := cyclesAdd s 7 }
  else if op = 0x29 then -- DAD H
    let result := (2 * pair s.H s.L) % 4294967296
    { s with H := (result >>> 8) % 256, L := result % 256,
             CY := if result > 0xFFFF then 1 else 0,
             pc := pcAdd s 1, cycles := cyclesAdd s 10 }
  else if op = 0x32 then -- STA adr
    { s with memory := store m ((opcode 1 ||| (opcode 2 <<< 8) : Nat) : Int) s.A,
             pc := pcAdd s 3, cycles := cyclesAdd s 13 }
  else if op = 0x36 then -- MVI M,D8
    { s with memory := store m HL (opcode 1), pc := pcAdd s 2, cycles := cyclesAdd s 10 }
  else if op = 0x3a then -- LDA adr
    { s with A := m ((opcode 1 ||| (opcode 2 <<< 8) : Nat) : Int),
             pc := pcAdd s 3, cycles := cyclesAdd s 13 }
  else if op = 0x3e then -- MVI A,D8
    { s with A := opcode 1, pc := pcAdd s 2, cycles := cyclesAdd s 7 }
  else if op = 0x56 then -- MOV D,M
    { s with D := m HL, pc := pcAdd s 1, cycles := cyclesAdd s 7 }
  else if op = 0x5e then -- MOV E,M
    { s with E := m HL, pc := pcAdd s 1, cycles := cyclesAdd s 7 }
  else if op = 0x66 then -- MOV H,M
    { s with H := m HL, pc := pcAdd s 1, cycles := cyclesAdd s 7 }
  else if op = 0x6f then -- MOV L,A
    { s with L := s.A, pc := pcAdd s 1, cycles := cyclesAdd s 5 }
  else if op = 0x77 then -- MOV M,A
    { s with memory := store m HL s.A, pc := pcAdd s 1, cycles := cyclesAdd s 7 }
  else if op = 0x7a then -- MOV A,D
    { s with A := s.D, pc := pcAdd s 1, cycles := cyclesAdd s 5 }
  else if op = 0x7b then -- MOV A,E
    { s with A := s.E, pc := pcAdd s 1, cycles := cyclesAdd s 5 }
  else if op = 0x7c then -- MOV A,H
    { s with A := s.H, pc := pcAdd s 1, cycles := cyclesAdd s 5 }
  else if op = 0x7e then -- MOV A,M
    { s with A := m HL, pc := pcAdd s 1, cycles := cyclesAdd s 7 }
  else if op = 0xa7 then -- ANA A
    let a := s.A &&& s.A
    { s with A := a % 256, Z := if a &&& 0xFF = 0 then 1 else 0, S := signFlag a,
             P := parity (i32 a) 8, CY := 0, pc := pcAdd s 1, cycles := cyclesAdd s 4 }
  else if op = 0xaf then -- XRA A
    let a := s.A ^^^ s.A
    { s with A := a, Z := zeroFlag a, S := signFlag a, P := parity (a : Int) 8, CY := 0,
             pc := pcAdd s 1, cycles := cyclesAdd s 4 }
  else if op = 0xc1 then -- POP B
    { s with C := m sp, B := m (sp + 1), sp := (s.sp + 2) % 65536,
             pc := pcAdd s 1, cycles := cyclesAdd s 10 }
  else if op = 0xc2 then -- JNZ adr
    { s with pc := if s.Z = 0 then (opcode 1 ||| (opcode 2 <<< 8)) % 65536 else pcAdd s 3,
             cycles := cyclesAdd s 10 }
  else if op = 0xc3 then -- JMP adr
    { s with pc := (opcode 1 ||| (opcode 2 <<< 8)) % 65536, cycles := cyclesAdd s 10 }
  else if op = 0xc5 then -- PUSH B
    { s with memory := store (store m (sp - 2) s.C) (sp - 1) s.B, sp := u16 (sp - 2),
             pc := pcAdd s 1, cycles := cyclesAdd s 11 }
  else if op = 0xc6 then -- ADI D8
    let cy := if (s.A : Int) > 0xFF - (opcode 1 : Int) then 1 else 0
    let a := (s.A + opcode 1) % 256
    { s with CY := cy, A := a, Z := zeroFlag a, S := signFlag a, P := parity (a : Int) 8,
             pc := pcAdd s 2, cycles := cyclesAdd s 7 }
  else if op = 0xc9 then -- RET
    { s with pc := ((m (sp + 1) <<< 8) ||| m sp) % 65536, sp := (s.sp + 2) % 65536,
             cycles := cyclesAdd s 10 }
  else if op = 0xcd then -- CALL
    let m1 := store m (sp - 1) (((s.pc + 3) >>> 8) &&& 0xff)
    let m2 := store m1 (sp - 2) ((s.pc + 3) &&& 0xff)
    { s with memory := m2, sp := u16 (sp - 2),
             pc := ((opcodeAt m2 s.pc 2 <<< 8) ||| opcodeAt m2 s.pc 1) % 65536,
             cycles := cyclesAdd s 17 }
  else if op = 0xd1 then -- POP D
    { s with E := m sp, D := m (sp + 1), sp := (s.sp + 2) % 65536,
             pc := pcAdd s 1, cycles := cyclesAdd s 10 }
  else if op = 0xd3 then -- OUT D8
    let s1 : State :=
      if opcode 1 = 0x02 then { s with noOfBitsToShift := s.A &&& 0x7 }
      else if opcode 1 = 0x04 then { s with shift0 := s.shift1, shift1 := s.A }
      else s
    { s1 with pc := pcAdd s 2, cycles := cyclesAdd s 10 }
  else if op = 0xd5 then -- PUSH D
    { s with memory := store (store m (sp - 2) s.E) (sp - 1) s.D, sp := u16 (sp - 2),
             pc := pcAdd s 1, cycles := cyclesAdd s 11 }
  else if op = 0xe1 then -- POP H
    { s with L := m sp, H := m (sp + 1), sp := (s.sp + 2) % 65536,
             pc := pcAdd s 1, cycles := cyclesAdd s 10 }
  else if op = 0xe5 then -- PUSH H
    { s with memory := store (store m (sp - 2) s.L) (sp - 1) s.H, sp := u16 (sp - 2),
             pc := pcAdd s 1, cycles := cyclesAdd s 11 }
  else if op = 0xe6 then -- ANI D8
    let a := s.A &&& opcode 1
    { s with A := a, Z := zeroFlag a, S := signFlag a, P := parity (a : Int) 8, CY := 0,
             pc := pcAdd s 2, cycles := cyclesAdd s 7 }
  else if op = 0xeb then -- XCHG
    { s with H := s.D, D := s.H, L := s.E, E := s.L, pc := pcAdd s 1, cycles := cyclesAdd s 5 }
  else if op = 0xf1 then -- POP PSW
    { s with S := (m sp >>> 7) &&& 0x01, Z := (m sp >>> 6) &&& 0x01,
             P := (m sp >>> 2) &&& 0x01, CY := m sp &&& 0x01, A := m (sp + 1),
             sp := (s.sp + 2) % 65536, pc := pcAdd s 1, cycles := cyclesAdd s 10 }
  else if op = 0xf5 then -- PUSH PSW
    let psw := pswWord s
    { s with memory := store (store m (sp - 2) (psw % 256)) (sp - 1) s.A, sp := u16 (sp - 2),
             pc := pcAdd s 1, cycles := cyclesAdd s 11 }
  else if op = 0xfb then -- EI
    { s with INT := 1, pc := pcAdd s 1, cycles := cyclesAdd s 4 }
  else if op = 0xfe then -- CPI D8
    let x := u32 ((s.A : Int) - (opcode 1 : Int))
    { s with CY := if s.A < opcode 1 then 1 else 0, Z := if x = 0 then 1 else 0,
             S := if 0x80 = x &&& 0x80 then 1 else 0, P := parity (i32 x) 8,
             pc := pcAdd s 2, cycles := cyclesAdd s 7 }
  else if op = 0x35 then -- DCR M
    let v := u8 ((m HL : Int) - 1)
    { s with memory := store m HL v, Z := zeroFlag v, S := signFlag v, P := parity (v : Int) 8,
             pc := pcAdd s 1, cycles := cyclesAdd s 10 }
  else if op = 0xdb then -- IN
    let s1 : State :=
      if opcode 1 = 0x01 then { s with A := s.Read0 }
      else if opcode 1 = 0x02 then { s with A := s.Read1 }
      else if opcode 1 = 0x03 then
        let dwval : Int := i32 (((s.shift1 <<< 8) % 4294967296) ||| s.shift0)
        { s with A := u8 (dwval >>> (8 - (s.noOfBitsToShift : Int)).toNat) }
      else s
    { s1 with pc := pcAdd s 2, cycles := cyclesAdd s 10 }
  else if op = 0xc8 then -- RZ
    if s.Z = 1 then
      { s with pc := ((m (sp + 1) <<< 8) ||| m sp) % 65536, cycles := cyclesAdd s 11,
               sp := (s.sp + 2) % 65536 }
    else { s with cycles := cyclesAdd s 5, pc := pcAdd s 1 }
  else if op = 0xda then -- JC
    { s with pc := if s.CY = 1 then (opcode 1 ||| (opcode 2 <<< 8)) % 65536 else pcAdd s 3,
             cycles := cyclesAdd s 10 }
  else if op = 0xca then -- JZ
    { s with pc := if s.Z = 1 then (opcode 1 ||| (opcode 2 <<< 8)) % 65536 else pcAdd s 3,
             cycles := cyclesAdd s 10 }
  else if op = 0x27 then -- DAA
    let ls := s.A &&& 0xf
    let a1 := if ls > 9 then (s.A + 6) % 256 else s.A
    let ms := (a1 &&& 0xf0) >>> 4
    let s1 : State :=
      if ms > 9 ∨ s.CY = 1 then
        let ms1 := (ms + 6) % 256
        let ms2 := ms1 &&& 0xf
        { s with CY := if ms1 > 0xf then 1 else 0, A := ((a1 &&& 0xf) ||| (ms2 <<< 4)) % 256 }
      else { s with A := a1 }
    { s1 with Z := zeroFlag s1.A, S := signFlag s1.A, P := parity (s1.A : Int) 8,
              pc := pcAdd s 1, cycles := cyclesAdd s 4 }
  else if op = 0x7d then -- MOV A,L
    { s with A := s.L, cycles := cyclesAdd s 5, pc := pcAdd s 1 }
  else if op = 0x3d then -- DCR A
    let a := u8 ((s.A : Int) - 1)
    { s with A := a, Z := zeroFlag a, S := signFlag a, P := parity (a : Int) 8,
             pc := pcAdd s 1, cycles := cyclesAdd s 5 }
  else if op = 0x80 then -- ADD B
    let cy := if (s.A : Int) > 0xFF - (s.B : Int) then 1 else 0
    let a := (s.A + s.B) % 256
    { s with CY := cy, A := a, Z := zeroFlag a, S := signFlag a, P := parity (a : Int) 8,
             pc := pcAdd s 1, cycles := cyclesAdd s 4 }
  else if op = 0x22 then -- SHLD
    let m1 := store m ((opcode 1 ||| (opcode 2 <<< 8) : Nat) : Int) s.L
    let m2 := store m1 (((opcodeAt m1 s.pc 1 ||| (opcodeAt m1 s.pc 2 <<< 8) : Nat) : Int) + 1) s.H
    { s with memory := m2, pc := pcAdd s 3, cycles := cyclesAdd s 16 }
  else if op = 0xd2 then -- JNC
    { s with pc := if s.CY = 0 then (opcode 1 ||| (opcode 2 <<< 8)) % 65536 else pcAdd s 3,
             cycles := cyclesAdd s 10 }
  else if op = 0x82 then -- ADD D
    let cy := if (s.A : Int) > 0xFF - (s.D : Int) then 1 else 0
    let a := (s.A + s.D) % 256
    { s with CY := cy, A := a, Z := zeroFlag a, S := signFlag a, P := parity (a : Int) 8,
             pc := pcAdd s 1, cycles := cyclesAdd s 4 }
  else if op = 0x17 then -- RAL
    let result := (s.A <<< 1) ||| s.CY
    { s with CY := (s.A &&& 0x80) >>> 7, A := result &&& 0xff,
             pc := pcAdd s 1, cycles := cyclesAdd s 4 }
  else if op = 0x4e then -- MOV C,M
    { s with C := m HL, cycles := cyclesAdd s 7, pc := pcAdd s 1 }
  else if op = 0x2a then -- LHLD
    { s with L := m ((opcode 1 ||| (opcode 2 <<< 8) : Nat) : Int),
             H := m (((opcode 1 ||| (opcode 2 <<< 8) : Nat) : Int) + 1),
             cycles := cyclesAdd s 16, pc := pcAdd s 3 }
  else if op = 0x0a then -- LDAX B
    { s with A := m ((pair s.B s.C : Nat) : Int), pc := pcAdd s 1, cycles := cyclesAdd s 7 }
  else if op = 0x37 then -- STC
    { s with CY := 1, pc := pcAdd s 1, cycles := cyclesAdd s 4 }
  else if op = 0x03 then -- INX B
    let result := (pair s.B s.C + 1) % 4294967296
    { s with B := (result >>> 8) % 256, C := result &&& 0xff,
             pc := pcAdd s 1, cycles := cyclesAdd s 5 }
  else if op = 0x67 then -- MOV H,A
    { s with H := s.A, cycles := cyclesAdd s 5, pc := pcAdd s 1 }
  else if op = 0x5f then -- MOV E,A
    { s with E := s.A, cycles := cyclesAdd s 5, pc := pcAdd s 1 }
  else if op = 0x57 then -- MOV D,A
    { s with D := s.A, cycles := cyclesAdd s 5, pc := pcAdd s 1 }
  else if op = 0xd8 then -- RC
    if s.CY = 1 then
      { s with pc := ((m (sp + 1) <<< 8) ||| m sp) % 65536, sp := (s.sp + 2) % 65536,
               cycles := cyclesAdd s 11 }
    else { s with pc := pcAdd s 1, cycles := cyclesAdd s 5 }
  else if op = 0x4f then -- MOV C,A
    { s with C := s.A, cycles := cyclesAdd s 5, pc := pcAdd s 1 }
  else if op = 0x2e then -- MVI L,d8
    { s with L := opcode 1, pc := pcAdd s 2, cycles := cyclesAdd s 7 }
  else if op = 0xb6 then -- ORA M
    let a := s.A ||| m HL
    { s with A := a, Z := zeroFlag a, S := signFlag a, P := parity (a : Int) 8, CY := 0,
             pc := pcAdd s 1, cycles := cyclesAdd s 7 }
  else if op = 0x46 then -- MOV B,M
    { s with B := m HL, cycles := cyclesAdd s 7, pc := pcAdd s 1 }
  else if op = 0xb0 then -- ORA B
    let a := s.A ||| s.B
    { s with A := a, Z := zeroFlag a, S := signFlag a, P := parity (a : Int) 8, CY := 0,
             pc := pcAdd s 1, cycles := cyclesAdd s 4 }
  else if op = 0x79 then -- MOV A,C
    { s with A := s.C, cycles := cyclesAdd s 5, pc := pcAdd s 1 }
  else if op = 0xe3 then -- XTHL
    let m1 := store m sp s.L
    let m2 := store m1 (sp + 1) s.H
    { s with L := m sp, H := m1 (sp + 1), memory := m2,
             pc := pcAdd s 1, cycles := cyclesAdd s 18 }
  else if op = 0xe9 then -- PCHL
    { s with pc := pair s.H s.L % 65536, cycles := cyclesAdd s 5 }
  else if op = 0xa8 then -- XRA B
    let a := s.A ^^^ s.B
    { s with A := a, Z := zeroFlag a, S := signFlag a, P := parity (a : Int) 8, CY := 0,
             pc := pcAdd s 1, cycles := cyclesAdd s 4 }
  else if op = 0xc0 then -- RNZ
    if s.Z = 0 then
      { s with pc := ((m (sp + 1) <<< 8) ||| m sp) % 65536, cycles := cyclesAdd s 11,
               sp := (s.sp + 2) % 65536 }
    else { s with cycles := cyclesAdd s 5, pc := pcAdd s 1 }
  else if op = 0xd0 then -- RNC
    if s.CY = 0 then
      { s with pc := ((m (sp + 1) <<< 8) ||| m sp) % 65536, cycles := cyclesAdd s 11,
               sp := (s.sp + 2) % 65536 }
    else { s with cycles := cyclesAdd s 5, pc := pcAdd s 1 }
  else if op = 0x2b then -- DCX H
    let result := u32 ((pair s.H s.L : Int) - 1)
    { s with H := (result >>> 8) % 256, L := result &&& 0xFF,
             pc := pcAdd s 1, cycles := cyclesAdd s 5 }
  else if op = 0x78 then -- MOV A,B
    { s with A := s.B, pc := pcAdd s 1, cycles := cyclesAdd s 5 }
  else if op = 0xd6 then -- SUI d8
    let cy := if s.A < opcode 1 then 1 else 0
    let a := u8 ((s.A : Int) - (opcode 1 : Int))
    { s with CY := cy, A := a, Z := zeroFlag a, S := signFlag a, P := parity (a : Int) 8,
             pc := pcAdd s 2, cycles := cyclesAdd s 7 }
  else if op = 0x07 then -- RLC
    let result := (s.A <<< 1) ||| ((s.A &&& 0x08) >>> 7)
    { s with CY := (s.A &&& 0x80) >>> 7, A := result &&& 0xFF,
             pc := pcAdd s 1, cycles := cyclesAdd s 4 }
  else if op = 0x16 then -- MVI D,d8
    { s with D := opcode 1, pc := pcAdd s 2, cycles := cyclesAdd s 7 }
  else if op = 0xc4 then -- CNZ a16
    if s.Z = 0 then
      let m1 := store m (sp - 1) (((s.pc + 3) >>> 8) &&& 0xff)
      let m2 := store m1 (sp - 2) ((s.pc + 3) &&& 0xff)
      { s with memory := m2, sp := u16 (sp - 2),
               pc := ((opcodeAt m2 s.pc 2 <<< 8) ||| opcodeAt m2 s.pc 1) % 65536,
               cycles := cyclesAdd s 17 }
    else { s with pc := pcAdd s 3, cycles := cyclesAdd s 11 }
  else if op = 0x1f then -- RAR
    let result := (s.A >>> 1) ||| (s.CY <<< 7)
    { s with CY := s.A &&& 0x1, A := result &&& 0xff,
             pc := pcAdd s 1, cycles := cyclesAdd s 4 }
  else if op = 0xf6 then -- ORI d8
    let cy := if (s.A : Int) > 0xFF - (opcode 1 : Int) then 1 else 0
    let a := s.A ||| opcode 1
    { s with CY := cy, A := a, Z := zeroFlag a, S := signFlag a, P := parity (a : Int) 8,
             pc := pcAdd s 2, cycles := cyclesAdd s 7 }
  else if op = 0x04 then -- INR B
    let b := (s.B + 1) % 256
    { s with B := b, Z := zeroFlag b, S := signFlag b, P := parity (b : Int) 8,
             pc := pcAdd s 1, cycles := cyclesAdd s 5 }
  else if op = 0x70 then -- MOV M,B
    { s with memory := store m HL s.B, pc := pcAdd s 1, cycles := cyclesAdd s 7 }
  else if op = 0xb4 then -- ORA H
    let a := s.A ||| s.H
    { s with A := a, Z := zeroFlag a, S := signFlag a, P := parity (a : Int) 8, CY := 0,
             pc := pcAdd s 1, cycles := cyclesAdd s 4 }
  else if op = 0x3c then -- INR A
    let a := (s.A + 1) % 256
    { s with A := a, Z := zeroFlag a, S := signFlag a, P := parity (a : Int) 8,
             pc := pcAdd s 1, cycles := cyclesAdd s 5 }
  else if op = 0xcc then -- CZ a16
    if s.Z = 1 then
      let m1 := store m (sp - 1) (((s.pc + 3) >>> 8) &&& 0xff)
      let m2 := store m1 (sp - 2) ((s.pc + 3) &&& 0xff)
      { s with memory := m2, sp := u16 (sp - 2),
               pc := ((opcodeAt m2 s.pc 2 <<< 8) ||| opcodeAt m2 s.pc 1) % 65536,
               cycles := cyclesAdd s 17 }
    else { s with pc := pcAdd s 3, cycles := cyclesAdd s 11 }
  else if op = 0xfa then -- JM a16
    { s with pc := if s.S = 1 then (opcode 1 ||| (opcode 2 <<< 8)) % 65536 else pcAdd s 3,
             cycles := cyclesAdd s 10 }
  else if op = 0x68 then -- MOV L,B
    { s with L := s.B, pc := pcAdd s 1, cycles := cyclesAdd s 5 }
  else if op = 0x61 then -- MOV H,C
    { s with H := s.C, pc := pcAdd s 1, cycles := cyclesAdd s 5 }
  else if op = 0xde then -- SBI d8
    let result := (opcode 1 + s.CY) % 4294967296
    let cy := if s.A < result then 1 else 0
    let a := u8 ((s.A : Int) - (result : Int))
    { s with CY := cy, A := a, Z := zeroFlag a, S := signFlag a, P := parity (a : Int) 8,
             pc := pcAdd s 2, cycles := cyclesAdd s 7 }
  else if op = 0x47 then -- MOV B,A
    { s with B := s.A, pc := pcAdd s 1, cycles := cyclesAdd s 5 }
  else if op = 0x14 then -- INR D
    let d := (s.D + 1) % 256
    { s with D := d, Z := zeroFlag d, S := signFlag d, P := parity (d : Int) 8,
             pc := pcAdd s 1, cycles := cyclesAdd s 5 }
  else if op = 0x15 then -- DCR D
    let d := u8 ((s.D : Int) - 1)
    { s with D := d, Z := zeroFlag d, S := signFlag d, P := parity (d : Int) 8,
             pc := pcAdd s 1, cycles := cyclesAdd s 5 }
  else if op = 0x86 then -- ADD M
    let cy := if (s.A : Int) > 0xFF - (m HL : Int) then 1 else 0
    let a := (s.A + m HL) % 256
    { s with CY := cy, A := a, Z := zeroFlag a, S := signFlag a, P := parity (a : Int) 8,
             pc := pcAdd s 1, cycles := cyclesAdd s 7 }
  else if op = 0x69 then -- MOV L,C
    { s with L := s.C, pc := pcAdd s 1, cycles := cyclesAdd s 5 }
  else if op = 0x34 then -- INR M
    let v := (m HL + 1) % 256
    { s with memory := store m HL v, Z := zeroFlag v, S := signFlag v, P := parity (v : Int) 8,
             pc := pcAdd s 1, cycles := cyclesAdd s 10 }
  else if op = 0xb8 then -- CMP B
    let cy := if s.A < s.B then 1 else 0
    let result := u32 ((s.A : Int) - (s.B : Int))
    { s with CY := cy, Z := if result = 0 then 1 else 0, S := signFlag result,
             P := parity (i32 result) 8, pc := pcAdd s 1, cycles := cyclesAdd s 4 }
  else if op = 0x85 then -- ADD L
    let cy := if (s.A : Int) > 0xFF - (s.L : Int) then 1 else 0
    let a := (s.A + s.L) % 256
    { s with CY := cy, A := a, Z := zeroFlag a, S := signFlag a, P := parity (a : Int) 8,
             pc := pcAdd s 1, cycles := cyclesAdd s 4 }
  else if op = 0xa0 then -- ANA B
    let a := s.A &&& s.B
    { s with A := a, Z := zeroFlag a, S := signFlag a, P := parity (a : Int) 8, CY := 0,
             pc := pcAdd s 1, cycles := cyclesAdd s 4 }
  else if op = 0xbe then -- CMP M
    let result := u32 ((s.A : Int) - (m HL : Int))
    { s with CY := if result &&& 0x100 ≠ 0 then 1 else 0, Z := if result = 0 then 1 else 0,
             S := signFlag result, P := parity (i32 result) 8,
             pc := pcAdd s 1, cycles := cyclesAdd s 4 }
  else if op = 0x1b then -- DCX D
    let result := u32 ((pair s.D s.E : Int) - 1)
    { s with D := (result >>> 8) % 256, E := result &&& 0xFF,
             pc := pcAdd s 1, cycles := cyclesAdd s 5 }
  else if op = 0x25 then -- DCR H
    let h := u8 ((s.H : Int) - 1)
    { s with H := h, Z := zeroFlag h, S := signFlag h, P := parity (h : Int) 8,
             pc := pcAdd s 1, cycles := cyclesAdd s 5 }
  else if op = 0x12 then -- STAX D
    { s with memory := store m ((pair s.D s.E : Nat) : Int) s.A,
             pc := pcAdd s 1, cycles := cyclesAdd s 7 }
  else if op = 0xbc then -- CMP H
    let result := u32 ((s.A : Int) - (s.H : Int))
    { s with CY := if result &&& 0x100 ≠ 0 then 1 else 0, Z := if result = 0 then 1 else 0,
             S := signFlag result, P := parity (i32 result) 8,
             pc := pcAdd s 1, cycles := cyclesAdd s 4 }
  else if op = 0xd4 then -- CNC a16
    if s.CY = 0 then
      let m1 := store m (sp - 1) (((s.pc + 3) >>> 8) &&& 0xff)
      let m2 := store m1 (sp - 2) ((s.pc + 3) &&& 0xff)
      { s with memory := m2, sp := u16 (sp - 2),
               pc := ((opcodeAt m2 s.pc 2 <<< 8) ||| opcodeAt m2 s.pc 1) % 65536,
               cycles := cyclesAdd s 17 }
    else { s with pc := pcAdd s 3, cycles := cyclesAdd s 11 }
  else if op = 0xe8 then -- RPE
    if s.P ≠ 0 then
      { s with pc := ((m (sp + 1) <<< 8) ||| m sp) % 65536, sp := (s.sp + 2) % 65536,
               cycles := cyclesAdd s 11 }
    else { s with pc := pcAdd s 1, cycles := cyclesAdd s 5 }
  else if op = 0xd9 then -- RET
    { s with pc := ((m (sp + 1) <<< 8) ||| m sp) % 65536, sp := (s.sp + 2) % 65536,
             cycles := cyclesAdd s 10 }
  else if op = 0x9e then -- SBB M
    let res : Int := (s.A : Int) - (m HL : Int) - (s.CY : Int)
    let a := (Int.land res 0xff).toNat % 256
    { s with A := a, Z := zeroFlag a, S := signFlag a, P := parity (a : Int) 8, CY := 1,
             pc := pcAdd s 1, cycles := cyclesAdd s 4 }
  else if op = 0x40 then -- MOV B,B
    { s with B := s.B, pc := pcAdd s 1, cycles := cyclesAdd s 5 }
  else if op = 0x2c then -- INR L
    let l := (s.L + 1) % 256
    { s with L := l, Z := zeroFlag l, S := signFlag l, P := parity (l : Int) 8,
             pc := pcAdd s 1, cycles := cyclesAdd s 5 }
  else if op = 0x2f then -- CMA
    { s with A := u8 (~~~ (s.A : Int)), cycles := cyclesAdd s 4, pc := pcAdd s 1 }
  else if op = 0xa6 then -- ANA M
    let a := s.A &&& m HL
    { s with A := a, Z := zeroFlag a, S := signFlag a, P := parity (a : Int) 8, CY := 0,
             pc := pcAdd s 1, cycles := cyclesAdd s 7 }
  else if op = 0x71 then -- MOV M,C
    { s with memory := store m HL s.C, pc := pcAdd s 1, cycles := cyclesAdd s 7 }
  else if op = 0x0c then -- INR C
    let c := (s.C + 1) % 256
    { s with C := c, Z := zeroFlag c, S := signFlag c, P := parity (c : Int) 8,
             pc := pcAdd s 1, cycles := cyclesAdd s 5 }
  else if op = 0x65 then -- MOV H,L
    { s with H := s.L, pc := pcAdd s 1, cycles := cyclesAdd s 5 }
  else if op = 0x41 then -- MOV B,C
    { s with B := s.C, pc := pcAdd s 1, cycles := cyclesAdd s 5 }
  else if op = 0x81 then -- ADD C
    let cy := if (s.A : Int) > 0xFF - (s.C : Int) then 1 else 0
    let a := (s.A + s.C) % 256
    { s with CY := cy, A := a, Z := zeroFlag a, S := signFlag a, P := parity (a : Int) 8,
             pc := pcAdd s 1, cycles := cyclesAdd s 4 }
  else if op = 0x97 then -- SUB A
    { s with A := u8 ((s.A : Int) - (s.A : Int)), Z := 1, CY := 0, P := 1, S := 0,
             cycles := cyclesAdd s 4, pc := pcAdd s 1 }
  else if op = 0x48 then -- MOV C,B
    { s with C := s.B, cycles := cyclesAdd s 5, pc := pcAdd s 1 }
  else if op = 0x83 then -- ADD E
    let cy := if (s.A : Int) > 0xFF - (s.E : Int) then 1 else 0
    let a := (s.A + s.E) % 256
    { s with CY := cy, A := a, Z := zeroFlag a, S := signFlag a, P := parity (a : Int) 8,
             pc := pcAdd s 1, cycles := cyclesAdd s 4 }
  else if op = 0x8A then -- ADC D
    let cy := if (s.A : Int) > 0xFF - (s.D : Int) then 1 else 0
    let a := (s.A + (s.D + cy)) % 256
    { s with CY := cy, A := a, Z := zeroFlag a, S := signFlag a, P := parity (a : Int) 8,
             pc := pcAdd s 1, cycles := cyclesAdd s 4 }
  else if op = 0x73 then -- MOV M,E
    { s with memory := store m HL s.E, pc := pcAdd s 1, cycles := cyclesAdd s 7 }
  else if op = 0x72 then -- MOV M,D
    { s with memory := store m HL s.D, pc := pcAdd s 1, cycles := cyclesAdd s 7 }
  else -- default: printf("ERROR %x \n", *opcode)
    { s with cycles := cyclesAdd s 4 }

/-- The case labels of the `switch` of `emulateCycle`, in the order of the source;
a byte outside this list reaches the `default` branch. -/
def implementedOpcodes : List Nat :=
  [0x00, 0x10, 0x20, 0x30, 0x08, 0x18, 0x28, 0x38, 0x01, 0x11, 0x21, 0x31, 0x05, 0x06,
   0x09, 0x0d, 0x0e, 0x0f, 0x13, 0x19, 0x1a, 0x23, 0x26, 0x29, 0x32, 0x36, 0x3a, 0x3e,
   0x56, 0x5e, 0x66, 0x6f, 0x77, 0x7a, 0x7b, 0x7c, 0x7e, 0xa7, 0xaf, 0xc1, 0xc2, 0xc3,
   0xc5, 0xc6, 0xc9, 0xcd, 0xd1, 0xd3, 0xd5, 0xe1, 0xe5, 0xe6, 0xeb, 0xf1, 0xf5, 0xfb,
   0xfe, 0x35, 0xdb, 0xc8, 0xda, 0xca, 0x27, 0x7d, 0x3d, 0x80, 0x22, 0xd2, 0x82, 0x17,
   0x4e, 0x2a, 0x0a, 0x37, 0x03, 0x67, 0x5f, 0x57, 0xd8, 0x4f, 0x2e, 0xb6, 0x46, 0xb0,
   0x79, 0xe3, 0xe9, 0xa8, 0xc0, 0xd0, 0x2b, 0x78, 0xd6, 0x07, 0x16, 0xc4, 0x1f, 0xf6,
   0x04, 0x70, 0xb4, 0x3c, 0xcc, 0xfa, 0x68, 0x61, 0xde, 0x47, 0x14, 0x15, 0x86, 0x69,
   0x34, 0xb8, 0x85, 0xa0, 0xbe, 0x1b, 0x25, 0x12, 0xbc, 0xd4, 0xe8, 0xd9, 0x9e, 0x40,
   0x2c, 0x2f, 0xa6, 0x71, 0x0c, 0x65, 0x41, 0x81, 0x97, 0x48, 0x83, 0x8A, 0x73, 0x72]

/-! ## ROM loading and start-up (emu.cpp, lines 62-96 and 1849-1870) -/

/-- The copy loop `for (i = 0; i < size; i++) memory[i + offset] = buffer[i];` of
`loadRom` and `loadRomZip`: `i` is the loop index and the list holds `buffer[i ..]`. -/
def copyLoop (offset : Int) : List Nat → Nat → (Int → Nat) → (Int → Nat)
  | [], _, m => m
  | b :: rest, i, m => copyLoop offset rest (i + 1) (store m ((i : Int) + offset) b)

/-- The effect of `loadRom` / `loadRomZip` on `memory` for a file with the bytes `buffer`. -/
def loadRom (buffer : List Nat) (offset : Int) (m : Int → Nat) : Int → Nat :=
  copyLoop offset buffer 0 m

/-- The globals as initialised at lines 11-48, with `pc = 0` and `sp = 0xf000` as set at
the start of `main2`, before any ROM is loaded. -/
def resetState : State :=
  { A := 0, B := 0, C := 0, D := 0, E := 0, H := 0, L := 0, sp := 0xf000, pc := 0x0,
    memory := fun _ => 0, Read0 := 0x00, Read1 := 0x83, Read2 := 0x00, ShiftRegister := 0x00,
    noOfBitsToShift := 0x00, shift0 := 0, shift1 := 0, Z := 0, S := 0, P := 0, CY := 0, AC := 0,
    cycles := 0, INT := 0, decideINT := 0, veces := 0 }

/-- The reset state with the bytes `prog` loaded at address 0. -/
def bootWith (prog : List Nat) : State :=
  { resetState with memory := loadRom prog 0 resetState.memory }

/-! ## Interrupts and the frame loop (emu.cpp, lines 1740-1760 and 1872-1952) -/

/-- The function `void interruptExecute(int opcode)`; the `switch` has no `default`. -/
def interruptExecute (opcode : Int) (s : State) : State :=
  let sp : Int := (s.sp : Int)
  if opcode = 0xcf then
    let m1 := store s.memory (sp - 1) ((s.pc >>> 8) &&& 0xff)
    let m2 := store m1 (sp - 2) (s.pc &&& 0xff)
    { s with memory := m2, sp := u16 (sp - 2), pc := 0x08, cycles := cyclesAdd s 11 }
  else if opcode = 0xd7 then
    let m1 := store s.memory (sp - 1) ((s.pc >>> 8) &&& 0xff)
    let m2 := store m1 (sp - 2) (s.pc &&& 0xff)
    { s with memory := m2, sp := u16 (sp - 2), pc := 0x10, cycles := cyclesAdd s 11 }
  else s

/-- The interrupt service step of `main2` (lines 1944-1946):
`decideINT == 0 ? interruptExecute(0xcf) : interruptExecute(0xd7);`
`decideINT = decideINT == 0 ? 1 : 0; INT = 0;`. -/
def serviceInterrupt (s : State) : State :=
  let s1 := if s.decideINT = 0 then interruptExecute 0xcf s else interruptExecute 0xd7 s
  { s1 with decideINT := if s1.decideINT = 0 then 1 else 0, INT := 0 }

/-- The key codes tested by the event loop of `main2`: `SDLK_0`, `SDLK_2`, `SDLK_1`,
`SDLK_SPACE`, `SDLK_LEFT`, `SDLK_RIGHT`, and any other key. -/
inductive Key where
  | k0 | k2 | k1 | space | left | right | other
  deriving DecidableEq

/-- The events delivered by `SDL_PollEvent`, by the cases of lines 1879-1941:
`SDL_QUIT`, `SDL_KEYDOWN`, `SDL_KEYUP`, and any other event type. -/
inductive Event where
  | quit
  | keyDown (k : Key)
  | keyUp (k : Key)
  | other
  deriving DecidableEq

/-- One pass through the body of `while (SDL_PollEvent(&event))` (lines 1879-1941): the
state and the loop flag `repeat` after the event `e`. -/
def handleEvent (e : Event) (s : State) (rep : Bool) : State × Bool :=
  match e with
  | .quit => (s, false)
  | .keyDown .k0 => ({ s with Read0 := s.Read0 ||| 0b00000001 }, rep)
  | .keyDown .k2 => ({ s with Read0 := s.Read0 ||| 0b00000010 }, rep)
  | .keyDown .k1 => ({ s with Read0 := s.Read0 ||| 0b00000100 }, rep)
  | .keyDown .space =>
    ({ s with Read0 := s.Read0 ||| 0b00010000, Read1 := s.Read1 ||| 0b00010000 }, rep)
  | .keyDown .left =>
    ({ s with Read0 := s.Read0 ||| 0b00100000, Read1 := s.Read1 ||| 0b00100000 }, rep)
  | .keyDown .right =>
    ({ s with Read0 := s.Read0 ||| 0b01000000, Read1 := s.Read1 ||| 0b01000000 }, rep)
  | .keyDown .other => (s, rep)
  | .keyUp .k0 => ({ s with Read0 := s.Read0 &&& 0b11111110 }, rep)
  | .keyUp .k2 => ({ s with Read0 := s.Read0 &&& 0b11111101 }, rep)
  | .keyUp .k1 => ({ s with Read0 := s.Read0 &&& 0b11111011 }, rep)
  | .keyUp .space =>
    ({ s with Read0 := s.Read0 &&& 0b11101111, Read1 := s.Read1 &&& 0b11101111 }, rep)
  | .keyUp .left =>
    ({ s with Read0 := s.Read0 &&& 0b11011111, Read1 := s.Read1 &&& 0b11011111 }, rep)
  | .keyUp .right =>
    ({ s with Read0 := s.Read0 &&& 0b10111111, Read1 := s.Read1 &&& 0b10111111 }, rep)
  | .keyUp .other => (s, rep)
  | .other => (s, rep)

/-- The loop `while (SDL_PollEvent(&event)) ...` over the pending events, oldest first. -/
def pollEvents : List Event → State → Bool → State × Bool
  | [], s, rep => (s, rep)
  | e :: rest, s, rep => pollEvents rest (handleEvent e s rep).1 (handleEvent e s rep).2

/-- The constant `u_int32_t refresh = (2000000 / 60) / 2` (line 15). -/
def refresh : Nat := (2000000 / 60) / 2

/-- The threshold check of the frame loop (lines 1876-1951), run after each instruction:
`events` are the events pending in the SDL queue and `rep` is the loop flag `repeat`.
`draw()` and `SDL_Delay(10)` read the emulator state and do not change it. -/
def thresholdCheck (events : List Event) (s : State) (rep : Bool) : State × Bool :=
  if s.INT = 1 ∧ s.cycles ≥ refresh then
    let r := pollEvents events s rep
    ({ serviceInterrupt r.1 with cycles := 0 }, r.2)
  else (s, rep)

/-- One iteration of `while (repeat)` in `main2` (lines 1872-1952):
`emulateCycle(); veces++;` followed by the threshold check. -/
def frameIteration (events : List Event) (s : State) (rep : Bool) : State × Bool :=
  let s1 := emulateCycle s
  let s2 : State := { s1 with veces := (s1.veces + 1) % 4294967296 }
  thresholdCheck events s2 rep

/-- The bytes `prog` are the instruction stream at `pc`: `memory[pc + i] = prog[i]`. -/
def programAt (s : State) (prog : List Nat) : Prop :=
  ∀ i : Nat, i < prog.length → s.memory ((s.pc + i : Nat) : Int) = prog.getD i 0

/-- The predicate `programAt` is a finite check of the bytes at `pc`, `pc + 1`, ... -/
instance programAtDecidable (s : State) (prog : List Nat) : Decidable (programAt s prog) := by
  unfold programAt
  exact inferInstance

/-- The instruction bytes of `MVI A,a ; OUT 2 ; MVI A,x ; OUT 4 ; MVI A,y ; OUT 4 ; IN 3`:
the shift amount port is written with `a`, the shift data port with `x` and then `y`, and
the shift result port is read. -/
def shiftProgram (a x y : Nat) : List Nat :=
  [0x3E, a, 0xD3, 0x02, 0x3E, x, 0xD3, 0x04, 0x3E, y, 0xD3, 0x04, 0xDB, 0x03]

/-- The instruction bytes of `LXI H,d16 ; STA a16 ; JMP t16` with the operands given by
their low and high bytes. -/
def lxiStaJmp (lo hi alo ahi tlo thi : Nat) : List Nat :=
  [0x21, lo, hi, 0x32, alo, ahi, 0xC3, tlo, thi]

/-! ## Classification of the opcodes by the flags they may change -/

/-- The implemented opcodes that are documented to affect no flag: the no-op encodings, the
data transfers (LXI, MVI, LDAX, STAX, SHLD, LHLD, STA, LDA, MOV), the stack instructions
except POP PSW, INX/DCX, XCHG and XTHL, the jumps, calls and returns, IN, OUT, EI and CMA. -/
def flagNeutralOpcodes : List Nat :=
  [0x00, 0x08, 0x10, 0x18, 0x20, 0x28, 0x30, 0x38,
   0x01, 0x11, 0x21, 0x31, 0x06, 0x0e, 0x16, 0x26, 0x2e, 0x36, 0x3e, 0x0a, 0x1a, 0x12,
   0x22, 0x2a, 0x32, 0x3a,
   0x40, 0x41, 0x46, 0x47, 0x48, 0x4e, 0x4f, 0x56, 0x57, 0x5e, 0x5f, 0x61, 0x65, 0x66,
   0x67, 0x68, 0x69, 0x6f, 0x70, 0x71, 0x72, 0x73, 0x77, 0x78, 0x79, 0x7a, 0x7b, 0x7c,
   0x7d, 0x7e,
   0xc1, 0xc5, 0xd1, 0xd5, 0xe1, 0xe5, 0xf5,
   0x03, 0x13, 0x23, 0x1b, 0x2b,
   0xeb, 0xe3,
   0xc2, 0xc3, 0xca, 0xd2, 0xda, 0xfa, 0xe9, 0xcd, 0xc4, 0xcc, 0xd4, 0xc9, 0xd9, 0xc0,
   0xc8, 0xd0, 0xd8, 0xe8,
   0xdb, 0xd3, 0xfb, 0x2f]

/-- The implemented 8 bit INR and DCR opcodes. -/
def incDecOpcodes : List Nat :=
  [0x04, 0x05, 0x0C, 0x0D, 0x14, 0x15, 0x25, 0x2C, 0x34, 0x35, 0x3C, 0x3D]

/-- The implemented opcodes documented to affect the carry only: DAD B, DAD D, DAD H, RLC,
RRC, RAL, RAR and STC. -/
def carryOnlyOpcodes : List Nat :=
  [0x09, 0x19, 0x29, 0x07, 0x0F, 0x17, 0x1F, 0x37]

/-- The remaining implemented opcodes, which set Z, S, P and CY: the arithmetic, logical
and compare instructions, DAA and POP PSW. -/
def flagSettingOpcodes : List Nat :=
  [0xa7, 0xaf, 0xc6, 0xe6, 0xf1, 0xfe, 0x27, 0x80, 0x82, 0xb6, 0xb0, 0xa8, 0xd6, 0xf6,
   0xb4, 0xde, 0x86, 0xb8, 0x85, 0xa0, 0xbe, 0xbc, 0x9e, 0xa6, 0x81, 0x97, 0x83, 0x8A]

/-- The register or memory cell that an INR or DCR opcode works on, read in state `s`. -/
def incDecTarget (op : Nat) (s : State) : Nat :=
  if op = 0x04 ∨ op = 0x05 then s.B
  else if op = 0x0C ∨ op = 0x0D then s.C
  else if op = 0x14 ∨ op = 0x15 then s.D
  else if op = 0x25 then s.H
  else if op = 0x2C then s.L
  else if op = 0x34 ∨ op = 0x35 then s.memory ((pair s.H s.L : Nat) : Int)
  else s.A

/-- The amount an INR or DCR opcode adds modulo 256: 1 for INR, 255 for DCR. -/
def incDecDelta (op : Nat) : Nat :=
  if op = 0x04 ∨ op = 0x0C ∨ op = 0x14 ∨ op = 0x2C ∨ op = 0x34 ∨ op = 0x3C then 1 else 255

/-- All four flags are 0 or 1. -/
def flagsOK (s : State) : Prop := s.Z ≤ 1 ∧ s.S ≤ 1 ∧ s.P ≤ 1 ∧ s.CY ≤ 1

/-- The states reachable from reset: start-up with any ROM contents in memory, then any
sequence of `emulateCycle` steps, `interruptExecute` calls and iterations of the frame
loop with any pending events. -/
inductive Reachable : State → Prop where
  | boot (m : Int → Nat) : Reachable { resetState with memory := m }
  | cycle {s : State} : Reachable s → Reachable (emulateCycle s)
  | interrupt {s : State} (opcode : Int) : Reachable s → Reachable (interruptExecute opcode s)
  | frame {s : State} (events : List Event) (rep : Bool) :
      Reachable s → Reachable (frameIteration events s rep).1

/-! ## Decimal adjust and packed BCD -/

/-- The DAA block on the accumulator and the carry (lines 697-712), as a function of the
incoming `A` and `CY`; it returns the new `A` and the new `CY`:
`ls = A & 0xf; if (ls > 9) A += 6; ms = (A & 0xf0) >> 4;
if (ms > 9 || CY == 1) { ms += 6; if (ms > 0xf) CY = 1; else CY = 0; ms &= 0xf; A &= 0xf;
A |= (ms << 4); }`. -/
def daaAdjust (a cy : Nat) : Nat × Nat :=
  let ls := a &&& 0xf
  let a1 := if ls > 9 then (a + 6) % 256 else a
  let ms := (a1 &&& 0xf0) >>> 4
  if ms > 9 ∨ cy = 1 then
    let ms1 := (ms + 6) % 256
    let ms2 := ms1 &&& 0xf
    (((a1 &&& 0xf) ||| (ms2 <<< 4)) % 256, if ms1 > 0xf then 1 else 0)
  else (a1, cy)

/-- The number a packed-BCD byte stands for: ten times the high digit plus the low digit. -/
def bcdValue (x : Nat) : Nat := (x / 16) * 10 + x % 16

/-- The packed-BCD byte of a number below 100: the tens in the high nibble, the units in
the low nibble. -/
def bcdEncode (n : Nat) : Nat := (n / 10) * 16 + n % 10

/-! ## Theorems -/

/-! ### Bit-level facts used by several properties -/

/-- Bit `i` of `x >> 1` is bit `i + 1` of `x`, for a signed `x`. -/
theorem testBit_shiftRight_one (x : Int) (i : Nat) :
    (x >>> (1 : Nat)).testBit i = x.testBit (i + 1) := by
  cases x with
  | ofNat n =>
    show Nat.testBit (n >>> 1) i = Nat.testBit n (i + 1)
    rw [Nat.testBit_shiftRight, Nat.add_comm]
  | negSucc n =>
    show (!Nat.testBit (n >>> 1) i) = !Nat.testBit n (i + 1)
    rw [Nat.testBit_shiftRight, Nat.add_comm]

/-- The test `x & 0x1` of the parity loop reads bit 0 of `x`. -/
theorem land_one_ne_zero (x : Int) : Int.land x 1 ≠ 0 ↔ x.testBit 0 = true := by
  cases x with
  | ofNat n =>
    show ((n &&& 1 : Nat) : Int) ≠ 0 ↔ Nat.testBit n 0 = true
    rw [Nat.and_one_is_mod, Nat.testBit_zero]
    simp
    omega
  | negSucc n =>
    show ((Nat.ldiff 1 n : Nat) : Int) ≠ 0 ↔ (!Nat.testBit n 0) = true
    have h : Nat.ldiff 1 n = if n % 2 = 0 then 1 else 0 := by
      apply Nat.eq_of_testBit_eq
      intro i
      rw [Nat.testBit_ldiff]
      cases i with
      | zero => 
        simp [Nat.testBit_zero]
        split <;> simp_all
      | succ j => 
        have : Nat.testBit 1 (j+1) = false := by
          rw [Nat.testBit_succ]; simp
        rw [this]
        split <;> simp [Nat.testBit_succ]
    rw [h, Nat.testBit_zero]
    split <;> simp_all
/-- The parity loop adds to `p` the number of one bits among the low `k` bits. -/
theorem parityLoop_eq (k : Nat) : ∀ (x : Int) (p : Nat),
    parityLoop k x p = p + lowBitCount x k := by
  induction k with
  | zero => intro x p; simp [parityLoop, lowBitCount]
  | succ k ih =>
    intro x p
    rw [parityLoop, ih]
    unfold lowBitCount
    rw [List.range_succ_eq_map, List.countP_cons, List.countP_map]
    have hc : List.countP ((fun i => x.testBit i) ∘ Nat.succ) (List.range k)
        = List.countP (fun i => (x >>> (1 : Nat)).testBit i) (List.range k) := by
      apply List.countP_congr
      intro i _
      simp [testBit_shiftRight_one]
    rw [hc]
    by_cases h : x.testBit 0 = true
    · rw [if_pos ((land_one_ne_zero x).2 h)]
      simp [h]; omega
    · rw [if_neg (fun hh => h ((land_one_ne_zero x).1 hh))]
      simp [h]

/-- Masking with `(1 << size) - 1` keeps the low `size` bits. -/
theorem lowBitCount_mask (x : Int) (size : Nat) :
    lowBitCount (Int.land x (((1 <<< size : Nat) : Int) - 1)) size = lowBitCount x size := by
  unfold lowBitCount
  apply List.countP_congr
  intro i hi
  have hi' : i < size := List.mem_range.1 hi
  rw [Int.testBit_land]
  have hm : (((1 <<< size : Nat) : Int) - 1) = ((2 ^ size - 1 : Nat) : Int) := by
    rw [Nat.shiftLeft_eq, one_mul]
    have : 0 < 2 ^ size := Nat.pow_pos (by decide)
    omega
  rw [hm]
  have hb : Int.testBit ((2 ^ size - 1 : Nat) : Int) i = true := by
    show Nat.testBit (2 ^ size - 1) i = true
    rw [Nat.testBit_two_pow_sub_one]; simpa using hi'
  rw [hb, Bool.and_true]

/-- The result of `parity` in terms of the count of low one bits. -/
theorem parity_eq (x : Int) (size : Nat) :
    parity x size = if Even (lowBitCount x size) then 1 else 0 := by
  unfold parity
  simp only [parityLoop_eq, lowBitCount_mask, Nat.zero_add, Nat.and_one_is_mod]
  by_cases h : Even (lowBitCount x size)
  · rw [if_pos h, if_pos]; rw [Nat.even_iff] at h; omega
  · rw [if_neg h, if_neg]; rw [Nat.even_iff] at h; omega

/-- For `n < 2^k` the one bits below position `k` are the binary digits of `n`. -/
theorem countP_testBit_eq_digits_sum (k : Nat) : ∀ n : Nat, n < 2 ^ k →
    (List.range k).countP (fun i => n.testBit i) = (Nat.digits 2 n).sum := by
  induction k with
  | zero =>
    intro n hn
    have : n = 0 := by simpa using hn
    subst this; simp
  | succ k ih =>
    intro n hn
    rw [List.range_succ_eq_map, List.countP_cons, List.countP_map]
    have hc : List.countP ((fun i => n.testBit i) ∘ Nat.succ) (List.range k)
        = List.countP (fun i => (n / 2).testBit i) (List.range k) := by
      apply List.countP_congr
      intro i _
      simp [Nat.testBit_succ]
    have h2 : n / 2 < 2 ^ k := by
      rw [Nat.pow_succ] at hn; omega
    rw [hc, ih _ h2]
    rcases Nat.eq_zero_or_pos n with h0 | hpos
    · subst h0; simp
    · rw [Nat.digits_def' (by decide) hpos, List.sum_cons, Nat.testBit_zero]
      rcases Nat.mod_two_eq_zero_or_one n with h | h <;> simp [h]; omega

/-- For a byte the count of low one bits is its `popcount`. -/
theorem lowBitCount_byte (v : Nat) (hv : v < 256) : lowBitCount (v : Int) 8 = popcount v := by
  unfold lowBitCount popcount
  exact countP_testBit_eq_digits_sum 8 v (by simpa using hv)

/-- The sign flag test reads bit 7. -/
theorem signFlag_eq (x : Nat) : signFlag x = (x / 128) % 2 := by
  unfold signFlag
  have h := Nat.and_two_pow x 7
  rw [Nat.testBit_to_div_mod] at h
  have e : (2 : Nat) ^ 7 = 128 := by norm_num
  rw [e] at h
  rw [show (0x80 : Nat) = 128 from rfl, h]
  rcases Nat.mod_two_eq_zero_or_one (x / 128) with h2 | h2 <;> simp [h2]

/-- The expression `(h << 8) | l` is `h * 256 + l` when `l` is a byte. -/
theorem pair_eq (h l : Nat) (hl : l < 256) : pair h l = h * 256 + l := by
  unfold pair
  have := Nat.mul_add_lt_is_or (show l < 2 ^ 8 by simpa using hl) h
  rw [Nat.shiftLeft_eq, ← Nat.mul_comm, ← this]

/-- Reduction modulo `2^k` keeps the bits below position `k`, also for negative `y`. -/
theorem testBit_emod_two_pow (y : Int) (k i : Nat) (hi : i < k) :
    (y % ((2 ^ k : Nat) : Int)).testBit i = y.testBit i := by
  cases y with
  | ofNat n =>
    show Int.testBit (((n : Nat) : Int) % ((2 ^ k : Nat) : Int)) i = Nat.testBit n i
    rw [Int.ofNat_mod_ofNat]
    show Nat.testBit (n % 2 ^ k) i = Nat.testBit n i
    rw [Nat.testBit_mod_two_pow]; simp [hi]
  | negSucc n =>
    have hpos : (0 : Int) < ((2 ^ k : Nat) : Int) := by
      have : 0 < 2 ^ k := Nat.pow_pos (by decide)
      omega
    rw [Int.negSucc_emod n hpos]
    have hlt : n % 2 ^ k < 2 ^ k := Nat.mod_lt _ (Nat.pow_pos (by decide))
    have e : ((2 ^ k : Nat) : Int) - 1 - (n : Int) % ((2 ^ k : Nat) : Int)
        = ((2 ^ k - (n % 2 ^ k + 1) : Nat) : Int) := by
      rw [Int.ofNat_mod_ofNat]; omega
    rw [e]
    show Nat.testBit (2 ^ k - (n % 2 ^ k + 1)) i = !Nat.testBit n i
    rw [Nat.testBit_two_pow_sub_succ hlt, Nat.testBit_mod_two_pow]
    simp [hi]

/-- The call `parity(y, 8)` is the even-parity bit of the low byte of `y`. -/
theorem parity_byte (y : Int) : parity y 8 = evenParity (u8 y) := by
  rw [parity_eq]
  unfold evenParity u8
  have hnn : 0 ≤ y % 256 := Int.emod_nonneg y (by decide)
  have hlt : (y % 256).toNat < 256 := by omega
  rw [← lowBitCount_byte _ hlt, Int.toNat_of_nonneg hnn]
  have : lowBitCount (y % 256) 8 = lowBitCount y 8 := by
    unfold lowBitCount
    apply List.countP_congr
    intro i hi
    have := testBit_emod_two_pow y 8 i (List.mem_range.1 hi)
    simp only [show ((2 ^ 8 : Nat) : Int) = 256 by norm_num] at this
    rw [this]
  rw [this]

/-- The call `parity(v, 8)` on a byte `v`. -/
theorem parity_nat_byte (v : Nat) (hv : v < 256) : parity (v : Int) 8 = evenParity v := by
  rw [parity_byte]; unfold u8; congr 1; omega

/-! ### C1: `parity` -/

/-- C1: for every integer `x` and every `size` with `0 <= size <= 16`, `parity x size` is `1`
when the number of one bits among the low `size` bits of `x` is even and `0` otherwise; and
for every byte `v`, `parity v 8 = 1` exactly when the number of one bits of `v` is even. -/
theorem parity_correct (x : Int) (size : Nat) (hsize : size ≤ 16) :
    (parity x size = if Even (lowBitCount x size) then 1 else 0) ∧
    (∀ v : Nat, v < 256 → (parity (v : Int) 8 = 1 ↔ Even (popcount v))) := by
  -- `hsize` keeps `1 << size` inside the range of a C `int`; the model needs no more.
  have _ := hsize
  refine ⟨parity_eq x size, ?_⟩
  intro v hv
  rw [parity_nat_byte v hv]
  unfold evenParity
  by_cases h : Even (popcount v) <;> simp [h]

/-- Witness for C1 at `x = -75` (low byte `0xB5`, five one bits) and `size = 8`. -/
theorem parity_correct_witness :
    (8 : Nat) ≤ 16 ∧ parity (-75) 8 = (if Even (lowBitCount (-75) 8) then 1 else 0) :=
  ⟨by decide, (parity_correct (-75) 8 (by decide)).1⟩

/-! ### C2: unimplemented opcodes -/

/-- The `default` branch as the source computes it: when the byte at `memory[pc]` is not a
case label of the `switch` (for instance `0x02` or `0x76`), one `emulateCycle` step adds 4 to
the 32 bit cycle counter and leaves everything else, the program counter included,
unchanged. -/
theorem unimplemented_opcode_step (s : State) (h : s.memory s.pc ∉ implementedOpcodes) :
    emulateCycle s = { s with cycles := (s.cycles + 4) % 4294967296 } ∧
    0x02 ∉ implementedOpcodes ∧ 0x76 ∉ implementedOpcodes := by
  refine ⟨?_, by decide, by decide⟩
  simp only [implementedOpcodes, List.mem_cons, List.mem_singleton, List.not_mem_nil, not_or,
    or_false] at h
  simp only [emulateCycle, opcodeAt, Int.add_zero, h, or_self, if_false, cyclesAdd]

/-- The `default` branch at the reset state with the unimplemented byte `0x76` at
address 0. -/
theorem unimplemented_opcode_step_witness :
    (bootWith [0x76]).memory (bootWith [0x76]).pc ∉ implementedOpcodes ∧
    emulateCycle (bootWith [0x76])
      = { bootWith [0x76] with cycles := ((bootWith [0x76]).cycles + 4) % 4294967296 } :=
  ⟨by decide, (unimplemented_opcode_step (bootWith [0x76]) (by decide)).1⟩

/-- With the unimplemented byte `0x02` at `memory[pc]` the program counter is not
advanced. -/
theorem unimplemented_opcode_pc_counterexample :
    (bootWith [0x02]).memory (bootWith [0x02]).pc ∉ implementedOpcodes ∧
    (emulateCycle (bootWith [0x02])).pc = (bootWith [0x02]).pc ∧
    (emulateCycle (bootWith [0x02])).pc ≠ ((bootWith [0x02]).pc + 1) % 65536 := by
  decide

/-- A state whose byte at `pc` is not a case label never leaves that byte: after any number
of steps pc and memory are as they were. -/
theorem default_stays (s : State) (h : s.memory s.pc ∉ implementedOpcodes) (n : Nat) :
    (emulateCycle^[n] s).pc = s.pc ∧ (emulateCycle^[n] s).memory = s.memory := by
  induction n with
  | zero => exact ⟨rfl, rfl⟩
  | succ k ih =>
    rw [Function.iterate_succ_apply']
    have h' : (emulateCycle^[k] s).memory (emulateCycle^[k] s).pc ∉ implementedOpcodes := by
      rw [ih.1, ih.2]; exact h
    rw [(unimplemented_opcode_step _ h').1]
    exact ih

/-- C2 fails on the code: from the reset state with the unimplemented byte `0x02` at
address 0, one step adds 4 to the cycle counter but leaves pc at 0, where the claim gives
pc = 1; the same byte is then fetched again, so pc is still 0 after any number of steps.
The no-op `0x00` at the same place does advance pc to 1 with the same 4 cycles. -/
theorem unimplemented_opcode_stalls :
    (bootWith [0x02]).memory (bootWith [0x02]).pc ∉ implementedOpcodes ∧
    (emulateCycle (bootWith [0x02])).cycles = 4 ∧
    (emulateCycle (bootWith [0x02])).pc = 0 ∧
    (emulateCycle (bootWith [0x02])).pc ≠ ((bootWith [0x02]).pc + 1) % 65536 ∧
    (∀ n : Nat, (emulateCycle^[n] (bootWith [0x02])).pc = 0) ∧
    (emulateCycle (bootWith [0x00])).pc = 1 ∧ (emulateCycle (bootWith [0x00])).cycles = 4 :=
  ⟨by decide, by decide, by decide, by decide,
    fun n => (default_stays (bootWith [0x02]) (by decide) n).1, by decide, by decide⟩

/-! ### C3: the no-op encodings -/

/-- C3: when `memory[pc]` is one of the bytes `0x00, 0x08, 0x10, 0x18, 0x20, 0x28, 0x30, 0x38`,
one `emulateCycle` step changes only `pc` (to `pc + 1` in 16 bit arithmetic) and the cycle
counter (to `cycles + 4` in 32 bit arithmetic); registers, `sp`, flags, the interrupt latch,
the I/O latches and memory are unchanged. -/
theorem nop_frame (s : State)
    (h : s.memory s.pc ∈ [0x00, 0x08, 0x10, 0x18, 0x20, 0x28, 0x30, 0x38]) :
    emulateCycle s
      = { s with pc := (s.pc + 1) % 65536, cycles := (s.cycles + 4) % 4294967296 } := by
  simp only [List.mem_cons, List.mem_singleton, List.not_mem_nil, or_false] at h
  rcases h with h | h | h | h | h | h | h | h <;>
    simp [emulateCycle, opcodeAt, h, NOP, pcAdd, cyclesAdd]

/-- Witness for C3: the reset state, whose memory holds `0x00` at `pc`. -/
theorem nop_frame_witness :
    resetState.memory resetState.pc ∈ [0x00, 0x08, 0x10, 0x18, 0x20, 0x28, 0x30, 0x38] ∧
    emulateCycle resetState
      = { resetState with pc := (resetState.pc + 1) % 65536,
                          cycles := (resetState.cycles + 4) % 4294967296 } :=
  ⟨by decide, nop_frame resetState (by decide)⟩

/-! ### Single-step equations for the stack instructions -/

/-- PUSH B. -/
theorem step_push_b (s : State) (h : s.memory s.pc = 0xC5) :
    emulateCycle s = { s with
      memory := store (store s.memory ((s.sp : Int) - 2) s.C) ((s.sp : Int) - 1) s.B,
      sp := u16 ((s.sp : Int) - 2), pc := (s.pc + 1) % 65536,
      cycles := (s.cycles + 11) % 4294967296 } := by
  simp [emulateCycle, opcodeAt, h, pcAdd, cyclesAdd]

/-- PUSH D. -/
theorem step_push_d (s : State) (h : s.memory s.pc = 0xD5) :
    emulateCycle s = { s with
      memory := store (store s.memory ((s.sp : Int) - 2) s.E) ((s.sp : Int) - 1) s.D,
      sp := u16 ((s.sp : Int) - 2), pc := (s.pc + 1) % 65536,
      cycles := (s.cycles + 11) % 4294967296 } := by
  simp [emulateCycle, opcodeAt, h, pcAdd, cyclesAdd]

/-- PUSH H. -/
theorem step_push_h (s : State) (h : s.memory s.pc = 0xE5) :
    emulateCycle s = { s with
      memory := store (store s.memory ((s.sp : Int) - 2) s.L) ((s.sp : Int) - 1) s.H,
      sp := u16 ((s.sp : Int) - 2), pc := (s.pc + 1) % 65536,
      cycles := (s.cycles + 11) % 4294967296 } := by
  simp [emulateCycle, opcodeAt, h, pcAdd, cyclesAdd]

/-- POP B. -/
theorem step_pop_b (s : State) (h : s.memory s.pc = 0xC1) :
    emulateCycle s = { s with
      C := s.memory s.sp, B := s.memory ((s.sp : Int) + 1), sp := (s.sp + 2) % 65536,
      pc := (s.pc + 1) % 65536, cycles := (s.cycles + 10) % 4294967296 } := by
  simp [emulateCycle, opcodeAt, h, pcAdd, cyclesAdd]

/-- POP D. -/
theorem step_pop_d (s : State) (h : s.memory s.pc = 0xD1) :
    emulateCycle s = { s with
      E := s.memory s.sp, D := s.memory ((s.sp : Int) + 1), sp := (s.sp + 2) % 65536,
      pc := (s.pc + 1) % 65536, cycles := (s.cycles + 10) % 4294967296 } := by
  simp [emulateCycle, opcodeAt, h, pcAdd, cyclesAdd]

/-- POP H. -/
theorem step_pop_h (s : State) (h : s.memory s.pc = 0xE1) :
    emulateCycle s = { s with
      L := s.memory s.sp, H := s.memory ((s.sp : Int) + 1), sp := (s.sp + 2) % 65536,
      pc := (s.pc + 1) % 65536, cycles := (s.cycles + 10) % 4294967296 } := by
  simp [emulateCycle, opcodeAt, h, pcAdd, cyclesAdd]

/-- Reading the cell just written. -/
theorem store_same (m : Int → Nat) (i : Int) (v : Nat) : store m i v i = v := by
  simp [store]

/-- Reading another cell than the one just written. -/
theorem store_other (m : Int → Nat) (i j : Int) (v : Nat) (h : j ≠ i) : store m i v j = m j := by
  simp [store, h]

/-! ### C4: PUSH rp ; POP rp -/

/-- C4: for each register pair BC, DE, HL, every pair value and every state with
`2 <= sp <= 0xFFFF` in which `memory[pc]` is PUSH rp, the next instruction byte is the
matching POP rp and the two stack bytes at `sp - 2`, `sp - 1` do not overlap that byte: two
`emulateCycle` steps leave the registers of the pair (indeed all of B, C, D, E, H, L) and
`sp` at their original values, with `pc` advanced by 2 and the cycle counter by 21. -/
theorem push_pop_pair (s : State) (hsp : 2 ≤ s.sp) (hsp' : s.sp ≤ 0xFFFF)
    (hop : (s.memory s.pc = 0xC5 ∧ s.memory (((s.pc + 1) % 65536 : Nat) : Int) = 0xC1) ∨
           (s.memory s.pc = 0xD5 ∧ s.memory (((s.pc + 1) % 65536 : Nat) : Int) = 0xD1) ∨
           (s.memory s.pc = 0xE5 ∧ s.memory (((s.pc + 1) % 65536 : Nat) : Int) = 0xE1))
    (hlo : (s.sp : Int) - 2 ≠ (((s.pc + 1) % 65536 : Nat) : Int))
    (hhi : (s.sp : Int) - 1 ≠ (((s.pc + 1) % 65536 : Nat) : Int)) :
    (emulateCycle (emulateCycle s)).B = s.B ∧ (emulateCycle (emulateCycle s)).C = s.C ∧
    (emulateCycle (emulateCycle s)).D = s.D ∧ (emulateCycle (emulateCycle s)).E = s.E ∧
    (emulateCycle (emulateCycle s)).H = s.H ∧ (emulateCycle (emulateCycle s)).L = s.L ∧
    (emulateCycle (emulateCycle s)).sp = s.sp ∧
    (emulateCycle (emulateCycle s)).pc = (s.pc + 2) % 65536 ∧
    (emulateCycle (emulateCycle s)).cycles = (s.cycles + 21) % 4294967296 := by
  have e1 : u16 ((s.sp : Int) - 2) = s.sp - 2 := by unfold u16; omega
  have e2 : ((s.sp - 2 : Nat) : Int) = (s.sp : Int) - 2 := by omega
  have e3 : (s.sp - 2 + 2) % 65536 = s.sp := by omega
  have e4 : ((s.pc + 1) % 65536 + 1) % 65536 = (s.pc + 2) % 65536 := by omega
  have e5 : ((s.cycles + 11) % 4294967296 + 10) % 4294967296
      = (s.cycles + 21) % 4294967296 := by omega
  have e6 : (s.sp : Int) - 2 + 1 = (s.sp : Int) - 1 := by omega
  have e7 : (s.sp : Int) - 2 ≠ (s.sp : Int) - 1 := by omega
  rcases hop with ⟨h1, h2⟩ | ⟨h1, h2⟩ | ⟨h1, h2⟩
  · have hm : store (store s.memory ((s.sp : Int) - 2) s.C) ((s.sp : Int) - 1) s.B
        (((s.pc + 1) % 65536 : Nat) : Int) = 0xC1 := by
      rw [store_other _ _ _ _ hhi.symm, store_other _ _ _ _ hlo.symm, h2]
    rw [step_push_b s h1, step_pop_b _ hm]
    simp [e1, e2, e3, e4, e5, e6, e7, store]
  · have hm : store (store s.memory ((s.sp : Int) - 2) s.E) ((s.sp : Int) - 1) s.D
        (((s.pc + 1) % 65536 : Nat) : Int) = 0xD1 := by
      rw [store_other _ _ _ _ hhi.symm, store_other _ _ _ _ hlo.symm, h2]
    rw [step_push_d s h1, step_pop_d _ hm]
    simp [e1, e2, e3, e4, e5, e6, e7, store]
  · have hm : store (store s.memory ((s.sp : Int) - 2) s.L) ((s.sp : Int) - 1) s.H
        (((s.pc + 1) % 65536 : Nat) : Int) = 0xE1 := by
      rw [store_other _ _ _ _ hhi.symm, store_other _ _ _ _ hlo.symm, h2]
    rw [step_push_h s h1, step_pop_h _ hm]
    simp [e1, e2, e3, e4, e5, e6, e7, store]

/-- Witness for C4: PUSH B ; POP B at address 0 of the reset state (`sp = 0xf000`). -/
theorem push_pop_pair_witness :
    (2 ≤ (bootWith [0xC5, 0xC1]).sp ∧ (bootWith [0xC5, 0xC1]).sp ≤ 0xFFFF ∧
      (bootWith [0xC5, 0xC1]).memory 0 = 0xC5 ∧ (bootWith [0xC5, 0xC1]).memory 1 = 0xC1) ∧
    (emulateCycle (emulateCycle (bootWith [0xC5, 0xC1]))).B = (bootWith [0xC5, 0xC1]).B ∧
    (emulateCycle (emulateCycle (bootWith [0xC5, 0xC1]))).C = (bootWith [0xC5, 0xC1]).C ∧
    (emulateCycle (emulateCycle (bootWith [0xC5, 0xC1]))).sp = (bootWith [0xC5, 0xC1]).sp :=
  have h := push_pop_pair (bootWith [0xC5, 0xC1]) (by decide) (by decide)
    (Or.inl ⟨by decide, by decide⟩) (by decide) (by decide)
  ⟨by decide, h.1, h.2.1, h.2.2.2.2.2.2.1⟩

/-- PUSH PSW. -/
theorem step_push_psw (s : State) (h : s.memory s.pc = 0xF5) :
    emulateCycle s = { s with
      memory := store (store s.memory ((s.sp : Int) - 2) (pswWord s % 256)) ((s.sp : Int) - 1) s.A,
      sp := u16 ((s.sp : Int) - 2), pc := (s.pc + 1) % 65536,
      cycles := (s.cycles + 11) % 4294967296 } := by
  simp [emulateCycle, opcodeAt, h, pcAdd, cyclesAdd]

/-- POP PSW. -/
theorem step_pop_psw (s : State) (h : s.memory s.pc = 0xF1) :
    emulateCycle s = { s with
      S := (s.memory s.sp >>> 7) &&& 0x01, Z := (s.memory s.sp >>> 6) &&& 0x01,
      P := (s.memory s.sp >>> 2) &&& 0x01, CY := s.memory s.sp &&& 0x01,
      A := s.memory ((s.sp : Int) + 1), sp := (s.sp + 2) % 65536,
      pc := (s.pc + 1) % 65536, cycles := (s.cycles + 10) % 4294967296 } := by
  simp [emulateCycle, opcodeAt, h, pcAdd, cyclesAdd]

/-- The flag word of PUSH PSW as a sum, for flags in {0,1}. -/
theorem pswWord_eq (s : State) (hS : s.S ≤ 1) (hZ : s.Z ≤ 1) (hP : s.P ≤ 1) (hCY : s.CY ≤ 1) :
    pswWord s = 0x80 * s.S + 0x40 * s.Z + 0x04 * s.P + 0x02 + s.CY := by
  have aS : s.S = 0 ∨ s.S = 1 := by omega
  have aZ : s.Z = 0 ∨ s.Z = 1 := by omega
  have aP : s.P = 0 ∨ s.P = 1 := by omega
  have aC : s.CY = 0 ∨ s.CY = 1 := by omega
  unfold pswWord
  rcases aS with a | a <;> rcases aZ with b | b <;> rcases aP with c | c <;>
    rcases aC with d | d <;> simp [a, b, c, d]

/-! ### C5: PUSH PSW ; POP PSW -/

/-- C5: for every state in which each of S, Z, P, CY is 0 or 1, `2 <= sp <= 0xFFFF`,
`memory[pc]` is PUSH PSW (0xF5), the next instruction byte is POP PSW (0xF1) and the two
stack bytes do not overlap that byte: after two `emulateCycle` steps S, Z, P, CY, A and `sp`
all equal their original values. -/
theorem push_pop_psw (s : State) (hS : s.S ≤ 1) (hZ : s.Z ≤ 1) (hP : s.P ≤ 1) (hCY : s.CY ≤ 1)
    (hsp : 2 ≤ s.sp) (hsp' : s.sp ≤ 0xFFFF)
    (h1 : s.memory s.pc = 0xF5) (h2 : s.memory (((s.pc + 1) % 65536 : Nat) : Int) = 0xF1)
    (hlo : (s.sp : Int) - 2 ≠ (((s.pc + 1) % 65536 : Nat) : Int))
    (hhi : (s.sp : Int) - 1 ≠ (((s.pc + 1) % 65536 : Nat) : Int)) :
    (emulateCycle (emulateCycle s)).S = s.S ∧ (emulateCycle (emulateCycle s)).Z = s.Z ∧
    (emulateCycle (emulateCycle s)).P = s.P ∧ (emulateCycle (emulateCycle s)).CY = s.CY ∧
    (emulateCycle (emulateCycle s)).A = s.A ∧ (emulateCycle (emulateCycle s)).sp = s.sp := by
  have e1 : u16 ((s.sp : Int) - 2) = s.sp - 2 := by unfold u16; omega
  have e2 : ((s.sp - 2 : Nat) : Int) = (s.sp : Int) - 2 := by omega
  have e3 : (s.sp - 2 + 2) % 65536 = s.sp := by omega
  have e6 : (s.sp : Int) - 2 + 1 = (s.sp : Int) - 1 := by omega
  have e7 : (s.sp : Int) - 2 ≠ (s.sp : Int) - 1 := by omega
  have hm : store (store s.memory ((s.sp : Int) - 2) (pswWord s % 256)) ((s.sp : Int) - 1) s.A
      (((s.pc + 1) % 65536 : Nat) : Int) = 0xF1 := by
    rw [store_other _ _ _ _ hhi.symm, store_other _ _ _ _ hlo.symm, h2]
  have aS : s.S = 0 ∨ s.S = 1 := by omega
  have aZ : s.Z = 0 ∨ s.Z = 1 := by omega
  have aP : s.P = 0 ∨ s.P = 1 := by omega
  have aC : s.CY = 0 ∨ s.CY = 1 := by omega
  rw [step_push_psw s h1, step_pop_psw _ hm]
  simp only [e1, e2, e3, e6, store_same, store_other _ _ _ _ e7, pswWord_eq s hS hZ hP hCY]
  rcases aS with a | a <;> rcases aZ with b | b <;> rcases aP with c | c <;>
    rcases aC with d | d <;> simp [a, b, c, d]

/-- Witness for C5: PUSH PSW ; POP PSW at address 0 of the reset state with S = 1 and
CY = 1. -/
theorem push_pop_psw_witness :
    (emulateCycle (emulateCycle { bootWith [0xF5, 0xF1] with S := 1, CY := 1 })).S = 1 ∧
    (emulateCycle (emulateCycle { bootWith [0xF5, 0xF1] with S := 1, CY := 1 })).Z = 0 ∧
    (emulateCycle (emulateCycle { bootWith [0xF5, 0xF1] with S := 1, CY := 1 })).P = 0 ∧
    (emulateCycle (emulateCycle { bootWith [0xF5, 0xF1] with S := 1, CY := 1 })).CY = 1 ∧
    (emulateCycle (emulateCycle { bootWith [0xF5, 0xF1] with S := 1, CY := 1 })).A = 0 ∧
    (emulateCycle (emulateCycle { bootWith [0xF5, 0xF1] with S := 1, CY := 1 })).sp = 0xf000 :=
  push_pop_psw { bootWith [0xF5, 0xF1] with S := 1, CY := 1 } (by decide) (by decide)
    (by decide) (by decide) (by decide) (by decide) (by decide) (by decide) (by decide)
    (by decide)

/-! ### C6: the byte layout of PUSH PSW -/

/-- C6 (as the code behaves): for every state with flags in {0,1} and `2 <= sp <= 0xFFFF`,
PUSH PSW (0xF5) writes at `memory[sp-2]` the byte `0x80*S + 0x40*Z + 0x04*P + 0x02 + CY`
(bits 7..0: S, Z, 0, 0, 0, P, 1, CY: the constant one is bit 1, not bit 3), writes A at
`memory[sp-1]`, and decrements `sp` by exactly 2. -/
theorem push_psw_layout (s : State) (hS : s.S ≤ 1) (hZ : s.Z ≤ 1) (hP : s.P ≤ 1)
    (hCY : s.CY ≤ 1) (hsp : 2 ≤ s.sp) (hsp' : s.sp ≤ 0xFFFF) (h : s.memory s.pc = 0xF5) :
    (emulateCycle s).memory ((s.sp : Int) - 2) = 0x80 * s.S + 0x40 * s.Z + 0x04 * s.P + 0x02 + s.CY ∧
    (emulateCycle s).memory ((s.sp : Int) - 1) = s.A ∧
    (emulateCycle s).sp = s.sp - 2 := by
  have e1 : u16 ((s.sp : Int) - 2) = s.sp - 2 := by unfold u16; omega
  have e7 : (s.sp : Int) - 2 ≠ (s.sp : Int) - 1 := by omega
  rw [step_push_psw s h]
  simp only [e1, store_same, store_other _ _ _ _ e7, pswWord_eq s hS hZ hP hCY]
  refine ⟨?_, trivial, trivial⟩
  omega

/-- Witness for C6: PUSH PSW at address 0 of the reset state with Z = 1 and P = 1 stores
`0x46`. -/
theorem push_psw_layout_witness :
    (emulateCycle { bootWith [0xF5] with Z := 1, P := 1, A := 0x5A }).memory (0xf000 - 2) = 0x46 ∧
    (emulateCycle { bootWith [0xF5] with Z := 1, P := 1, A := 0x5A }).memory (0xf000 - 1) = 0x5A ∧
    (emulateCycle { bootWith [0xF5] with Z := 1, P := 1, A := 0x5A }).sp = 0xf000 - 2 :=
  push_psw_layout { bootWith [0xF5] with Z := 1, P := 1, A := 0x5A } (by decide) (by decide)
    (by decide) (by decide) (by decide) (by decide) (by decide)

/-- Counterexample to C6 as stated: with all flags 0 the byte stored by PUSH PSW is `0x02`,
while the stated layout `0x80*S + 0x40*Z + 0x08 + 0x04*P + CY` gives `0x08`. -/
theorem push_psw_layout_counterexample :
    (bootWith [0xF5]).memory (bootWith [0xF5]).pc = 0xF5 ∧
    (emulateCycle (bootWith [0xF5])).memory (((bootWith [0xF5]).sp : Int) - 2) = 0x02 ∧
    (emulateCycle (bootWith [0xF5])).memory (((bootWith [0xF5]).sp : Int) - 2)
      ≠ 0x80 * (bootWith [0xF5]).S + 0x40 * (bootWith [0xF5]).Z + 0x08
          + 0x04 * (bootWith [0xF5]).P + 0x01 * (bootWith [0xF5]).CY := by
  decide

/-! ### C7: DAD -/

/-- C7: for DAD B (0x09), DAD D (0x19), DAD H (0x29) and every state whose registers are
bytes: after one `emulateCycle` step the pair HL equals `(HL_old + rp_old) mod 65536`,
CY is 1 exactly when `HL_old + rp_old > 0xFFFF` (and 0 otherwise), Z, S, P are unchanged,
`pc` has advanced by 1 and the cycle counter by 10.  In particular DAD H with
`H:L = 0x80:0x00` gives `H:L = 0x00:0x00` and CY = 1. -/
theorem dad_correct (s : State) (hB : s.B < 256) (hC : s.C < 256) (hD : s.D < 256)
    (hE : s.E < 256) (hH : s.H < 256) (hL : s.L < 256) (rp : Nat)
    (hop : (s.memory s.pc = 0x09 ∧ rp = s.B * 256 + s.C) ∨
           (s.memory s.pc = 0x19 ∧ rp = s.D * 256 + s.E) ∨
           (s.memory s.pc = 0x29 ∧ rp = s.H * 256 + s.L)) :
    (emulateCycle s).H * 256 + (emulateCycle s).L = (s.H * 256 + s.L + rp) % 65536 ∧
    (emulateCycle s).H < 256 ∧ (emulateCycle s).L < 256 ∧
    (emulateCycle s).CY = (if s.H * 256 + s.L + rp > 0xFFFF then 1 else 0) ∧
    (emulateCycle s).Z = s.Z ∧ (emulateCycle s).S = s.S ∧ (emulateCycle s).P = s.P ∧
    (emulateCycle s).pc = (s.pc + 1) % 65536 ∧
    (emulateCycle s).cycles = (s.cycles + 10) % 4294967296 ∧
    (s.memory s.pc = 0x29 → s.H = 0x80 → s.L = 0x00 →
      (emulateCycle s).H = 0x00 ∧ (emulateCycle s).L = 0x00 ∧ (emulateCycle s).CY = 1) := by
  have pHL := pair_eq s.H s.L hL
  have pBC := pair_eq s.B s.C hC
  have pDE := pair_eq s.D s.E hE
  have bHL : s.H * 256 + s.L < 65536 := by omega
  rcases hop with ⟨h, hr⟩ | ⟨h, hr⟩ | ⟨h, hr⟩
  · have hm : (s.H * 256 + s.L + rp) % 4294967296 = s.H * 256 + s.L + rp := by omega
    have hs : emulateCycle s = { s with
        H := ((s.H * 256 + s.L + rp) >>> 8) % 256, L := (s.H * 256 + s.L + rp) % 256,
        CY := if s.H * 256 + s.L + rp > 0xFFFF then 1 else 0,
        pc := (s.pc + 1) % 65536, cycles := (s.cycles + 10) % 4294967296 } := by
      simp only [emulateCycle, opcodeAt, Int.add_zero, h, pHL, pBC, pcAdd, cyclesAdd, ← hr, hm]
      simp
    rw [hs]
    refine ⟨by simp only []; omega, by simp only []; omega, by simp only []; omega,
      rfl, rfl, rfl, rfl, rfl, rfl, ?_⟩
    intro h29; rw [h] at h29; exact absurd h29 (by decide)
  · have hm : (s.H * 256 + s.L + rp) % 4294967296 = s.H * 256 + s.L + rp := by omega
    have hs : emulateCycle s = { s with
        H := ((s.H * 256 + s.L + rp) >>> 8) % 256, L := (s.H * 256 + s.L + rp) % 256,
        CY := if s.H * 256 + s.L + rp > 0xFFFF then 1 else 0,
        pc := (s.pc + 1) % 65536, cycles := (s.cycles + 10) % 4294967296 } := by
      simp only [emulateCycle, opcodeAt, Int.add_zero, h, pHL, pDE, pcAdd, cyclesAdd, ← hr, hm]
      simp
    rw [hs]
    refine ⟨by simp only []; omega, by simp only []; omega, by simp only []; omega,
      rfl, rfl, rfl, rfl, rfl, rfl, ?_⟩
    intro h29; rw [h] at h29; exact absurd h29 (by decide)
  · have hm : (2 * (s.H * 256 + s.L)) % 4294967296 = s.H * 256 + s.L + rp := by omega
    have hs : emulateCycle s = { s with
        H := ((s.H * 256 + s.L + rp) >>> 8) % 256, L := (s.H * 256 + s.L + rp) % 256,
        CY := if s.H * 256 + s.L + rp > 0xFFFF then 1 else 0,
        pc := (s.pc + 1) % 65536, cycles := (s.cycles + 10) % 4294967296 } := by
      simp only [emulateCycle, opcodeAt, Int.add_zero, h, pHL, pcAdd, cyclesAdd, hm]
      simp
    rw [hs]
    refine ⟨by simp only []; omega, by simp only []; omega, by simp only []; omega,
      rfl, rfl, rfl, rfl, rfl, rfl, ?_⟩
    intro _ hH0 hL0
    subst hr
    simp only [hH0, hL0]
    decide

/-- Witness for C7: DAD H at address 0 of the reset state with `H:L = 0x80:0x00`. -/
theorem dad_correct_witness :
    (emulateCycle { bootWith [0x29] with H := 0x80, L := 0x00 }).H = 0x00 ∧
    (emulateCycle { bootWith [0x29] with H := 0x80, L := 0x00 }).L = 0x00 ∧
    (emulateCycle { bootWith [0x29] with H := 0x80, L := 0x00 }).CY = 1 :=
  (dad_correct { bootWith [0x29] with H := 0x80, L := 0x00 } (by decide) (by decide)
    (by decide) (by decide) (by decide) (by decide) 0x8000
    (Or.inr (Or.inr ⟨by decide, by decide⟩))).2.2.2.2.2.2.2.2.2 (by decide) (by decide)
    (by decide)

/-! ### C8: CPI -/

/-- The difference of two bytes survives the round trip `int -> unsigned int -> int`. -/
theorem i32_u32_sub (a d : Nat) (ha : a < 256) (hd : d < 256) :
    i32 (u32 ((a : Int) - (d : Int))) = (a : Int) - (d : Int) := by
  unfold i32 u32
  split <;> omega

/-- C8: for every accumulator byte A and immediate byte `d = memory[pc+1]`, CPI (0xFE) leaves
A unchanged, sets Z = 1 iff `A = d` (else 0), CY = 1 iff `A < d` (else 0), S to bit 7 of
`(A - d) mod 256` and P to the even parity of `(A - d) mod 256`, advances `pc` by 2 and adds
7 cycles.  In particular `A = 0x05` against `d = 0x05` gives Z = 1 and CY = 0. -/
theorem cpi_correct (s : State) (d : Nat) (hA : s.A < 256) (hd : d < 256)
    (h : s.memory s.pc = 0xFE) (himm : s.memory ((s.pc : Int) + 1) = d) :
    (emulateCycle s).A = s.A ∧
    (emulateCycle s).Z = (if s.A = d then 1 else 0) ∧
    (emulateCycle s).CY = (if s.A < d then 1 else 0) ∧
    (emulateCycle s).S = (((s.A : Int) - (d : Int)) % 256).toNat / 128 ∧
    (emulateCycle s).P = evenParity ((((s.A : Int) - (d : Int)) % 256).toNat) ∧
    (emulateCycle s).pc = (s.pc + 2) % 65536 ∧
    (emulateCycle s).cycles = (s.cycles + 7) % 4294967296 ∧
    (s.A = 0x05 → d = 0x05 → (emulateCycle s).Z = 1 ∧ (emulateCycle s).CY = 0) := by
  have hs : emulateCycle s = { s with
      CY := if s.A < d then 1 else 0,
      Z := if u32 ((s.A : Int) - (d : Int)) = 0 then 1 else 0,
      S := if 0x80 = u32 ((s.A : Int) - (d : Int)) &&& 0x80 then 1 else 0,
      P := parity (i32 (u32 ((s.A : Int) - (d : Int)))) 8,
      pc := (s.pc + 2) % 65536, cycles := (s.cycles + 7) % 4294967296 } := by
    simp [emulateCycle, opcodeAt, h, himm, pcAdd, cyclesAdd]
  have hZ : (u32 ((s.A : Int) - (d : Int)) = 0) ↔ s.A = d := by unfold u32; omega
  have hS : (if 0x80 = u32 ((s.A : Int) - (d : Int)) &&& 0x80 then 1 else 0)
      = (((s.A : Int) - (d : Int)) % 256).toNat / 128 := by
    have hsf := signFlag_eq (u32 ((s.A : Int) - (d : Int)))
    unfold signFlag at hsf
    have hc : (0x80 = u32 ((s.A : Int) - (d : Int)) &&& 0x80)
        ↔ (u32 ((s.A : Int) - (d : Int)) &&& 0x80 = 0x80) := eq_comm
    simp only [hc, hsf]
    unfold u32; omega
  rw [hs]
  refine ⟨rfl, ?_, rfl, hS, ?_, rfl, rfl, ?_⟩
  · simp only [hZ]
  · simp only [i32_u32_sub s.A d hA hd, parity_byte, u8]
  · intro h5 hd5
    simp only [hZ, h5, hd5]
    decide

/-- Witness for C8: CPI 0x05 at address 0 of the reset state with `A = 0x05`. -/
theorem cpi_correct_witness :
    (emulateCycle { bootWith [0xFE, 0x05] with A := 0x05 }).Z = 1 ∧
    (emulateCycle { bootWith [0xFE, 0x05] with A := 0x05 }).CY = 0 :=
  (cpi_correct { bootWith [0xFE, 0x05] with A := 0x05 } 0x05 (by decide) (by decide)
    (by decide) (by decide)).2.2.2.2.2.2.2 (by decide) (by decide)

/-! ### Single-step equations for MVI A, OUT and IN -/

/-- MVI A,d8. -/
theorem step_mvi_a (s : State) (h : s.memory s.pc = 0x3E) :
    emulateCycle s = { s with A := s.memory ((s.pc : Int) + 1), pc := (s.pc + 2) % 65536,
                              cycles := (s.cycles + 7) % 4294967296 } := by
  simp [emulateCycle, opcodeAt, h, pcAdd, cyclesAdd]

/-- OUT to port 2. -/
theorem step_out_2 (s : State) (h : s.memory s.pc = 0xD3)
    (hp : s.memory ((s.pc : Int) + 1) = 0x02) :
    emulateCycle s = { s with noOfBitsToShift := s.A &&& 0x7, pc := (s.pc + 2) % 65536,
                              cycles := (s.cycles + 10) % 4294967296 } := by
  simp [emulateCycle, opcodeAt, h, hp, pcAdd, cyclesAdd]

/-- OUT to port 4. -/
theorem step_out_4 (s : State) (h : s.memory s.pc = 0xD3)
    (hp : s.memory ((s.pc : Int) + 1) = 0x04) :
    emulateCycle s = { s with shift0 := s.shift1, shift1 := s.A, pc := (s.pc + 2) % 65536,
                              cycles := (s.cycles + 10) % 4294967296 } := by
  simp [emulateCycle, opcodeAt, h, hp, pcAdd, cyclesAdd]

/-- IN from port 3. -/
theorem step_in_3 (s : State) (h : s.memory s.pc = 0xDB)
    (hp : s.memory ((s.pc : Int) + 1) = 0x03) :
    emulateCycle s = { s with
      A := u8 (i32 (((s.shift1 <<< 8) % 4294967296) ||| s.shift0)
                >>> (8 - (s.noOfBitsToShift : Int)).toNat),
      pc := (s.pc + 2) % 65536, cycles := (s.cycles + 10) % 4294967296 } := by
  simp [emulateCycle, opcodeAt, h, hp, pcAdd, cyclesAdd]

/-- The value read from the shift result port when both latches are bytes and the shift
count is at most 8: no conversion of the source changes the shifted 16 bit word. -/
theorem shift_read_eq (s1 s0 n : Nat) (h1 : s1 < 256) (h0 : s0 < 256) (hn : n ≤ 8) :
    u8 (i32 (((s1 <<< 8) % 4294967296) ||| s0) >>> (8 - (n : Int)).toNat)
      = (((s1 <<< 8) ||| s0) >>> (8 - n)) % 256 := by
  have hm : (s1 <<< 8) % 4294967296 = s1 <<< 8 := by omega
  have hp : (s1 <<< 8) ||| s0 = s1 * 256 + s0 := pair_eq s1 s0 h0
  have hk : (8 - (n : Int)).toNat = 8 - n := by omega
  rw [hm, hk, hp]
  have hi : i32 (s1 * 256 + s0) = ((s1 * 256 + s0 : Nat) : Int) := by
    unfold i32; rw [if_pos (by omega)]
  rw [hi]
  show u8 (((((s1 * 256 + s0) >>> (8 - n) : Nat)) : Int)) = _
  unfold u8
  omega

/-- Running the seven instructions of `shiftProgram a x y`. -/
theorem shift_program_run (s : State) (a x y : Nat) (hb : s.pc + 14 ≤ 65536)
    (hp : programAt s (shiftProgram a x y)) :
    emulateCycle^[7] s = { s with
      A := u8 (i32 (((y <<< 8) % 4294967296) ||| x) >>> (8 - ((a &&& 0x7 : Nat) : Int)).toNat),
      noOfBitsToShift := a &&& 0x7, shift0 := x, shift1 := y,
      pc := (s.pc + 14) % 65536, cycles := (s.cycles + 61) % 4294967296 } := by
  have m0 : s.memory ((s.pc : Nat) : Int) = 0x3E := by simpa using hp 0 (by simp [shiftProgram])
  have m1 : s.memory ((s.pc : Int) + 1) = a := by simpa using hp 1 (by simp [shiftProgram])
  have m2 : s.memory (((s.pc + 2 : Nat)) : Int) = 0xD3 := hp 2 (by simp [shiftProgram])
  have m3 : s.memory (((s.pc + 2 : Nat) : Int) + 1) = 0x02 := by
    have := hp 3 (by simp [shiftProgram]); rw [show ((s.pc + 2 : Nat) : Int) + 1 = ((s.pc + 3 : Nat) : Int) by omega]; exact this
  have m4 : s.memory (((s.pc + 4 : Nat)) : Int) = 0x3E := hp 4 (by simp [shiftProgram])
  have m5 : s.memory (((s.pc + 4 : Nat) : Int) + 1) = x := by
    have := hp 5 (by simp [shiftProgram]); rw [show ((s.pc + 4 : Nat) : Int) + 1 = ((s.pc + 5 : Nat) : Int) by omega]; exact this
  have m6 : s.memory (((s.pc + 6 : Nat)) : Int) = 0xD3 := hp 6 (by simp [shiftProgram])
  have m7 : s.memory (((s.pc + 6 : Nat) : Int) + 1) = 0x04 := by
    have := hp 7 (by simp [shiftProgram]); rw [show ((s.pc + 6 : Nat) : Int) + 1 = ((s.pc + 7 : Nat) : Int) by omega]; exact this
  have m8 : s.memory (((s.pc + 8 : Nat)) : Int) = 0x3E := hp 8 (by simp [shiftProgram])
  have m9 : s.memory (((s.pc + 8 : Nat) : Int) + 1) = y := by
    have := hp 9 (by simp [shiftProgram]); rw [show ((s.pc + 8 : Nat) : Int) + 1 = ((s.pc + 9 : Nat) : Int) by omega]; exact this
  have m10 : s.memory (((s.pc + 10 : Nat)) : Int) = 0xD3 := hp 10 (by simp [shiftProgram])
  have m11 : s.memory (((s.pc + 10 : Nat) : Int) + 1) = 0x04 := by
    have := hp 11 (by simp [shiftProgram]); rw [show ((s.pc + 10 : Nat) : Int) + 1 = ((s.pc + 11 : Nat) : Int) by omega]; exact this
  have m12 : s.memory (((s.pc + 12 : Nat)) : Int) = 0xDB := hp 12 (by simp [shiftProgram])
  have m13 : s.memory (((s.pc + 12 : Nat) : Int) + 1) = 0x03 := by
    have := hp 13 (by simp [shiftProgram]); rw [show ((s.pc + 12 : Nat) : Int) + 1 = ((s.pc + 13 : Nat) : Int) by omega]; exact this
  have p2 : (s.pc + 2) % 65536 = s.pc + 2 := by omega
  have p4 : (s.pc + 2 + 2) % 65536 = s.pc + 4 := by omega
  have p6 : (s.pc + 4 + 2) % 65536 = s.pc + 6 := by omega
  have p8 : (s.pc + 6 + 2) % 65536 = s.pc + 8 := by omega
  have p10 : (s.pc + 8 + 2) % 65536 = s.pc + 10 := by omega
  have p12 : (s.pc + 10 + 2) % 65536 = s.pc + 12 := by omega
  have p14 : (s.pc + 12 + 2) % 65536 = (s.pc + 14) % 65536 := by omega
  have c2 : ((s.cycles + 7) % 4294967296 + 10) % 4294967296 = (s.cycles + 17) % 4294967296 := by
    omega
  have c3 : ((s.cycles + 17) % 4294967296 + 7) % 4294967296 = (s.cycles + 24) % 4294967296 := by
    omega
  have c4 : ((s.cycles + 24) % 4294967296 + 10) % 4294967296 = (s.cycles + 34) % 4294967296 := by
    omega
  have c5 : ((s.cycles + 34) % 4294967296 + 7) % 4294967296 = (s.cycles + 41) % 4294967296 := by
    omega
  have c6 : ((s.cycles + 41) % 4294967296 + 10) % 4294967296 = (s.cycles + 51) % 4294967296 := by
    omega
  have c7 : ((s.cycles + 51) % 4294967296 + 10) % 4294967296 = (s.cycles + 61) % 4294967296 := by
    omega
  have e1 := step_mvi_a s m0
  rw [m1, p2] at e1
  have e2 := step_out_2 { s with A := a, pc := s.pc + 2, cycles := (s.cycles + 7) % 4294967296 } m2 m3
  simp only [p4, c2] at e2
  have e3 := step_mvi_a { s with A := a, noOfBitsToShift := a &&& 0x7, pc := s.pc + 4, cycles := (s.cycles + 17) % 4294967296 } m4
  simp only [m5, p6, c3] at e3
  have e4 := step_out_4 { s with A := x, noOfBitsToShift := a &&& 0x7, pc := s.pc + 6, cycles := (s.cycles + 24) % 4294967296 } m6 m7
  simp only [p8, c4] at e4
  have e5 := step_mvi_a { s with A := x, noOfBitsToShift := a &&& 0x7, shift0 := s.shift1, shift1 := x, pc := s.pc + 8, cycles := (s.cycles + 34) % 4294967296 } m8
  simp only [m9, p10, c5] at e5
  have e6 := step_out_4 { s with A := y, noOfBitsToShift := a &&& 0x7, shift0 := s.shift1, shift1 := x, pc := s.pc + 10, cycles := (s.cycles + 41) % 4294967296 } m10 m11
  simp only [p12, c6] at e6
  have e7 := step_in_3 { s with A := y, noOfBitsToShift := a &&& 0x7, shift0 := x, shift1 := y, pc := s.pc + 12, cycles := (s.cycles + 51) % 4294967296 } m12 m13
  simp only [p14, c7] at e7
  simp only [Function.iterate_succ, Function.iterate_zero, Function.comp_apply, id_eq]
  rw [e1, e2, e3, e4, e5, e6, e7]

/-! ### C9: the shift register scenario -/

/-- C9 (as the code behaves): starting from the reset I/O state, after OUT to the shift
amount port (2) with A = 3, OUT to the shift data port (4) with A = 0xFF, then OUT to the
shift data port with A = 0x00, an IN from the shift result port (3) leaves
`A = (0x00FF >> 5) = 0x07`. -/
theorem shift_scenario (s : State)
    (hio : s.shift0 = 0 ∧ s.shift1 = 0 ∧ s.noOfBitsToShift = 0)
    (hb : s.pc + 14 ≤ 65536) (hp : programAt s (shiftProgram 3 0xFF 0x00)) :
    (emulateCycle^[7] s).A = 0x07 := by
  have _ := hio
  rw [shift_program_run s 3 0xFF 0x00 hb hp]
  dsimp only
  decide

/-- Witness for C9: the scenario program at address 0 of the reset state. -/
theorem shift_scenario_witness :
    (emulateCycle^[7] (bootWith (shiftProgram 3 0xFF 0x00))).A = 0x07 :=
  shift_scenario (bootWith (shiftProgram 3 0xFF 0x00)) (by decide) (by decide) (by decide)

/-- Counterexample to C9 as stated: from the reset state the scenario leaves `A = 0x07`,
not `0x1F`. -/
theorem shift_scenario_counterexample :
    (bootWith (shiftProgram 3 0xFF 0x00)).shift0 = 0 ∧
    (bootWith (shiftProgram 3 0xFF 0x00)).shift1 = 0 ∧
    (bootWith (shiftProgram 3 0xFF 0x00)).noOfBitsToShift = 0 ∧
    (emulateCycle^[7] (bootWith (shiftProgram 3 0xFF 0x00))).A = 0x07 ∧
    (emulateCycle^[7] (bootWith (shiftProgram 3 0xFF 0x00))).A ≠ 0x1F := by
  decide

/-! ### C10: the shift register device -/

/-- C10: OUT 2 sets the shift count to `A & 7` (a value in 0..7); OUT 4 moves the new-byte
latch `shift1` into the old-byte latch `shift0` and stores A as the new-byte latch; IN 3,
with byte latches and a count in 0..7, sets A to
`(((shift1 << 8) | shift0) >> (8 - count)) mod 256`.  Hence after OUT 2 with `a`, OUT 4 with
`x`, OUT 4 with `y` (bytes), IN 3 returns `(((y << 8) | x) >> (8 - (a & 7))) mod 256`. -/
theorem shift_device (s : State) (a x y : Nat) :
    (s.memory s.pc = 0xD3 → s.memory ((s.pc : Int) + 1) = 0x02 →
      (emulateCycle s).noOfBitsToShift = s.A &&& 7 ∧ (emulateCycle s).noOfBitsToShift ≤ 7) ∧
    (s.memory s.pc = 0xD3 → s.memory ((s.pc : Int) + 1) = 0x04 →
      (emulateCycle s).shift0 = s.shift1 ∧ (emulateCycle s).shift1 = s.A) ∧
    (s.memory s.pc = 0xDB → s.memory ((s.pc : Int) + 1) = 0x03 →
      s.shift0 < 256 → s.shift1 < 256 → s.noOfBitsToShift ≤ 7 →
      (emulateCycle s).A
        = (((s.shift1 <<< 8) ||| s.shift0) >>> (8 - s.noOfBitsToShift)) % 256) ∧
    (x < 256 → y < 256 → s.pc + 14 ≤ 65536 → programAt s (shiftProgram a x y) →
      (emulateCycle^[7] s).A = (((y <<< 8) ||| x) >>> (8 - (a &&& 7))) % 256) := by
  refine ⟨?_, ?_, ?_, ?_⟩
  · intro h hp
    rw [step_out_2 s h hp]
    exact ⟨rfl, Nat.and_le_right⟩
  · intro h hp
    rw [step_out_4 s h hp]
    exact ⟨rfl, rfl⟩
  · intro h hp h0 h1 hn
    rw [step_in_3 s h hp]
    exact shift_read_eq s.shift1 s.shift0 s.noOfBitsToShift h1 h0 (by omega)
  · intro hx hy hb hp
    rw [shift_program_run s a x y hb hp]
    have hn : a &&& 7 ≤ 8 := le_trans Nat.and_le_right (by decide)
    exact shift_read_eq y x (a &&& 7) hy hx hn

/-- Witness for C10: shift amount 5, data bytes `0xA7` then `0x3C`; the result port reads
`(0x3CA7 >> 3) mod 256 = 0x94`. -/
theorem shift_device_witness :
    (emulateCycle^[7] (bootWith (shiftProgram 5 0xA7 0x3C))).A
        = (((0x3C <<< 8) ||| 0xA7) >>> (8 - (5 &&& 7))) % 256 ∧
    (((0x3C <<< 8) ||| 0xA7) >>> (8 - (5 &&& 7))) % 256 = 0x94 :=
  ⟨(shift_device (bootWith (shiftProgram 5 0xA7 0x3C)) 5 0xA7 0x3C).2.2.2 (by decide)
      (by decide) (by decide) (by decide), by decide⟩

/-! ### C11: interrupt alternation -/

/-- The service step when the alternation state is 0: RST to 0x0008. -/
theorem service_even (s : State) (h : s.decideINT = 0) :
    serviceInterrupt s = { s with
      memory := store (store s.memory ((s.sp : Int) - 1) ((s.pc >>> 8) &&& 0xff))
        ((s.sp : Int) - 2) (s.pc &&& 0xff),
      sp := u16 ((s.sp : Int) - 2), pc := 0x08, cycles := (s.cycles + 11) % 4294967296,
      decideINT := 1, INT := 0 } := by
  simp [serviceInterrupt, interruptExecute, h, cyclesAdd]

/-- The service step when the alternation state is not 0: RST to 0x0010. -/
theorem service_odd (s : State) (h : s.decideINT ≠ 0) :
    serviceInterrupt s = { s with
      memory := store (store s.memory ((s.sp : Int) - 1) ((s.pc >>> 8) &&& 0xff))
        ((s.sp : Int) - 2) (s.pc &&& 0xff),
      sp := u16 ((s.sp : Int) - 2), pc := 0x10, cycles := (s.cycles + 11) % 4294967296,
      decideINT := 0, INT := 0 } := by
  simp [serviceInterrupt, interruptExecute, h, cyclesAdd]

/-- The two bytes pushed for a 16 bit program counter are its low and its high byte. -/
theorem pc_bytes (pc : Nat) : pc &&& 0xff = pc % 256 ∧ (pc >>> 8) &&& 0xff = pc / 256 % 256 := by
  have h1 := Nat.and_pow_two_sub_one_eq_mod pc 8
  have h2 := Nat.and_pow_two_sub_one_eq_mod (pc >>> 8) 8
  norm_num at h1 h2
  rw [h1, h2, Nat.shiftRight_eq_div_pow]
  norm_num

/-- C11: starting with `decideINT = 0`, two consecutive interrupt services (the step of
lines 1944-1946) with the latch `INT = 1` before each go to vector 0x0008 first and 0x0010
second; after each service `pc` is that vector, the pre-service `pc` is stacked with its low
byte at `memory[sp_old - 2]` and its high byte at `memory[sp_old - 1]`, `sp` has decreased by
2 (in 16 bit arithmetic, and exactly when there is room on the stack) and `INT` is 0. -/
theorem interrupt_alternation (s : State) (hd : s.decideINT = 0) (hI : s.INT = 1)
    (hpc : s.pc ≤ 0xFFFF) :
    (serviceInterrupt s).pc = 0x0008 ∧
    (serviceInterrupt s).memory ((s.sp : Int) - 2) = s.pc % 256 ∧
    (serviceInterrupt s).memory ((s.sp : Int) - 1) = s.pc / 256 ∧
    (serviceInterrupt s).sp = u16 ((s.sp : Int) - 2) ∧
    (2 ≤ s.sp → s.sp ≤ 0xFFFF → (serviceInterrupt s).sp = s.sp - 2) ∧
    (serviceInterrupt s).INT = 0 ∧
    (serviceInterrupt { serviceInterrupt s with INT := 1 }).pc = 0x0010 ∧
    (serviceInterrupt { serviceInterrupt s with INT := 1 }).memory
      (((serviceInterrupt s).sp : Int) - 2) = 0x08 ∧
    (serviceInterrupt { serviceInterrupt s with INT := 1 }).memory
      (((serviceInterrupt s).sp : Int) - 1) = 0x00 ∧
    (serviceInterrupt { serviceInterrupt s with INT := 1 }).sp
      = u16 (((serviceInterrupt s).sp : Int) - 2) ∧
    (4 ≤ s.sp → s.sp ≤ 0xFFFF →
      (serviceInterrupt { serviceInterrupt s with INT := 1 }).sp = s.sp - 4 ∧
      (serviceInterrupt { serviceInterrupt s with INT := 1 }).memory ((s.sp : Int) - 2)
        = s.pc % 256 ∧
      (serviceInterrupt { serviceInterrupt s with INT := 1 }).memory ((s.sp : Int) - 1)
        = s.pc / 256) ∧
    (serviceInterrupt { serviceInterrupt s with INT := 1 }).INT = 0 := by
  have _ := hI
  have hb := pc_bytes s.pc
  have hhi : s.pc / 256 % 256 = s.pc / 256 := by omega
  have e7 : (s.sp : Int) - 1 ≠ (s.sp : Int) - 2 := by omega
  have e8 : ∀ k : Int, k - 1 ≠ k - 2 := by intro k; omega
  have h1 := service_even s hd
  have hd1 : ({ serviceInterrupt s with INT := 1 } : State).decideINT ≠ 0 := by
    rw [h1]
    show (1 : Int) ≠ 0
    decide
  have h2 := service_odd { serviceInterrupt s with INT := 1 } hd1
  rw [h2, h1]
  dsimp only
  refine ⟨rfl, ?_, ?_, rfl, ?_, rfl, rfl, ?_, ?_, rfl, ?_, rfl⟩
  · rw [store_same, hb.1]
  · rw [store_other _ _ _ _ e7, store_same, hb.2, hhi]
  · intro a b; unfold u16; omega
  · rw [store_same]; decide
  · rw [store_other _ _ _ _ (e8 _), store_same]; decide
  · intro a b
    have es : u16 ((s.sp : Int) - 2) = s.sp - 2 := by unfold u16; omega
    have es2 : u16 (((s.sp - 2 : Nat) : Int) - 2) = s.sp - 4 := by unfold u16; omega
    rw [es, es2]
    have n1 : (s.sp : Int) - 2 ≠ ((s.sp - 2 : Nat) : Int) - 2 := by omega
    have n2 : (s.sp : Int) - 2 ≠ ((s.sp - 2 : Nat) : Int) - 1 := by omega
    have n3 : (s.sp : Int) - 1 ≠ ((s.sp - 2 : Nat) : Int) - 2 := by omega
    have n4 : (s.sp : Int) - 1 ≠ ((s.sp - 2 : Nat) : Int) - 1 := by omega
    refine ⟨rfl, ?_, ?_⟩
    · rw [store_other _ _ _ _ n1, store_other _ _ _ _ n2, store_same, hb.1]
    · rw [store_other _ _ _ _ n3, store_other _ _ _ _ n4, store_other _ _ _ _ e7,
        store_same, hb.2, hhi]

/-- Witness for C11: the reset state with the latch set and `pc = 0x1234`, `sp = 0xf000`. -/
theorem interrupt_alternation_witness :
    (serviceInterrupt { resetState with INT := 1, pc := 0x1234 }).pc = 0x0008 ∧
    (serviceInterrupt { serviceInterrupt { resetState with INT := 1, pc := 0x1234 }
      with INT := 1 }).pc = 0x0010 ∧
    (serviceInterrupt { serviceInterrupt { resetState with INT := 1, pc := 0x1234 }
      with INT := 1 }).sp = 0xf000 - 4 ∧
    (serviceInterrupt { serviceInterrupt { resetState with INT := 1, pc := 0x1234 }
      with INT := 1 }).memory (0xf000 - 2) = 0x34 ∧
    (serviceInterrupt { serviceInterrupt { resetState with INT := 1, pc := 0x1234 }
      with INT := 1 }).memory (0xf000 - 1) = 0x12 :=
  have h := interrupt_alternation { resetState with INT := 1, pc := 0x1234 } (by decide)
    (by decide) (by decide)
  ⟨h.1, h.2.2.2.2.2.2.1, h.2.2.2.2.2.2.2.2.2.2.1 (by decide) (by decide)⟩

/-! ### C12: no interrupt while the latch is clear -/

/-- C12: when the interrupt enable latch `INT` is 0 at the threshold check that follows an
instruction (lines 1876-1951), the check does nothing, whatever the cycle counter and the
pending events: `pc`, `sp`, memory, registers, flags and `decideINT` (indeed the whole
state) stay as the preceding `emulateCycle` step left them; the loop iteration only counts
itself in `veces`. -/
theorem no_interrupt_when_disabled (events : List Event) (s : State) (rep : Bool) :
    (s.INT = 0 → thresholdCheck events s rep = (s, rep)) ∧
    (s.INT = 0 → ∀ c : Nat,
      thresholdCheck events { s with cycles := c } rep = ({ s with cycles := c }, rep)) ∧
    ((emulateCycle s).INT = 0 →
      frameIteration events s rep
        = ({ emulateCycle s with veces := ((emulateCycle s).veces + 1) % 4294967296 }, rep)) := by
  refine ⟨?_, ?_, ?_⟩
  · intro h
    simp [thresholdCheck, h]
  · intro h c
    simp [thresholdCheck, h]
  · intro h
    simp [frameIteration, thresholdCheck, h]

/-- Witness for C12: latch clear, cycle counter far above the threshold, a key event
pending. -/
theorem no_interrupt_when_disabled_witness :
    thresholdCheck [Event.keyDown Key.space] { resetState with cycles := 40000 } true
      = ({ resetState with cycles := 40000 }, true) :=
  (no_interrupt_when_disabled [Event.keyDown Key.space] { resetState with cycles := 40000 }
    true).1 (by decide)

/-! ### C13: LXI H ; STA ; JMP -/

/-- LXI H,d16. -/
theorem step_lxi_h (s : State) (h : s.memory s.pc = 0x21) :
    emulateCycle s = { s with L := s.memory ((s.pc : Int) + 1), H := s.memory ((s.pc : Int) + 2),
                              pc := (s.pc + 3) % 65536, cycles := (s.cycles + 10) % 4294967296 } := by
  simp [emulateCycle, opcodeAt, h, LXI, pcAdd, cyclesAdd]

/-- STA a16. -/
theorem step_sta (s : State) (h : s.memory s.pc = 0x32) :
    emulateCycle s = { s with
      memory := store s.memory
        ((s.memory ((s.pc : Int) + 1) ||| (s.memory ((s.pc : Int) + 2) <<< 8) : Nat) : Int) s.A,
      pc := (s.pc + 3) % 65536, cycles := (s.cycles + 13) % 4294967296 } := by
  simp [emulateCycle, opcodeAt, h, pcAdd, cyclesAdd]

/-- JMP a16. -/
theorem step_jmp (s : State) (h : s.memory s.pc = 0xC3) :
    emulateCycle s = { s with
      pc := (s.memory ((s.pc : Int) + 1) ||| (s.memory ((s.pc : Int) + 2) <<< 8)) % 65536,
      cycles := (s.cycles + 10) % 4294967296 } := by
  simp [emulateCycle, opcodeAt, h, pcAdd, cyclesAdd]

/-- The little-endian operand `lo | (hi << 8)` is `lo + 256 * hi` when `lo` is a byte. -/
theorem addr_eq (lo hi : Nat) (hlo : lo < 256) : lo ||| (hi <<< 8) = lo + 256 * hi := by
  have := pair_eq hi lo hlo
  unfold pair at this
  rw [Nat.lor_comm, this]; omega

/-- C13: for every state with `pc <= 0xFFF7` whose memory at `pc .. pc+8` holds
`LXI H,d16` (0x21 lo hi), `STA a16` (0x32 alo ahi), `JMP t16` (0xC3 tlo thi), the operand
bytes being bytes, with `a16` not in `pc+6 .. pc+8`: after step 1, `L = lo`, `H = hi`, `pc = pc0 + 3`,
`cycles = c0 + 10`; after step 2, `memory[a16] = A`, `pc = pc0 + 6`, `cycles = c0 + 23`; after
step 3, `pc = t16`, `cycles = c0 + 33` (cycle counts in 32 bit arithmetic); nothing else has
changed: each state equals the start state with exactly the named fields updated. -/
theorem lxi_sta_jmp_run (s : State) (lo hi alo ahi tlo thi : Nat) (hpc : s.pc ≤ 0xFFF7)
    (halo : alo < 256) (htlo : tlo < 256) (hthi : thi < 256)
    (hp : programAt s (lxiStaJmp lo hi alo ahi tlo thi))
    (hno : alo + 256 * ahi ≠ s.pc + 6 ∧ alo + 256 * ahi ≠ s.pc + 7 ∧
      alo + 256 * ahi ≠ s.pc + 8) :
    emulateCycle^[1] s = { s with L := lo, H := hi, pc := s.pc + 3, cycles := (s.cycles + 10) % 4294967296 } ∧
    emulateCycle^[2] s = { s with L := lo, H := hi, memory := store s.memory ((alo + 256 * ahi : Nat) : Int) s.A, pc := s.pc + 6, cycles := (s.cycles + 23) % 4294967296 } ∧
    emulateCycle^[3] s = { s with L := lo, H := hi, memory := store s.memory ((alo + 256 * ahi : Nat) : Int) s.A, pc := tlo + 256 * thi, cycles := (s.cycles + 33) % 4294967296 } := by
  have m0 : s.memory ((s.pc : Nat) : Int) = 0x21 := by simpa using hp 0 (by simp [lxiStaJmp])
  have m1 : s.memory ((s.pc : Int) + 1) = lo := by simpa using hp 1 (by simp [lxiStaJmp])
  have m2 : s.memory ((s.pc : Int) + 2) = hi := by simpa using hp 2 (by simp [lxiStaJmp])
  have m3 : s.memory ((s.pc + 3 : Nat) : Int) = 0x32 := hp 3 (by simp [lxiStaJmp])
  have m4 : s.memory (((s.pc + 3 : Nat) : Int) + 1) = alo := by
    have := hp 4 (by simp [lxiStaJmp])
    rw [show ((s.pc + 3 : Nat) : Int) + 1 = ((s.pc + 4 : Nat) : Int) by omega]; exact this
  have m5 : s.memory (((s.pc + 3 : Nat) : Int) + 2) = ahi := by
    have := hp 5 (by simp [lxiStaJmp])
    rw [show ((s.pc + 3 : Nat) : Int) + 2 = ((s.pc + 5 : Nat) : Int) by omega]; exact this
  have n6 : ((s.pc + 6 : Nat) : Int) ≠ ((alo + 256 * ahi : Nat) : Int) := by omega
  have n7 : ((s.pc + 6 : Nat) : Int) + 1 ≠ ((alo + 256 * ahi : Nat) : Int) := by omega
  have n8 : ((s.pc + 6 : Nat) : Int) + 2 ≠ ((alo + 256 * ahi : Nat) : Int) := by omega
  have m6 : store s.memory ((alo + 256 * ahi : Nat) : Int) s.A ((s.pc + 6 : Nat) : Int)
      = 0xC3 := by
    rw [store_other _ _ _ _ n6]; exact hp 6 (by simp [lxiStaJmp])
  have m7 : store s.memory ((alo + 256 * ahi : Nat) : Int) s.A (((s.pc + 6 : Nat) : Int) + 1)
      = tlo := by
    rw [store_other _ _ _ _ n7]
    have := hp 7 (by simp [lxiStaJmp])
    rw [show ((s.pc + 6 : Nat) : Int) + 1 = ((s.pc + 7 : Nat) : Int) by omega]; exact this
  have m8 : store s.memory ((alo + 256 * ahi : Nat) : Int) s.A (((s.pc + 6 : Nat) : Int) + 2)
      = thi := by
    rw [store_other _ _ _ _ n8]
    have := hp 8 (by simp [lxiStaJmp])
    rw [show ((s.pc + 6 : Nat) : Int) + 2 = ((s.pc + 8 : Nat) : Int) by omega]; exact this
  have p3 : (s.pc + 3) % 65536 = s.pc + 3 := by omega
  have p6 : (s.pc + 3 + 3) % 65536 = s.pc + 6 := by omega
  have pt : (tlo + 256 * thi) % 65536 = tlo + 256 * thi := by omega
  have c2 : ((s.cycles + 10) % 4294967296 + 13) % 4294967296 = (s.cycles + 23) % 4294967296 := by
    omega
  have c3 : ((s.cycles + 23) % 4294967296 + 10) % 4294967296 = (s.cycles + 33) % 4294967296 := by
    omega
  have e1 := step_lxi_h s m0
  rw [m1, m2, p3] at e1
  have e2 := step_sta { s with L := lo, H := hi, pc := s.pc + 3, cycles := (s.cycles + 10) % 4294967296 } m3
  simp only [m4, m5, p6, c2, addr_eq alo ahi halo] at e2
  have e3 := step_jmp { s with L := lo, H := hi, memory := store s.memory ((alo + 256 * ahi : Nat) : Int) s.A, pc := s.pc + 6, cycles := (s.cycles + 23) % 4294967296 } m6
  simp only [m7, m8, c3, addr_eq tlo thi htlo, pt] at e3
  simp only [Function.iterate_succ, Function.iterate_zero, Function.comp_apply, id_eq]
  rw [e1, e2, e3]
  exact ⟨rfl, rfl, rfl⟩

/-- Witness for C13: `LXI H,0x2400 ; STA 0x2000 ; JMP 0x0010` at address 0 of the reset
state with `A = 0x5A`. -/
theorem lxi_sta_jmp_run_witness :
    emulateCycle^[3] { bootWith (lxiStaJmp 0x00 0x24 0x00 0x20 0x10 0x00) with A := 0x5A }
      = { bootWith (lxiStaJmp 0x00 0x24 0x00 0x20 0x10 0x00) with
          A := 0x5A, L := 0x00, H := 0x24,
          memory := store (bootWith (lxiStaJmp 0x00 0x24 0x00 0x20 0x10 0x00)).memory
            ((0x00 + 256 * 0x20 : Nat) : Int) 0x5A,
          pc := 0x10 + 256 * 0x00, cycles := (0 + 33) % 4294967296 } :=
  (lxi_sta_jmp_run { bootWith (lxiStaJmp 0x00 0x24 0x00 0x20 0x10 0x00) with A := 0x5A }
    0x00 0x24 0x00 0x20 0x10 0x00 (by decide) (by decide) (by decide) (by decide) (by decide)
    (by decide)).2.2

/-! ### C14: CALL and RET -/

/-- CALL a16: the operand bytes are read after the two stack writes. -/
theorem step_call (s : State) (h : s.memory s.pc = 0xCD) :
    emulateCycle s = { s with
      memory := store (store s.memory ((s.sp : Int) - 1) (((s.pc + 3) >>> 8) &&& 0xff))
        ((s.sp : Int) - 2) ((s.pc + 3) &&& 0xff),
      sp := u16 ((s.sp : Int) - 2),
      pc := ((store (store s.memory ((s.sp : Int) - 1) (((s.pc + 3) >>> 8) &&& 0xff))
                ((s.sp : Int) - 2) ((s.pc + 3) &&& 0xff) ((s.pc : Int) + 2) <<< 8) |||
             store (store s.memory ((s.sp : Int) - 1) (((s.pc + 3) >>> 8) &&& 0xff))
                ((s.sp : Int) - 2) ((s.pc + 3) &&& 0xff) ((s.pc : Int) + 1)) % 65536,
      cycles := (s.cycles + 17) % 4294967296 } := by
  simp [emulateCycle, opcodeAt, h, pcAdd, cyclesAdd]

/-- RET. -/
theorem step_ret (s : State) (h : s.memory s.pc = 0xC9) :
    emulateCycle s = { s with
      pc := ((s.memory ((s.sp : Int) + 1) <<< 8) ||| s.memory s.sp) % 65536,
      sp := (s.sp + 2) % 65536, cycles := (s.cycles + 10) % 4294967296 } := by
  simp [emulateCycle, opcodeAt, h, pcAdd, cyclesAdd]

/-- CALL then RET when the two stack bytes overlap neither the operand bytes of the CALL
nor the RET byte: the return address `(pc + 3) mod 65536` is stacked low byte first, `pc`
goes to the operand address, and RET comes back with `sp` restored. -/
theorem call_ret_no_overlap (s : State) (lo hi : Nat) (hlo : lo < 256) (hhi : hi < 256)
    (hsp : 2 ≤ s.sp) (hsp' : s.sp ≤ 0xFFFF) (h : s.memory s.pc = 0xCD)
    (h1 : s.memory ((s.pc : Int) + 1) = lo) (h2 : s.memory ((s.pc : Int) + 2) = hi)
    (n1 : (s.pc : Int) + 1 ≠ (s.sp : Int) - 2) (n2 : (s.pc : Int) + 1 ≠ (s.sp : Int) - 1)
    (n3 : (s.pc : Int) + 2 ≠ (s.sp : Int) - 2) (n4 : (s.pc : Int) + 2 ≠ (s.sp : Int) - 1) :
    (emulateCycle s).memory ((s.sp : Int) - 2) = (s.pc + 3) % 65536 % 256 ∧
    (emulateCycle s).memory ((s.sp : Int) - 1) = (s.pc + 3) % 65536 / 256 ∧
    (emulateCycle s).sp = s.sp - 2 ∧
    (emulateCycle s).pc = lo + 256 * hi ∧
    (emulateCycle s).cycles = (s.cycles + 17) % 4294967296 ∧
    (s.memory ((lo + 256 * hi : Nat) : Int) = 0xC9 →
      ((lo + 256 * hi : Nat) : Int) ≠ (s.sp : Int) - 2 →
      ((lo + 256 * hi : Nat) : Int) ≠ (s.sp : Int) - 1 →
      (emulateCycle (emulateCycle s)).sp = s.sp ∧
      (emulateCycle (emulateCycle s)).pc = (s.pc + 3) % 65536) := by
  have hb := pc_bytes (s.pc + 3)
  have e1 : u16 ((s.sp : Int) - 2) = s.sp - 2 := by unfold u16; omega
  have e7 : (s.sp : Int) - 2 ≠ (s.sp : Int) - 1 := by omega
  have hs := step_call s h
  rw [store_other _ _ _ _ n3, store_other _ _ _ _ n4, store_other _ _ _ _ n1,
    store_other _ _ _ _ n2, h1, h2, Nat.lor_comm, addr_eq lo hi hlo, e1, hb.1, hb.2] at hs
  have ht : (lo + 256 * hi) % 65536 = lo + 256 * hi := by omega
  rw [ht] at hs
  refine ⟨?_, ?_, ?_, ?_, ?_, ?_⟩
  · rw [hs]; dsimp only; rw [store_same]; omega
  · rw [hs]; dsimp only; rw [store_other _ _ _ _ e7.symm, store_same]; omega
  · rw [hs]
  · rw [hs]
  · rw [hs]
  · intro hr m1 m2
    have hret : store (store s.memory ((s.sp : Int) - 1) ((s.pc + 3) / 256 % 256))
        ((s.sp : Int) - 2) ((s.pc + 3) % 256) ((lo + 256 * hi : Nat) : Int) = 0xC9 := by
      rw [store_other _ _ _ _ m1, store_other _ _ _ _ m2, hr]
    rw [hs, step_ret _ hret]
    dsimp only
    have a1 : ((s.sp - 2 : Nat) : Int) = (s.sp : Int) - 2 := by omega
    have a2 : ((s.sp - 2 : Nat) : Int) + 1 = (s.sp : Int) - 1 := by omega
    rw [a2, a1, store_same, store_other _ _ _ _ e7.symm, store_same]
    have hp := pair_eq ((s.pc + 3) / 256 % 256) ((s.pc + 3) % 256) (by omega)
    unfold pair at hp
    rw [hp]
    constructor <;> omega

/-- C14 at a state the code can reach: from reset, `LXI SP,0x0006` at address 0 leaves
`pc = 3`, `sp = 6` in front of `CALL 0x1234` (bytes `CD 34 12` at 3..5).  The CALL writes
the return address `0x0006` over its own operand bytes at `sp - 2 = 4` and `sp - 1 = 5`
before it reads them, so `pc` becomes `0x0006` and not the operand address `0x1234`. -/
theorem call_reads_operand_after_push :
    (emulateCycle (bootWith [0x31, 0x06, 0x00, 0xCD, 0x34, 0x12])).pc = 3 ∧
    (emulateCycle (bootWith [0x31, 0x06, 0x00, 0xCD, 0x34, 0x12])).sp = 6 ∧
    (emulateCycle (bootWith [0x31, 0x06, 0x00, 0xCD, 0x34, 0x12])).memory 3 = 0xCD ∧
    (emulateCycle (bootWith [0x31, 0x06, 0x00, 0xCD, 0x34, 0x12])).memory 4 = 0x34 ∧
    (emulateCycle (bootWith [0x31, 0x06, 0x00, 0xCD, 0x34, 0x12])).memory 5 = 0x12 ∧
    (emulateCycle^[2] (bootWith [0x31, 0x06, 0x00, 0xCD, 0x34, 0x12])).memory 4 = 0x06 ∧
    (emulateCycle^[2] (bootWith [0x31, 0x06, 0x00, 0xCD, 0x34, 0x12])).memory 5 = 0x00 ∧
    (emulateCycle^[2] (bootWith [0x31, 0x06, 0x00, 0xCD, 0x34, 0x12])).sp = 4 ∧
    (emulateCycle^[2] (bootWith [0x31, 0x06, 0x00, 0xCD, 0x34, 0x12])).pc = 0x0006 ∧
    (emulateCycle^[2] (bootWith [0x31, 0x06, 0x00, 0xCD, 0x34, 0x12])).pc ≠ 0x1234 := by
  decide

/-! ### C15: the ROM copy loop -/

/-- The copy loop started at index `i` writes `rest[k]` at `i + k + offset` and nothing
else. -/
theorem copyLoop_spec (offset : Int) (rest : List Nat) :
    ∀ (i : Nat) (m : Int → Nat) (j : Int),
      copyLoop offset rest i m j
        = if (i : Int) + offset ≤ j ∧ j < (i : Int) + offset + rest.length
          then rest.getD (j - ((i : Int) + offset)).toNat 0 else m j := by
  induction rest with
  | nil =>
    intro i m j
    simp only [copyLoop, List.length_nil, Nat.cast_zero, Int.add_zero]
    rw [if_neg (by omega)]
  | cons b rest ih =>
    intro i m j
    rw [copyLoop, ih]
    simp only [List.length_cons, Nat.cast_add, Nat.cast_one]
    by_cases hj : j = (i : Int) + offset
    · subst hj
      rw [if_neg (by omega), if_pos (by omega), store_same]
      simp
    · by_cases hin : (i : Int) + 1 + offset ≤ j ∧ j < (i : Int) + 1 + offset + rest.length
      · rw [if_pos hin, if_pos (by omega)]
        have hk : (j - ((i : Int) + offset)).toNat = (j - ((i : Int) + 1 + offset)).toNat + 1 := by
          omega
        rw [hk, List.getD_cons_succ]
      · rw [if_neg hin, if_neg (by omega), store_other _ _ _ _ hj]

/-- C15: for every byte sequence `bytes` of length `n` and every offset with
`0 <= offset` and `offset + n <= 65536`, after the copy loop of `loadRom` / `loadRomZip`
`memory[offset + i] = bytes[i]` for every `i < n`, every memory byte outside
`[offset, offset + n)` is unchanged, and only indices inside the array are written. -/
theorem loadRom_correct (bytes : List Nat) (offset : Int) (m : Int → Nat)
    (h0 : 0 ≤ offset) (hlen : offset + bytes.length ≤ 65536) :
    (∀ i : Nat, i < bytes.length → loadRom bytes offset m (offset + i) = bytes.getD i 0) ∧
    (∀ j : Int, j < offset ∨ offset + bytes.length ≤ j → loadRom bytes offset m j = m j) ∧
    (∀ j : Int, loadRom bytes offset m j ≠ m j → 0 ≤ j ∧ j < 65536) := by
  refine ⟨?_, ?_, ?_⟩
  · intro i hi
    unfold loadRom
    rw [copyLoop_spec, if_pos (by omega)]
    congr 1
    omega
  · intro j hj
    unfold loadRom
    rw [copyLoop_spec, if_neg (by omega)]
  · intro j hj
    unfold loadRom at hj
    rw [copyLoop_spec] at hj
    by_cases hin : ((0 : Nat) : Int) + offset ≤ j ∧ j < ((0 : Nat) : Int) + offset + bytes.length
    · omega
    · rw [if_neg hin] at hj
      exact absurd rfl hj

/-- Witness for C15: three bytes loaded at offset `0x800` into the zero memory. -/
theorem loadRom_correct_witness :
    loadRom [0xC3, 0xD4, 0x18] 0x800 (fun _ => 0) (0x800 + (2 : Nat)) = 0x18 ∧
    loadRom [0xC3, 0xD4, 0x18] 0x800 (fun _ => 0) 0x803 = 0 :=
  have h := loadRom_correct [0xC3, 0xD4, 0x18] 0x800 (fun _ => 0) (by decide) (by decide)
  ⟨h.1 2 (by decide), h.2.1 0x803 (by decide)⟩

/-! ### C16: SHLD and LHLD at the top of the address space -/

/-- SHLD a16: the second address is formed from the operand bytes as they are after the
first write. -/
theorem step_shld (s : State) (h : s.memory s.pc = 0x22) :
    emulateCycle s = { s with
      memory := store
        (store s.memory
          ((s.memory ((s.pc : Int) + 1) ||| (s.memory ((s.pc : Int) + 2) <<< 8) : Nat) : Int)
          s.L)
        (((store s.memory
            ((s.memory ((s.pc : Int) + 1) ||| (s.memory ((s.pc : Int) + 2) <<< 8) : Nat) : Int)
            s.L ((s.pc : Int) + 1) |||
          (store s.memory
            ((s.memory ((s.pc : Int) + 1) ||| (s.memory ((s.pc : Int) + 2) <<< 8) : Nat) : Int)
            s.L ((s.pc : Int) + 2) <<< 8) : Nat) : Int) + 1)
        s.H,
      pc := (s.pc + 3) % 65536, cycles := (s.cycles + 16) % 4294967296 } := by
  simp [emulateCycle, opcodeAt, h, pcAdd, cyclesAdd]

/-- LHLD a16. -/
theorem step_lhld (s : State) (h : s.memory s.pc = 0x2A) :
    emulateCycle s = { s with
      L := s.memory
        ((s.memory ((s.pc : Int) + 1) ||| (s.memory ((s.pc : Int) + 2) <<< 8) : Nat) : Int),
      H := s.memory
        (((s.memory ((s.pc : Int) + 1) ||| (s.memory ((s.pc : Int) + 2) <<< 8) : Nat) : Int) + 1),
      cycles := (s.cycles + 16) % 4294967296, pc := (s.pc + 3) % 65536 } := by
  simp [emulateCycle, opcodeAt, h, pcAdd, cyclesAdd]

/-- SHLD and LHLD with operand `0xFFFF`, inside the array: for every state whose instruction
bytes lie below address `0xFFFF`, SHLD stores L at address `0xFFFF` and changes no other
cell of `0..65535` (address `0x0000` in particular keeps its byte), the index of its second
access being `0xFFFF + 1 = 65536`; LHLD loads L from address `0xFFFF`. -/
theorem shld_lhld_top (s : State) (hpc : s.pc + 2 < 0xFFFF)
    (h1 : s.memory ((s.pc : Int) + 1) = 0xFF) (h2 : s.memory ((s.pc : Int) + 2) = 0xFF) :
    ((s.memory ((s.pc : Int) + 1) ||| (s.memory ((s.pc : Int) + 2) <<< 8) : Nat) : Int) + 1
      = 65536 ∧
    (s.memory s.pc = 0x22 →
      (emulateCycle s).memory 0xFFFF = s.L ∧
      (∀ a : Int, 0 ≤ a → a < 0xFFFF → (emulateCycle s).memory a = s.memory a) ∧
      (emulateCycle s).memory 0x0000 = s.memory 0x0000) ∧
    (s.memory s.pc = 0x2A → (emulateCycle s).L = s.memory 0xFFFF) := by
  have ha : ((0xFF ||| (0xFF <<< 8) : Nat) : Int) = 0xFFFF := by decide
  have n1 : (s.pc : Int) + 1 ≠ 0xFFFF := by omega
  have n2 : (s.pc : Int) + 2 ≠ 0xFFFF := by omega
  refine ⟨?_, ?_, ?_⟩
  · rw [h1, h2, ha]; decide
  · intro h
    have hs := step_shld s h
    rw [h1, h2, ha, store_other _ _ _ _ n1, store_other _ _ _ _ n2, h1, h2, ha] at hs
    rw [hs]
    dsimp only
    have e : ((0xFFFF : Int) + 1) = 0x10000 := by decide
    rw [e]
    refine ⟨?_, ?_, ?_⟩
    · rw [store_other _ _ _ _ (by decide), store_same]
    · intro a h0 hlt
      rw [store_other _ _ _ _ (by omega), store_other _ _ _ _ (by omega)]
    · rw [store_other _ _ _ _ (by decide), store_other _ _ _ _ (by decide)]
  · intro h
    have hs := step_lhld s h
    rw [h1, h2, ha] at hs
    rw [hs]

/-- C16 fails on the code: `SHLD 0xFFFF` at address 0 of the reset state with
`H:L = 0x07:0x09` stores L at address `0xFFFF`, but H is not stored at address `0x0000`,
which keeps the opcode byte `0x22`, and no other cell of `0..65535` changes; the index of
the second access, `(opcode[1] | (opcode[2] << 8)) + 1`, is 65536, outside `0..65535`.
`LHLD 0xFFFF` forms the same index 65536 for the byte it loads into H. -/
theorem shld_lhld_index_out_of_array :
    (emulateCycle { bootWith [0x22, 0xFF, 0xFF] with H := 0x07, L := 0x09 }).memory 0xFFFF
      = 0x09 ∧
    (emulateCycle { bootWith [0x22, 0xFF, 0xFF] with H := 0x07, L := 0x09 }).memory 0x0000
      = 0x22 ∧
    (emulateCycle { bootWith [0x22, 0xFF, 0xFF] with H := 0x07, L := 0x09 }).memory 0x0000
      ≠ 0x07 ∧
    (∀ a : Int, 0 ≤ a → a < 0xFFFF →
      (emulateCycle { bootWith [0x22, 0xFF, 0xFF] with H := 0x07, L := 0x09 }).memory a
        = ({ bootWith [0x22, 0xFF, 0xFF] with H := 0x07, L := 0x09 } : State).memory a) ∧
    (((bootWith [0x22, 0xFF, 0xFF]).memory 1 ||| ((bootWith [0x22, 0xFF, 0xFF]).memory 2 <<< 8)
        : Nat) : Int) + 1 = 65536 ∧
    (((bootWith [0x2A, 0xFF, 0xFF]).memory 1 ||| ((bootWith [0x2A, 0xFF, 0xFF]).memory 2 <<< 8)
        : Nat) : Int) + 1 = 65536 ∧
    ¬ ((0 : Int) ≤ 65536 ∧ (65536 : Int) ≤ 65535) :=
  have h := (shld_lhld_top { bootWith [0x22, 0xFF, 0xFF] with H := 0x07, L := 0x09 }
    (by decide) (by decide) (by decide)).2.1 (by decide)
  ⟨by decide, by decide, by decide, h.2.1, by decide, by decide, by decide⟩

/-! ### C17: IN and OUT -/

/-- IN d8, all ports. -/
theorem step_in (s : State) (h : s.memory s.pc = 0xDB) :
    emulateCycle s = { (if s.memory ((s.pc : Int) + 1) = 0x01 then { s with A := s.Read0 }
        else if s.memory ((s.pc : Int) + 1) = 0x02 then { s with A := s.Read1 }
        else if s.memory ((s.pc : Int) + 1) = 0x03 then
          { s with A := u8 (i32 (((s.shift1 <<< 8) % 4294967296) ||| s.shift0)
                          >>> (8 - (s.noOfBitsToShift : Int)).toNat) }
        else s) with pc := (s.pc + 2) % 65536, cycles := (s.cycles + 10) % 4294967296 } := by
  simp [emulateCycle, opcodeAt, h, pcAdd, cyclesAdd]

/-- OUT d8, all ports. -/
theorem step_out (s : State) (h : s.memory s.pc = 0xD3) :
    emulateCycle s = { (if s.memory ((s.pc : Int) + 1) = 0x02
          then { s with noOfBitsToShift := s.A &&& 0x7 }
        else if s.memory ((s.pc : Int) + 1) = 0x04
          then { s with shift0 := s.shift1, shift1 := s.A }
        else s) with pc := (s.pc + 2) % 65536, cycles := (s.cycles + 10) % 4294967296 } := by
  simp [emulateCycle, opcodeAt, h, pcAdd, cyclesAdd]

/-- C17: for every state and every port byte `p = memory[pc+1]`: IN p (0xDB) and OUT p
(0xD3) leave Z, S, P and CY unchanged, advance `pc` by 2 and add 10 cycles; IN 1 sets A to
`Read0` and IN 2 sets A to `Read1` verbatim; IN with `p` not in {1, 2, 3} leaves A (and
everything but `pc` and the cycle counter) unchanged; OUT with `p` not in {2, 4} leaves the
shift count and both shift latches (and everything but `pc` and the cycle counter)
unchanged. -/
theorem in_out_frame (s : State) (p : Nat) (hp : s.memory ((s.pc : Int) + 1) = p) :
    (s.memory s.pc = 0xDB →
      (emulateCycle s).Z = s.Z ∧ (emulateCycle s).S = s.S ∧ (emulateCycle s).P = s.P ∧
      (emulateCycle s).CY = s.CY ∧ (emulateCycle s).pc = (s.pc + 2) % 65536 ∧
      (emulateCycle s).cycles = (s.cycles + 10) % 4294967296 ∧
      (p = 1 → (emulateCycle s).A = s.Read0) ∧
      (p = 2 → (emulateCycle s).A = s.Read1) ∧
      (p ≠ 1 → p ≠ 2 → p ≠ 3 → (emulateCycle s).A = s.A ∧
        emulateCycle s = { s with pc := (s.pc + 2) % 65536,
                                  cycles := (s.cycles + 10) % 4294967296 })) ∧
    (s.memory s.pc = 0xD3 →
      (emulateCycle s).Z = s.Z ∧ (emulateCycle s).S = s.S ∧ (emulateCycle s).P = s.P ∧
      (emulateCycle s).CY = s.CY ∧ (emulateCycle s).pc = (s.pc + 2) % 65536 ∧
      (emulateCycle s).cycles = (s.cycles + 10) % 4294967296 ∧
      (p ≠ 2 → p ≠ 4 → (emulateCycle s).noOfBitsToShift = s.noOfBitsToShift ∧
        (emulateCycle s).shift0 = s.shift0 ∧ (emulateCycle s).shift1 = s.shift1 ∧
        emulateCycle s = { s with pc := (s.pc + 2) % 65536,
                                  cycles := (s.cycles + 10) % 4294967296 })) := by
  constructor
  · intro h
    rw [step_in s h, hp]
    refine ⟨?_, ?_, ?_, ?_, rfl, rfl, ?_, ?_, ?_⟩
    · split_ifs <;> rfl
    · split_ifs <;> rfl
    · split_ifs <;> rfl
    · split_ifs <;> rfl
    · intro h1; rw [if_pos h1]
    · intro h2; rw [if_neg (by omega), if_pos h2]
    · intro h1 h2 h3
      rw [if_neg h1, if_neg h2, if_neg h3]
      exact ⟨rfl, rfl⟩
  · intro h
    rw [step_out s h, hp]
    refine ⟨?_, ?_, ?_, ?_, rfl, rfl, ?_⟩
    · split_ifs <;> rfl
    · split_ifs <;> rfl
    · split_ifs <;> rfl
    · split_ifs <;> rfl
    · intro h2 h4
      rw [if_neg h2, if_neg h4]
      exact ⟨rfl, rfl, rfl, rfl⟩

/-- Witness for C17: `IN 2` at address 0 of the reset state reads `Read1 = 0x83`. -/
theorem in_out_frame_witness :
    (emulateCycle (bootWith [0xDB, 0x02])).A = 0x83 ∧
    (emulateCycle (bootWith [0xDB, 0x02])).pc = 2 ∧
    (emulateCycle (bootWith [0xDB, 0x02])).cycles = 10 :=
  have h := (in_out_frame (bootWith [0xDB, 0x02]) 2 (by decide)).1 (by decide)
  ⟨h.2.2.2.2.2.2.2.1 rfl, h.2.2.2.2.1, h.2.2.2.2.2.1⟩

/-! ### C18: RLC and RRC -/

/-- The expression `(a << i) | b` is `a * 2^i + b` when `b < 2^i`. -/
theorem shl_or_eq (a b i : Nat) (hb : b < 2 ^ i) : (a <<< i) ||| b = a * 2 ^ i + b := by
  rw [Nat.shiftLeft_eq, Nat.mul_comm a, ← Nat.mul_add_lt_is_or hb a]

/-- Bit 7 of a byte, as the source extracts it: `(a & 0x80) >> 7`. -/
theorem bit7_eq (a : Nat) (ha : a < 256) : (a &&& 0x80) >>> 7 = a / 128 := by
  have h := Nat.and_two_pow a 7
  rw [Nat.testBit_to_div_mod] at h
  have e : (2 : Nat) ^ 7 = 128 := by norm_num
  rw [e] at h
  rw [show (0x80 : Nat) = 128 from rfl, h]
  rcases Nat.mod_two_eq_zero_or_one (a / 128) with h2 | h2 <;> simp [h2] <;> omega

/-- RLC as the source computes it. -/
theorem step_rlc (s : State) (h : s.memory s.pc = 0x07) :
    emulateCycle s = { s with
      CY := (s.A &&& 0x80) >>> 7, A := ((s.A <<< 1) ||| ((s.A &&& 0x08) >>> 7)) &&& 0xFF,
      pc := (s.pc + 1) % 65536, cycles := (s.cycles + 4) % 4294967296 } := by
  simp [emulateCycle, opcodeAt, h, pcAdd, cyclesAdd]

/-- RRC as the source computes it. -/
theorem step_rrc (s : State) (h : s.memory s.pc = 0x0F) :
    emulateCycle s = { s with
      CY := s.A &&& 0x1, A := ((s.A >>> 1) ||| ((s.A &&& 0x1) <<< 7)) &&& 0xff,
      pc := (s.pc + 1) % 65536, cycles := (s.cycles + 4) % 4294967296 } := by
  simp [emulateCycle, opcodeAt, h, pcAdd, cyclesAdd]

/-- RLC on a byte shifts left and clears bit 0: the term `(A & 0x08) >> 7` is always 0, so
the old bit 7 reaches CY but never bit 0. -/
theorem rlc_shifts (s : State) (hA : s.A < 256) (h : s.memory s.pc = 0x07) :
    (emulateCycle s).A = (2 * s.A) % 256 ∧ (emulateCycle s).CY = s.A / 128 ∧
    (emulateCycle s).Z = s.Z ∧ (emulateCycle s).S = s.S ∧ (emulateCycle s).P = s.P ∧
    (emulateCycle s).pc = (s.pc + 1) % 65536 ∧
    (emulateCycle s).cycles = (s.cycles + 4) % 4294967296 := by
  rw [step_rlc s h]
  dsimp only
  have h8 : (s.A &&& 0x08) >>> 7 = 0 := by
    have : s.A &&& 0x08 ≤ 0x08 := Nat.and_le_right
    omega
  have hm := Nat.and_pow_two_sub_one_eq_mod (s.A <<< 1) 8
  norm_num at hm
  rw [h8, Nat.or_zero, hm, bit7_eq s.A hA]
  refine ⟨by omega, rfl, rfl, rfl, rfl, rfl, rfl⟩

/-- RRC on a byte is the 8 bit right rotation, with CY the old bit 0. -/
theorem rrc_rotates (s : State) (hA : s.A < 256) (h : s.memory s.pc = 0x0F) :
    (emulateCycle s).A = (s.A >>> 1) ||| ((s.A &&& 1) <<< 7) ∧
    (emulateCycle s).CY = s.A % 2 ∧
    (emulateCycle s).Z = s.Z ∧ (emulateCycle s).S = s.S ∧ (emulateCycle s).P = s.P ∧
    (emulateCycle s).pc = (s.pc + 1) % 65536 ∧
    (emulateCycle s).cycles = (s.cycles + 4) % 4294967296 := by
  rw [step_rrc s h]
  dsimp only
  have hlt : (s.A >>> 1) ||| ((s.A &&& 0x1) <<< 7) < 2 ^ 8 := by
    apply Nat.or_lt_two_pow
    · omega
    · rw [Nat.and_one_is_mod]; omega
  have hm := Nat.and_pow_two_sub_one_eq_mod ((s.A >>> 1) ||| ((s.A &&& 0x1) <<< 7)) 8
  norm_num at hm hlt
  rw [Nat.and_one_is_mod, hm, Nat.mod_eq_of_lt hlt]
  exact ⟨rfl, rfl, rfl, rfl, rfl, rfl, rfl⟩

/-- C18 at the failing input `A = 0x80`, RLC (0x07) at address 0 of the reset state: the
8 bit left rotation of `0x80` is `0x01`, the code leaves `A = 0x00` (with CY = 1, and `pc`,
cycles as stated). -/
theorem rlc_drops_bit7 :
    ({ bootWith [0x07] with A := 0x80 } : State).memory 0 = 0x07 ∧
    ((0x80 <<< 1) ||| (0x80 >>> 7)) % 256 = 0x01 ∧
    (emulateCycle { bootWith [0x07] with A := 0x80 }).A = 0x00 ∧
    (emulateCycle { bootWith [0x07] with A := 0x80 }).A ≠ ((0x80 <<< 1) ||| (0x80 >>> 7)) % 256 ∧
    (emulateCycle { bootWith [0x07] with A := 0x80 }).CY = 1 ∧
    (emulateCycle { bootWith [0x07] with A := 0x80 }).pc = 1 ∧
    (emulateCycle { bootWith [0x07] with A := 0x80 }).cycles = 4 := by
  decide

/-! ### C19: RAL and RAR -/

/-- RAL as the source computes it. -/
theorem step_ral (s : State) (h : s.memory s.pc = 0x17) :
    emulateCycle s = { s with
      CY := (s.A &&& 0x80) >>> 7, A := ((s.A <<< 1) ||| s.CY) &&& 0xff,
      pc := (s.pc + 1) % 65536, cycles := (s.cycles + 4) % 4294967296 } := by
  simp [emulateCycle, opcodeAt, h, pcAdd, cyclesAdd]

/-- RAR as the source computes it. -/
theorem step_rar (s : State) (h : s.memory s.pc = 0x1F) :
    emulateCycle s = { s with
      CY := s.A &&& 0x1, A := ((s.A >>> 1) ||| (s.CY <<< 7)) &&& 0xff,
      pc := (s.pc + 1) % 65536, cycles := (s.cycles + 4) % 4294967296 } := by
  simp [emulateCycle, opcodeAt, h, pcAdd, cyclesAdd]

/-- The accumulator after RAL, arithmetically. -/
theorem ral_value (a c : Nat) (hc : c ≤ 1) :
    ((a <<< 1) ||| c) &&& 0xff = (2 * a + c) % 256 ∧
    ((a <<< 1) ||| c) % 256 = (2 * a + c) % 256 := by
  have h1 := shl_or_eq a c 1 (by norm_num; omega)
  have hm := Nat.and_pow_two_sub_one_eq_mod ((a <<< 1) ||| c) 8
  norm_num at hm
  rw [hm, h1]
  constructor <;> omega

/-- The accumulator after RAR, arithmetically. -/
theorem rar_value (a c : Nat) (ha : a < 256) (hc : c ≤ 1) :
    ((a >>> 1) ||| (c <<< 7)) &&& 0xff = a / 2 + 128 * c ∧
    (a >>> 1) ||| (c <<< 7) = a / 2 + 128 * c := by
  have h1 := shl_or_eq c (a >>> 1) 7 (by norm_num; omega)
  have hm := Nat.and_pow_two_sub_one_eq_mod ((a >>> 1) ||| (c <<< 7)) 8
  norm_num at hm
  rw [hm, Nat.lor_comm, h1]
  constructor <;> omega

/-- C19: for every byte A and every CY in {0,1}: RAL (0x17) sets A to
`((A << 1) | CY_old) mod 256` and CY to the old bit 7 of A; RAR (0x1F) sets A to
`(A >> 1) | (CY_old << 7)` and CY to the old bit 0 of A; and RAL followed by RAR, as well as
RAR followed by RAL, restores both A and CY. -/
theorem ral_rar_correct (s : State) (hA : s.A < 256) (hCY : s.CY ≤ 1) :
    (s.memory s.pc = 0x17 →
      (emulateCycle s).A = ((s.A <<< 1) ||| s.CY) % 256 ∧ (emulateCycle s).CY = s.A / 128) ∧
    (s.memory s.pc = 0x1F →
      (emulateCycle s).A = (s.A >>> 1) ||| (s.CY <<< 7) ∧ (emulateCycle s).CY = s.A % 2) ∧
    (s.memory s.pc = 0x17 → s.memory (((s.pc + 1) % 65536 : Nat) : Int) = 0x1F →
      (emulateCycle (emulateCycle s)).A = s.A ∧ (emulateCycle (emulateCycle s)).CY = s.CY) ∧
    (s.memory s.pc = 0x1F → s.memory (((s.pc + 1) % 65536 : Nat) : Int) = 0x17 →
      (emulateCycle (emulateCycle s)).A = s.A ∧ (emulateCycle (emulateCycle s)).CY = s.CY) := by
  have hl := ral_value s.A s.CY hCY
  have hr := rar_value s.A s.CY hA hCY
  have b7 := bit7_eq s.A hA
  have b0 := Nat.and_one_is_mod s.A
  refine ⟨?_, ?_, ?_, ?_⟩
  · intro h
    rw [step_ral s h]
    dsimp only
    rw [hl.1, hl.2, b7]
    exact ⟨rfl, rfl⟩
  · intro h
    rw [step_rar s h]
    dsimp only
    rw [hr.1, hr.2, b0]
    exact ⟨rfl, rfl⟩
  · intro h h'
    have e1 := step_ral s h
    rw [hl.1, b7] at e1
    have e2 := step_rar { s with CY := s.A / 128, A := (2 * s.A + s.CY) % 256, pc := (s.pc + 1) % 65536, cycles := (s.cycles + 4) % 4294967296 } h'
    have hr2 := rar_value ((2 * s.A + s.CY) % 256) (s.A / 128) (by omega) (by omega)
    have b02 := Nat.and_one_is_mod ((2 * s.A + s.CY) % 256)
    simp only [hr2.1, b02] at e2
    rw [e1, e2]
    dsimp only
    constructor <;> omega
  · intro h h'
    have e1 := step_rar s h
    rw [hr.1, b0] at e1
    have e2 := step_ral { s with CY := s.A % 2, A := s.A / 2 + 128 * s.CY, pc := (s.pc + 1) % 65536, cycles := (s.cycles + 4) % 4294967296 } h'
    have hl2 := ral_value (s.A / 2 + 128 * s.CY) (s.A % 2) (by omega)
    have b72 := bit7_eq (s.A / 2 + 128 * s.CY) (by omega)
    simp only [hl2.1, b72] at e2
    rw [e1, e2]
    dsimp only
    constructor <;> omega

/-- Witness for C19: RAL ; RAR at address 0 of the reset state with `A = 0xB5`, CY = 1. -/
theorem ral_rar_correct_witness :
    (emulateCycle { bootWith [0x17, 0x1F] with A := 0xB5, CY := 1 }).A = 0x6B ∧
    (emulateCycle { bootWith [0x17, 0x1F] with A := 0xB5, CY := 1 }).CY = 1 ∧
    (emulateCycle (emulateCycle { bootWith [0x17, 0x1F] with A := 0xB5, CY := 1 })).A = 0xB5 ∧
    (emulateCycle (emulateCycle { bootWith [0x17, 0x1F] with A := 0xB5, CY := 1 })).CY = 1 :=
  have h := ral_rar_correct { bootWith [0x17, 0x1F] with A := 0xB5, CY := 1 } (by decide)
    (by decide)
  ⟨(h.1 (by decide)).1, (h.1 (by decide)).2, (h.2.2.1 (by decide) (by decide)).1,
    (h.2.2.1 (by decide) (by decide)).2⟩

/-! ### C20: ORI -/

/-- ORI d8 as the source computes it: the carry test of ADI comes first. -/
theorem step_ori (s : State) (h : s.memory s.pc = 0xF6) :
    emulateCycle s = { s with
      CY := if (s.A : Int) > 0xFF - (s.memory ((s.pc : Int) + 1) : Int) then 1 else 0,
      A := s.A ||| s.memory ((s.pc : Int) + 1),
      Z := zeroFlag (s.A ||| s.memory ((s.pc : Int) + 1)),
      S := signFlag (s.A ||| s.memory ((s.pc : Int) + 1)),
      P := parity ((s.A ||| s.memory ((s.pc : Int) + 1) : Nat) : Int) 8,
      pc := (s.pc + 2) % 65536, cycles := (s.cycles + 7) % 4294967296 } := by
  simp [emulateCycle, opcodeAt, h, pcAdd, cyclesAdd]

/-- ORI on bytes: everything is as for a logical OR except the carry, which is set exactly
when `A + d8` exceeds `0xFF`. -/
theorem ori_carry_of_sum (s : State) (d : Nat) (hA : s.A < 256) (hd : d < 256)
    (h : s.memory s.pc = 0xF6) (himm : s.memory ((s.pc : Int) + 1) = d) :
    (emulateCycle s).A = s.A ||| d ∧
    (emulateCycle s).CY = (if s.A + d > 0xFF then 1 else 0) ∧
    (emulateCycle s).Z = (if s.A ||| d = 0 then 1 else 0) ∧
    (emulateCycle s).S = (s.A ||| d) / 128 ∧
    (emulateCycle s).P = evenParity (s.A ||| d) ∧
    (emulateCycle s).pc = (s.pc + 2) % 65536 ∧
    (emulateCycle s).cycles = (s.cycles + 7) % 4294967296 := by
  have hlt : s.A ||| d < 2 ^ 8 := Nat.or_lt_two_pow (by simpa using hA) (by simpa using hd)
  norm_num at hlt
  rw [step_ori s h, himm]
  dsimp only
  refine ⟨rfl, ?_, rfl, ?_, parity_nat_byte _ hlt, rfl, rfl⟩
  · by_cases hc : s.A + d > 0xFF
    · rw [if_pos hc, if_pos (by omega)]
    · rw [if_neg hc, if_neg (by omega)]
  · rw [signFlag_eq]; omega

/-- C20 at the failing input `A = 0xFF`, `ORI 0x01` (bytes `F6 01`) at address 0 of the
reset state: A, Z, S, P, `pc` and the cycle count are as stated, but the carry is left at 1,
not 0. -/
theorem ori_sets_carry :
    ({ bootWith [0xF6, 0x01] with A := 0xFF } : State).memory 0 = 0xF6 ∧
    ({ bootWith [0xF6, 0x01] with A := 0xFF } : State).memory 1 = 0x01 ∧
    (emulateCycle { bootWith [0xF6, 0x01] with A := 0xFF }).A = 0xFF ∧
    (emulateCycle { bootWith [0xF6, 0x01] with A := 0xFF }).CY = 1 ∧
    (emulateCycle { bootWith [0xF6, 0x01] with A := 0xFF }).CY ≠ 0 ∧
    (emulateCycle { bootWith [0xF6, 0x01] with A := 0xFF }).Z = 0 ∧
    (emulateCycle { bootWith [0xF6, 0x01] with A := 0xFF }).S = 1 ∧
    (emulateCycle { bootWith [0xF6, 0x01] with A := 0xFF }).P = 1 ∧
    (emulateCycle { bootWith [0xF6, 0x01] with A := 0xFF }).pc = 2 ∧
    (emulateCycle { bootWith [0xF6, 0x01] with A := 0xFF }).cycles = 7 := by
  decide

/-! ### Flag effects of the opcodes, class by class -/

/-- The zero flag test yields 0 or 1. -/
theorem zeroFlag_le (v : Nat) : zeroFlag v ≤ 1 := by unfold zeroFlag; split <;> omega

/-- The sign flag test yields 0 or 1. -/
theorem signFlag_le (v : Nat) : signFlag v ≤ 1 := by unfold signFlag; split <;> omega

/-- The function `parity` yields 0 or 1. -/
theorem parity_le (x : Int) (n : Nat) : parity x n ≤ 1 := by
  unfold parity; simp only []; split <;> omega

/-- The even-parity bit is 0 or 1. -/
theorem evenParity_le (v : Nat) : evenParity v ≤ 1 := by unfold evenParity; split <;> omega

set_option maxRecDepth 100000 in
set_option maxHeartbeats 4000000 in
/-- Every opcode of `flagNeutralOpcodes` leaves Z, S, P and CY as they were. -/
theorem neutral_flags : ∀ op ∈ flagNeutralOpcodes, ∀ s : State, s.memory s.pc = op →
    (emulateCycle s).Z = s.Z ∧ (emulateCycle s).S = s.S ∧ (emulateCycle s).P = s.P ∧
    (emulateCycle s).CY = s.CY := by
  simp only [flagNeutralOpcodes, List.forall_mem_cons, List.not_mem_nil, false_implies,
    implies_true, and_true]
  repeat' apply And.intro
  all_goals
    intro s h
    simp [emulateCycle, opcodeAt, h, NOP, LXI, pcAdd, cyclesAdd] <;> (split_ifs <;> simp)

set_option maxRecDepth 100000 in
set_option maxHeartbeats 4000000 in
/-- Every opcode of `carryOnlyOpcodes` leaves Z, S and P as they were and CY in {0,1}. -/
theorem carry_only_flags : ∀ op ∈ carryOnlyOpcodes, ∀ s : State, s.memory s.pc = op →
    (emulateCycle s).Z = s.Z ∧ (emulateCycle s).S = s.S ∧ (emulateCycle s).P = s.P ∧
    (emulateCycle s).CY ≤ 1 := by
  simp only [carryOnlyOpcodes, List.forall_mem_cons, List.not_mem_nil, false_implies,
    implies_true, and_true]
  repeat' apply And.intro
  all_goals
    intro s h
    simp [emulateCycle, opcodeAt, h, pcAdd, cyclesAdd]
  all_goals first
    | omega
    | (split_ifs <;> omega)
    | (have hm : s.A &&& 128 ≤ 128 := Nat.and_le_right; omega)

set_option maxRecDepth 100000 in
set_option maxHeartbeats 4000000 in
/-- Every opcode of `flagSettingOpcodes` leaves all four flags in {0,1}, whatever they were
before, except that DAA may keep the incoming carry. -/
theorem setting_flags : ∀ op ∈ flagSettingOpcodes, ∀ s : State, s.memory s.pc = op →
    s.CY ≤ 1 → flagsOK (emulateCycle s) := by
  simp only [flagSettingOpcodes, List.forall_mem_cons, List.not_mem_nil, false_implies,
    implies_true, and_true]
  repeat' apply And.intro
  all_goals
    intro s h hC
    simp [emulateCycle, opcodeAt, h, pcAdd, cyclesAdd, flagsOK, zeroFlag_le, signFlag_le, parity_le]
  all_goals repeat' apply And.intro
  all_goals first
    | omega
    | (split_ifs <;> omega)
    | (split_ifs <;> simp <;> omega)

/-- The three result flags of a byte `v`, as the source computes them. -/
theorem result_flags (v : Nat) (hv : v < 256) :
    zeroFlag v = (if v = 0 then 1 else 0) ∧ signFlag v = v / 128 ∧
    parity (v : Int) 8 = evenParity v := by
  refine ⟨rfl, ?_, parity_nat_byte v hv⟩
  rw [signFlag_eq]; omega

/-- The conversion to `unsigned char` yields a byte. -/
theorem u8_lt (i : Int) : u8 i < 256 := by unfold u8; omega

/-- Decrementing an `unsigned char` adds 255 modulo 256. -/
theorem u8_pred (v : Nat) : u8 ((v : Int) - 1) = (v + 255) % 256 := by unfold u8; omega

/-- The parity call on an incremented or decremented byte, in the form the cast
normalisation leaves it. -/
theorem parity_add_mod (x k : Nat) :
    parity (((x : Int) + (k : Int)) % 256) 8 = evenParity ((x + k) % 256) := by
  have h := parity_nat_byte ((x + k) % 256) (Nat.mod_lt _ (by decide))
  push_cast at h
  exact h

set_option maxRecDepth 100000 in
set_option maxHeartbeats 4000000 in
/-- Every INR and DCR opcode adds 1 resp. 255 modulo 256 to its target, leaves CY as it was
and sets Z, S, P from the new value of the target. -/
theorem inc_dec_flags : ∀ op ∈ incDecOpcodes, ∀ s : State, s.memory s.pc = op →
    incDecTarget op (emulateCycle s) = (incDecTarget op s + incDecDelta op) % 256 ∧
    (emulateCycle s).CY = s.CY ∧
    (emulateCycle s).Z = (if incDecTarget op (emulateCycle s) = 0 then 1 else 0) ∧
    (emulateCycle s).S = incDecTarget op (emulateCycle s) / 128 ∧
    (emulateCycle s).P = evenParity (incDecTarget op (emulateCycle s)) := by
  simp only [incDecOpcodes, List.forall_mem_cons, List.not_mem_nil, false_implies,
    implies_true, and_true]
  repeat' apply And.intro
  all_goals
    intro s h
    simp [emulateCycle, opcodeAt, h, pcAdd, cyclesAdd, incDecTarget, incDecDelta, u8_pred, store_same]
    repeat' apply And.intro
  all_goals first
    | rfl
    | exact parity_add_mod _ 1
    | exact parity_add_mod _ 255
    | (rw [signFlag_eq]; omega)

set_option maxRecDepth 100000 in
/-- Every implemented opcode is in exactly one of the four classes (stated here as: in at
least one). -/
theorem opcode_classes : ∀ op ∈ implementedOpcodes,
    op ∈ flagNeutralOpcodes ∨ op ∈ incDecOpcodes ∨ op ∈ carryOnlyOpcodes ∨
    op ∈ flagSettingOpcodes := by
  decide

set_option maxRecDepth 100000 in
/-- The `default` branch: only the cycle counter changes. -/
theorem step_default (s : State) (h : s.memory s.pc ∉ implementedOpcodes) :
    emulateCycle s = { s with cycles := (s.cycles + 4) % 4294967296 } := by
  simp only [implementedOpcodes, List.mem_cons, List.mem_singleton, List.not_mem_nil, not_or,
    or_false] at h
  simp only [emulateCycle, opcodeAt, Int.add_zero, h, or_self, if_false, cyclesAdd]

/-- One `emulateCycle` step keeps the flags in {0,1}. -/
theorem flagsOK_step (s : State) (h : flagsOK s) : flagsOK (emulateCycle s) := by
  obtain ⟨hZ, hS, hP, hC⟩ := h
  by_cases hmem : s.memory s.pc ∈ implementedOpcodes
  · rcases opcode_classes _ hmem with h1 | h1 | h1 | h1
    · obtain ⟨a, b, c, d⟩ := neutral_flags _ h1 s rfl
      exact ⟨by rw [a]; exact hZ, by rw [b]; exact hS, by rw [c]; exact hP, by rw [d]; exact hC⟩
    · obtain ⟨a, b, c, d, e⟩ := inc_dec_flags _ h1 s rfl
      refine ⟨?_, ?_, ?_, by rw [b]; exact hC⟩
      · rw [c]; split <;> omega
      · rw [d, a]; omega
      · rw [e]; exact evenParity_le _
    · obtain ⟨a, b, c, d⟩ := carry_only_flags _ h1 s rfl
      exact ⟨by rw [a]; exact hZ, by rw [b]; exact hS, by rw [c]; exact hP, d⟩
    · exact setting_flags _ h1 s rfl hC
  · rw [step_default s hmem]
    exact ⟨hZ, hS, hP, hC⟩

/-- The function `interruptExecute` does not touch the flags. -/
theorem flagsOK_interruptExecute (opcode : Int) (s : State) (h : flagsOK s) :
    flagsOK (interruptExecute opcode s) := by
  unfold interruptExecute
  simp only []
  split_ifs <;> exact h

/-- The interrupt service step does not touch the flags. -/
theorem flagsOK_serviceInterrupt (s : State) (h : flagsOK s) :
    flagsOK (serviceInterrupt s) := by
  unfold serviceInterrupt
  simp only []
  split_ifs <;> exact flagsOK_interruptExecute _ s h

/-- Handling one event does not touch the flags. -/
theorem flagsOK_handleEvent (e : Event) (s : State) (rep : Bool) (h : flagsOK s) :
    flagsOK (handleEvent e s rep).1 := by
  cases e with
  | quit => exact h
  | keyDown k => cases k <;> exact h
  | keyUp k => cases k <;> exact h
  | other => exact h

/-- The event loop does not touch the flags. -/
theorem flagsOK_pollEvents (events : List Event) :
    ∀ (s : State) (rep : Bool), flagsOK s → flagsOK (pollEvents events s rep).1 := by
  induction events with
  | nil => intro s rep h; exact h
  | cons e rest ih =>
    intro s rep h
    rw [pollEvents]
    exact ih _ _ (flagsOK_handleEvent e s rep h)

/-- One iteration of the frame loop keeps the flags in {0,1}. -/
theorem flagsOK_frameIteration (events : List Event) (s : State) (rep : Bool)
    (h : flagsOK s) : flagsOK (frameIteration events s rep).1 := by
  have h1 := flagsOK_step s h
  unfold frameIteration thresholdCheck
  simp only []
  split_ifs
  · exact flagsOK_serviceInterrupt _ (flagsOK_pollEvents events _ rep h1)
  · exact h1

/-! ### C28: no flag changes outside the documented subset -/

set_option maxRecDepth 100000 in
/-- C28: for every state, (a) every implemented data-transfer, stack (except POP PSW),
INX/DCX, exchange, jump/call/return, IN/OUT, EI, CMA and no-op opcode
(`flagNeutralOpcodes`) leaves Z, S, P and CY unchanged; (b) the INR/DCR opcodes 0x04, 0x05,
0x0C, 0x0D, 0x14, 0x15, 0x25, 0x2C, 0x34, 0x35, 0x3C, 0x3D leave CY unchanged and set Z, S, P
from the result, which is the old value plus 1 resp. minus 1 modulo 256; (c) DAD, RLC, RRC,
RAL, RAR and STC leave Z, S and P unchanged.  Every implemented opcode outside these three
classes is one of the 28 arithmetic, logical, compare, DAA and POP PSW opcodes. -/
theorem flag_subsets (s : State) :
    (s.memory s.pc ∈ flagNeutralOpcodes →
      (emulateCycle s).Z = s.Z ∧ (emulateCycle s).S = s.S ∧ (emulateCycle s).P = s.P ∧
      (emulateCycle s).CY = s.CY) ∧
    (s.memory s.pc ∈ incDecOpcodes →
      (emulateCycle s).CY = s.CY ∧
      incDecTarget (s.memory s.pc) (emulateCycle s)
        = (incDecTarget (s.memory s.pc) s + incDecDelta (s.memory s.pc)) % 256 ∧
      (emulateCycle s).Z
        = (if incDecTarget (s.memory s.pc) (emulateCycle s) = 0 then 1 else 0) ∧
      (emulateCycle s).S = incDecTarget (s.memory s.pc) (emulateCycle s) / 128 ∧
      (emulateCycle s).P = evenParity (incDecTarget (s.memory s.pc) (emulateCycle s))) ∧
    (s.memory s.pc ∈ carryOnlyOpcodes →
      (emulateCycle s).Z = s.Z ∧ (emulateCycle s).S = s.S ∧ (emulateCycle s).P = s.P) ∧
    (∀ op ∈ implementedOpcodes, op ∉ flagNeutralOpcodes → op ∉ incDecOpcodes →
      op ∉ carryOnlyOpcodes → op ∈ flagSettingOpcodes) ∧
    incDecOpcodes = [0x04, 0x05, 0x0C, 0x0D, 0x14, 0x15, 0x25, 0x2C, 0x34, 0x35, 0x3C, 0x3D] ∧
    (∀ op ∈ flagNeutralOpcodes ++ incDecOpcodes ++ carryOnlyOpcodes, op ∈ implementedOpcodes) := by
  refine ⟨?_, ?_, ?_, ?_, rfl, by decide⟩
  · intro h
    exact neutral_flags _ h s rfl
  · intro h
    obtain ⟨a, b, c, d, e⟩ := inc_dec_flags _ h s rfl
    exact ⟨b, a, c, d, e⟩
  · intro h
    obtain ⟨a, b, c, _⟩ := carry_only_flags _ h s rfl
    exact ⟨a, b, c⟩
  · intro op hop h1 h2 h3
    rcases opcode_classes op hop with h | h | h | h
    · exact absurd h h1
    · exact absurd h h2
    · exact absurd h h3
    · exact h

/-- Witness for C28: `MOV M,A` (0x77), `INR A` (0x3C) on `A = 0xFF`, and STC (0x37), each at
address 0 of the reset state with all four flags set. -/
theorem flag_subsets_witness :
    ((emulateCycle { bootWith [0x77] with Z := 1, S := 1, P := 1, CY := 1 }).Z = 1 ∧
      (emulateCycle { bootWith [0x77] with Z := 1, S := 1, P := 1, CY := 1 }).S = 1 ∧
      (emulateCycle { bootWith [0x77] with Z := 1, S := 1, P := 1, CY := 1 }).P = 1 ∧
      (emulateCycle { bootWith [0x77] with Z := 1, S := 1, P := 1, CY := 1 }).CY = 1) ∧
    (emulateCycle { bootWith [0x3C] with A := 0xFF, CY := 1 }).CY = 1 ∧
    (emulateCycle { bootWith [0x37] with Z := 1, S := 1, P := 1 }).Z = 1 :=
  ⟨(flag_subsets { bootWith [0x77] with Z := 1, S := 1, P := 1, CY := 1 }).1 (by decide),
    ((flag_subsets { bootWith [0x3C] with A := 0xFF, CY := 1 }).2.1 (by decide)).1,
    ((flag_subsets { bootWith [0x37] with Z := 1, S := 1, P := 1 }).2.2.1 (by decide)).1⟩

/-! ### C30: the flags stay in {0,1} -/

/-- C30: if each of Z, S, P and CY is 0 or 1 before a step, then each is 0 or 1 after any
`emulateCycle` step (for every opcode byte and every memory and register content, POP PSW
on an arbitrary stack byte included) and after any `interruptExecute` call; hence every
state reachable from reset has all four flags in {0,1}. -/
theorem flag_range_invariant :
    (∀ s : State, flagsOK s → flagsOK (emulateCycle s)) ∧
    (∀ (opcode : Int) (s : State), flagsOK s → flagsOK (interruptExecute opcode s)) ∧
    (∀ s : State, Reachable s → flagsOK s) := by
  refine ⟨flagsOK_step, flagsOK_interruptExecute, ?_⟩
  intro s hr
  induction hr with
  | boot m => exact ⟨Nat.zero_le 1, Nat.zero_le 1, Nat.zero_le 1, Nat.zero_le 1⟩
  | cycle _ ih => exact flagsOK_step _ ih
  | interrupt opcode _ ih => exact flagsOK_interruptExecute opcode _ ih
  | frame events rep _ ih => exact flagsOK_frameIteration events _ rep ih

/-- Witness for C30: POP PSW (0xF1) at address 0 of the reset state with `sp = 0x10` and the
stack byte `0xFF`. -/
theorem flag_range_invariant_witness :
    flagsOK (emulateCycle { bootWith [0xF1] with sp := 0x10, memory := store (bootWith [0xF1]).memory 0x10 0xFF }) ∧
    (emulateCycle { bootWith [0xF1] with sp := 0x10, memory := store (bootWith [0xF1]).memory 0x10 0xFF }).CY = 1 :=
  ⟨flag_range_invariant.1 { bootWith [0xF1] with sp := 0x10, memory := store (bootWith [0xF1]).memory 0x10 0xFF } ⟨by decide, by decide, by decide, by decide⟩, by decide⟩

/-! ### C21: the logical instructions -/

set_option maxRecDepth 100000 in
/-- ANA B, ANA M, XRA A, XRA B, ORA B, ORA H, ORA M and ANI: the accumulator takes the
result `r`, the flags are computed from `r`, the carry is cleared. -/
theorem step_logic (s : State) (r len cyc : Nat)
    (hop : (s.memory s.pc = 0xA0 ∧ r = s.A &&& s.B ∧ len = 1 ∧ cyc = 4) ∨
      (s.memory s.pc = 0xA6 ∧ r = s.A &&& s.memory ((pair s.H s.L : Nat) : Int) ∧ len = 1 ∧ cyc = 7) ∨
      (s.memory s.pc = 0xAF ∧ r = s.A ^^^ s.A ∧ len = 1 ∧ cyc = 4) ∨
      (s.memory s.pc = 0xA8 ∧ r = s.A ^^^ s.B ∧ len = 1 ∧ cyc = 4) ∨
      (s.memory s.pc = 0xB0 ∧ r = s.A ||| s.B ∧ len = 1 ∧ cyc = 4) ∨
      (s.memory s.pc = 0xB4 ∧ r = s.A ||| s.H ∧ len = 1 ∧ cyc = 4) ∨
      (s.memory s.pc = 0xB6 ∧ r = s.A ||| s.memory ((pair s.H s.L : Nat) : Int) ∧ len = 1 ∧ cyc = 7) ∨
      (s.memory s.pc = 0xE6 ∧ r = s.A &&& s.memory ((s.pc : Int) + 1) ∧ len = 2 ∧ cyc = 7)) :
    emulateCycle s = { s with A := r, Z := zeroFlag r, S := signFlag r, P := parity (r : Int) 8, CY := 0, pc := (s.pc + len) % 65536, cycles := (s.cycles + cyc) % 4294967296 } := by
  rcases hop with ⟨h, rfl, rfl, rfl⟩ | ⟨h, rfl, rfl, rfl⟩ | ⟨h, rfl, rfl, rfl⟩ |
    ⟨h, rfl, rfl, rfl⟩ | ⟨h, rfl, rfl, rfl⟩ | ⟨h, rfl, rfl, rfl⟩ | ⟨h, rfl, rfl, rfl⟩ |
    ⟨h, rfl, rfl, rfl⟩ <;>
  simp [emulateCycle, opcodeAt, h, pcAdd, cyclesAdd]

/-- ANA A, which the source computes through an `unsigned int`. -/
theorem step_ana_a (s : State) (h : s.memory s.pc = 0xA7) :
    emulateCycle s = { s with A := (s.A &&& s.A) % 256, Z := if (s.A &&& s.A) &&& 0xFF = 0 then 1 else 0, S := signFlag (s.A &&& s.A), P := parity (i32 (s.A &&& s.A)) 8, CY := 0, pc := (s.pc + 1) % 65536, cycles := (s.cycles + 4) % 4294967296 } := by
  simp [emulateCycle, opcodeAt, h, pcAdd, cyclesAdd]

/-- C21: for every state with byte operands and each of ANA A (0xA7), ANA B (0xA0),
ANA M (0xA6), XRA A (0xAF), XRA B (0xA8), ORA B (0xB0), ORA H (0xB4), ORA M (0xB6) and
ANI d8 (0xE6): after one step A is the bitwise AND / XOR / OR `r` of the old A with the
operand `v`, CY = 0, Z = 1 iff `A = 0`, S is bit 7 of A and P is the even parity of A. -/
theorem logical_correct (s : State) (v r : Nat) (hA : s.A < 256) (hv : v < 256)
    (hop : (s.memory s.pc = 0xA7 ∧ v = s.A ∧ r = s.A &&& v) ∨
      (s.memory s.pc = 0xA0 ∧ v = s.B ∧ r = s.A &&& v) ∨
      (s.memory s.pc = 0xA6 ∧ v = s.memory ((pair s.H s.L : Nat) : Int) ∧ r = s.A &&& v) ∨
      (s.memory s.pc = 0xAF ∧ v = s.A ∧ r = s.A ^^^ v) ∨
      (s.memory s.pc = 0xA8 ∧ v = s.B ∧ r = s.A ^^^ v) ∨
      (s.memory s.pc = 0xB0 ∧ v = s.B ∧ r = s.A ||| v) ∨
      (s.memory s.pc = 0xB4 ∧ v = s.H ∧ r = s.A ||| v) ∨
      (s.memory s.pc = 0xB6 ∧ v = s.memory ((pair s.H s.L : Nat) : Int) ∧ r = s.A ||| v) ∨
      (s.memory s.pc = 0xE6 ∧ v = s.memory ((s.pc : Int) + 1) ∧ r = s.A &&& v)) :
    (emulateCycle s).A = r ∧ (emulateCycle s).CY = 0 ∧
    (emulateCycle s).Z = (if (emulateCycle s).A = 0 then 1 else 0) ∧
    (emulateCycle s).S = (emulateCycle s).A / 128 ∧
    (emulateCycle s).P = evenParity (emulateCycle s).A := by
  have hand : s.A &&& v < 256 := lt_of_le_of_lt Nat.and_le_left hA
  have hor : s.A ||| v < 256 := by
    have := Nat.or_lt_two_pow (show s.A < 2 ^ 8 by omega) (show v < 2 ^ 8 by omega)
    omega
  have hxor : s.A ^^^ v < 256 := by
    have := Nat.xor_lt_two_pow (show s.A < 2 ^ 8 by omega) (show v < 2 ^ 8 by omega)
    omega
  have fin : ∀ r' : Nat, r' < 256 →
      r' = r' ∧ (0 : Nat) = 0 ∧ zeroFlag r' = (if r' = 0 then 1 else 0) ∧
      signFlag r' = r' / 128 ∧ parity (r' : Int) 8 = evenParity r' := by
    intro r' hr'
    have := result_flags r' hr'
    exact ⟨rfl, rfl, this.1, this.2.1, this.2.2⟩
  rcases hop with ⟨h, hv', hr⟩ | ⟨h, hv', hr⟩ | ⟨h, hv', hr⟩ | ⟨h, hv', hr⟩ | ⟨h, hv', hr⟩ |
    ⟨h, hv', hr⟩ | ⟨h, hv', hr⟩ | ⟨h, hv', hr⟩ | ⟨h, hv', hr⟩
  · subst hv' hr
    rw [step_ana_a s h]
    dsimp only
    have hm : (s.A &&& s.A) % 256 = s.A &&& s.A := Nat.mod_eq_of_lt hand
    have hm2 := Nat.and_pow_two_sub_one_eq_mod (s.A &&& s.A) 8
    norm_num at hm2
    have hi : i32 (s.A &&& s.A) = ((s.A &&& s.A : Nat) : Int) := by
      unfold i32; rw [if_pos (by omega)]
    rw [hm, hi]
    have := fin _ hand
    refine ⟨rfl, rfl, ?_, this.2.2.2.1, this.2.2.2.2⟩
    simp only [Nat.and_self] at hm2 ⊢
    rw [hm2, Nat.mod_eq_of_lt hA]
  · subst hv' hr
    rw [step_logic s _ 1 4 (Or.inl ⟨h, rfl, rfl, rfl⟩)]
    exact fin _ hand
  · subst hv' hr
    rw [step_logic s _ 1 7 (Or.inr (Or.inl ⟨h, rfl, rfl, rfl⟩))]
    exact fin _ hand
  · subst hv' hr
    rw [step_logic s _ 1 4 (Or.inr (Or.inr (Or.inl ⟨h, rfl, rfl, rfl⟩)))]
    exact fin _ hxor
  · subst hv' hr
    rw [step_logic s _ 1 4 (Or.inr (Or.inr (Or.inr (Or.inl ⟨h, rfl, rfl, rfl⟩))))]
    exact fin _ hxor
  · subst hv' hr
    rw [step_logic s _ 1 4 (Or.inr (Or.inr (Or.inr (Or.inr (Or.inl ⟨h, rfl, rfl, rfl⟩)))))]
    exact fin _ hor
  · subst hv' hr
    rw [step_logic s _ 1 4 (Or.inr (Or.inr (Or.inr (Or.inr (Or.inr (Or.inl ⟨h, rfl, rfl, rfl⟩))))))]
    exact fin _ hor
  · subst hv' hr
    rw [step_logic s _ 1 7 (Or.inr (Or.inr (Or.inr (Or.inr (Or.inr (Or.inr (Or.inl ⟨h, rfl, rfl, rfl⟩)))))))]
    exact fin _ hor
  · subst hv' hr
    rw [step_logic s _ 2 7 (Or.inr (Or.inr (Or.inr (Or.inr (Or.inr (Or.inr (Or.inr ⟨h, rfl, rfl, rfl⟩)))))))]
    exact fin _ hand

/-- Witness for C21: XRA B with A = 0x5A and B = 0x0F gives A = 0x55. -/
theorem logical_correct_witness :
    (emulateCycle { bootWith [0xA8] with A := 0x5A, B := 0x0F }).A = 0x55 ∧
    (emulateCycle { bootWith [0xA8] with A := 0x5A, B := 0x0F }).CY = 0 ∧
    (emulateCycle { bootWith [0xA8] with A := 0x5A, B := 0x0F }).Z =
      (if (emulateCycle { bootWith [0xA8] with A := 0x5A, B := 0x0F }).A = 0 then 1 else 0) ∧
    (emulateCycle { bootWith [0xA8] with A := 0x5A, B := 0x0F }).S =
      (emulateCycle { bootWith [0xA8] with A := 0x5A, B := 0x0F }).A / 128 ∧
    (emulateCycle { bootWith [0xA8] with A := 0x5A, B := 0x0F }).P =
      evenParity (emulateCycle { bootWith [0xA8] with A := 0x5A, B := 0x0F }).A :=
  logical_correct { bootWith [0xA8] with A := 0x5A, B := 0x0F } 0x0F 0x55 (by decide) (by decide)
    (Or.inr (Or.inr (Or.inr (Or.inr (Or.inl ⟨by decide, by decide, by decide⟩)))))
/-! ### C23: the additions without carry-in -/

set_option maxRecDepth 100000 in
/-- ADD B, ADD C, ADD D, ADD E, ADD L, ADD M and ADI with operand `v`. -/
theorem step_add (s : State) (v len cyc : Nat)
    (hop : (s.memory s.pc = 0x80 ∧ v = s.B ∧ len = 1 ∧ cyc = 4) ∨
      (s.memory s.pc = 0x81 ∧ v = s.C ∧ len = 1 ∧ cyc = 4) ∨
      (s.memory s.pc = 0x82 ∧ v = s.D ∧ len = 1 ∧ cyc = 4) ∨
      (s.memory s.pc = 0x83 ∧ v = s.E ∧ len = 1 ∧ cyc = 4) ∨
      (s.memory s.pc = 0x85 ∧ v = s.L ∧ len = 1 ∧ cyc = 4) ∨
      (s.memory s.pc = 0x86 ∧ v = s.memory ((pair s.H s.L : Nat) : Int) ∧ len = 1 ∧ cyc = 7) ∨
      (s.memory s.pc = 0xC6 ∧ v = s.memory ((s.pc : Int) + 1) ∧ len = 2 ∧ cyc = 7)) :
    emulateCycle s = { s with CY := if (s.A : Int) > 0xFF - (v : Int) then 1 else 0, A := (s.A + v) % 256, Z := zeroFlag ((s.A + v) % 256), S := signFlag ((s.A + v) % 256), P := parity (((s.A + v) % 256 : Nat) : Int) 8, pc := (s.pc + len) % 65536, cycles := (s.cycles + cyc) % 4294967296 } := by
  rcases hop with ⟨h, rfl, rfl, rfl⟩ | ⟨h, rfl, rfl, rfl⟩ | ⟨h, rfl, rfl, rfl⟩ |
    ⟨h, rfl, rfl, rfl⟩ | ⟨h, rfl, rfl, rfl⟩ | ⟨h, rfl, rfl, rfl⟩ | ⟨h, rfl, rfl, rfl⟩ <;>
  simp [emulateCycle, opcodeAt, h, pcAdd, cyclesAdd]

/-- C23: for every state and each of ADD B (0x80), ADD C (0x81), ADD D (0x82), ADD E (0x83),
ADD L (0x85), ADD M (0x86) and ADI d8 (0xC6) with operand value `v`: after one step
`A = (A_old + v) mod 256`, CY = 1 iff `A_old + v > 0xFF`, Z = 1 iff the new A is 0, S is
bit 7 of the new A and P is the even parity of the new A. -/
theorem add_correct (s : State) (v : Nat)
    (hop : (s.memory s.pc = 0x80 ∧ v = s.B) ∨ (s.memory s.pc = 0x81 ∧ v = s.C) ∨
      (s.memory s.pc = 0x82 ∧ v = s.D) ∨ (s.memory s.pc = 0x83 ∧ v = s.E) ∨
      (s.memory s.pc = 0x85 ∧ v = s.L) ∨
      (s.memory s.pc = 0x86 ∧ v = s.memory ((pair s.H s.L : Nat) : Int)) ∨
      (s.memory s.pc = 0xC6 ∧ v = s.memory ((s.pc : Int) + 1))) :
    (emulateCycle s).A = (s.A + v) % 256 ∧
    (emulateCycle s).CY = (if s.A + v > 0xFF then 1 else 0) ∧
    (emulateCycle s).Z = (if (emulateCycle s).A = 0 then 1 else 0) ∧
    (emulateCycle s).S = (emulateCycle s).A / 128 ∧
    (emulateCycle s).P = evenParity (emulateCycle s).A := by
  have hcy : (if (s.A : Int) > 0xFF - (v : Int) then 1 else 0)
      = (if s.A + v > 0xFF then 1 else 0) := by
    by_cases hc : s.A + v > 0xFF
    · rw [if_pos hc, if_pos (by omega)]
    · rw [if_neg hc, if_neg (by omega)]
  have hr := result_flags ((s.A + v) % 256) (Nat.mod_lt _ (by decide))
  have fin : ∀ len cyc : Nat,
      emulateCycle s = { s with CY := if (s.A : Int) > 0xFF - (v : Int) then 1 else 0, A := (s.A + v) % 256, Z := zeroFlag ((s.A + v) % 256), S := signFlag ((s.A + v) % 256), P := parity (((s.A + v) % 256 : Nat) : Int) 8, pc := (s.pc + len) % 65536, cycles := (s.cycles + cyc) % 4294967296 } →
      (emulateCycle s).A = (s.A + v) % 256 ∧
      (emulateCycle s).CY = (if s.A + v > 0xFF then 1 else 0) ∧
      (emulateCycle s).Z = (if (emulateCycle s).A = 0 then 1 else 0) ∧
      (emulateCycle s).S = (emulateCycle s).A / 128 ∧
      (emulateCycle s).P = evenParity (emulateCycle s).A := by
    intro len cyc e
    rw [e]
    exact ⟨rfl, hcy, hr.1, hr.2.1, hr.2.2⟩
  rcases hop with ⟨h, hv⟩ | ⟨h, hv⟩ | ⟨h, hv⟩ | ⟨h, hv⟩ | ⟨h, hv⟩ | ⟨h, hv⟩ | ⟨h, hv⟩
  · exact fin 1 4 (step_add s v 1 4 (Or.inl ⟨h, hv, rfl, rfl⟩))
  · exact fin 1 4 (step_add s v 1 4 (Or.inr (Or.inl ⟨h, hv, rfl, rfl⟩)))
  · exact fin 1 4 (step_add s v 1 4 (Or.inr (Or.inr (Or.inl ⟨h, hv, rfl, rfl⟩))))
  · exact fin 1 4 (step_add s v 1 4 (Or.inr (Or.inr (Or.inr (Or.inl ⟨h, hv, rfl, rfl⟩)))))
  · exact fin 1 4 (step_add s v 1 4 (Or.inr (Or.inr (Or.inr (Or.inr (Or.inl ⟨h, hv, rfl, rfl⟩))))))
  · exact fin 1 7 (step_add s v 1 7 (Or.inr (Or.inr (Or.inr (Or.inr (Or.inr (Or.inl ⟨h, hv, rfl, rfl⟩)))))))
  · exact fin 2 7 (step_add s v 2 7 (Or.inr (Or.inr (Or.inr (Or.inr (Or.inr (Or.inr ⟨h, hv, rfl, rfl⟩)))))))

/-- Witness for C23: ADI 0x90 with A = 0x90 gives A = 0x20 and sets the carry. -/
theorem add_correct_witness :
    (emulateCycle { bootWith [0xC6, 0x90] with A := 0x90 }).A = (0x90 + 0x90) % 256 ∧
    (emulateCycle { bootWith [0xC6, 0x90] with A := 0x90 }).CY =
      (if 0x90 + 0x90 > 0xFF then 1 else 0) ∧
    (emulateCycle { bootWith [0xC6, 0x90] with A := 0x90 }).Z =
      (if (emulateCycle { bootWith [0xC6, 0x90] with A := 0x90 }).A = 0 then 1 else 0) ∧
    (emulateCycle { bootWith [0xC6, 0x90] with A := 0x90 }).S =
      (emulateCycle { bootWith [0xC6, 0x90] with A := 0x90 }).A / 128 ∧
    (emulateCycle { bootWith [0xC6, 0x90] with A := 0x90 }).P =
      evenParity (emulateCycle { bootWith [0xC6, 0x90] with A := 0x90 }).A :=
  add_correct { bootWith [0xC6, 0x90] with A := 0x90 } 0x90
    (Or.inr (Or.inr (Or.inr (Or.inr (Or.inr (Or.inr ⟨by decide, by decide⟩))))))

/-! ### C22: ADC D -/

/-- ADC D as the source computes it: the carry is first overwritten from `A > 0xFF - D`, and
that new carry is the one added. -/
theorem step_adc_d (s : State) (h : s.memory s.pc = 0x8A) :
    emulateCycle s = { s with CY := if (s.A : Int) > 0xFF - (s.D : Int) then 1 else 0, A := (s.A + (s.D + (if (s.A : Int) > 0xFF - (s.D : Int) then 1 else 0))) % 256, Z := zeroFlag ((s.A + (s.D + (if (s.A : Int) > 0xFF - (s.D : Int) then 1 else 0))) % 256), S := signFlag ((s.A + (s.D + (if (s.A : Int) > 0xFF - (s.D : Int) then 1 else 0))) % 256), P := parity (((s.A + (s.D + (if (s.A : Int) > 0xFF - (s.D : Int) then 1 else 0))) % 256 : Nat) : Int) 8, pc := (s.pc + 1) % 65536, cycles := (s.cycles + 4) % 4294967296 } := by
  simp [emulateCycle, opcodeAt, h, pcAdd, cyclesAdd]

/-- C22 fails on the code: with A = 0x00, D = 0x00 and incoming CY = 1, ADC D leaves A = 0x00
and CY = 0, where `(A + D + CY_old) mod 256 = 1`; and with A = 0xFF, D = 0x00 and incoming
CY = 1 it leaves A = 0xFF and CY = 0, where `A + D + CY_old = 0x100 > 0xFF`. -/
theorem adc_d_ignores_carry_in :
    (emulateCycle { bootWith [0x8A] with A := 0x00, D := 0x00, CY := 1 }).A = 0x00 ∧
    (emulateCycle { bootWith [0x8A] with A := 0x00, D := 0x00, CY := 1 }).CY = 0 ∧
    (0x00 + 0x00 + 1) % 256 = 1 ∧
    (emulateCycle { bootWith [0x8A] with A := 0xFF, D := 0x00, CY := 1 }).A = 0xFF ∧
    (emulateCycle { bootWith [0x8A] with A := 0xFF, D := 0x00, CY := 1 }).CY = 0 ∧
    0xFF + 0x00 + 1 > 0xFF := by
  decide

/-- The value ADC D computes does not depend on the incoming carry: for every state the new
A is `(A + D + c) mod 256` with `c = 1` iff `A + D > 0xFF`, and the new CY is that `c`. -/
theorem adc_d_actual (s : State) (h : s.memory s.pc = 0x8A) :
    (emulateCycle s).CY = (if s.A + s.D > 0xFF then 1 else 0) ∧
    (emulateCycle s).A = (s.A + s.D + (if s.A + s.D > 0xFF then 1 else 0)) % 256 := by
  have hcy : (if (s.A : Int) > 0xFF - (s.D : Int) then 1 else 0)
      = (if s.A + s.D > 0xFF then 1 else 0) := by
    by_cases hc : s.A + s.D > 0xFF
    · rw [if_pos hc, if_pos (by omega)]
    · rw [if_neg hc, if_neg (by omega)]
  rw [step_adc_d s h]
  dsimp only
  rw [hcy, Nat.add_assoc]
  exact ⟨rfl, rfl⟩

/-! ### C25: SBB M -/

/-- The C expression `res & 0xff` on a signed `int` is `res mod 256`, for negative `res`
too (two's complement). -/
theorem land_ff (r : Int) : (Int.land r 0xff).toNat = (r % 256).toNat := by
  cases r with
  | ofNat n =>
    show ((n &&& 255 : Nat) : Int).toNat = ((n : Int) % 256).toNat
    have h := Nat.and_pow_two_sub_one_eq_mod n 8
    norm_num at h
    rw [h]
    omega
  | negSucc n =>
    show ((Nat.ldiff 255 n : Nat) : Int).toNat = (Int.negSucc n % 256).toNat
    have h : Nat.ldiff 255 n = 2 ^ 8 - (n % 2 ^ 8 + 1) := by
      apply Nat.eq_of_testBit_eq
      intro i
      rw [Nat.testBit_ldiff, Nat.testBit_two_pow_sub_succ (Nat.mod_lt _ (by decide)),
        Nat.testBit_mod_two_pow]
      have h255 : (255 : Nat) = 2 ^ 8 - 1 := by decide
      rw [h255, Nat.testBit_two_pow_sub_one]
      cases decide (i < 8) <;> cases n.testBit i <;> rfl
    rw [h]
    have hn : Int.negSucc n = -((n : Int) + 1) := rfl
    rw [hn]
    omega

/-- SBB M as the source computes it. -/
theorem step_sbb_m (s : State) (h : s.memory s.pc = 0x9E) :
    emulateCycle s = { s with A := (Int.land ((s.A : Int) - (s.memory ((pair s.H s.L : Nat) : Int) : Int) - (s.CY : Int)) 0xff).toNat % 256, Z := zeroFlag ((Int.land ((s.A : Int) - (s.memory ((pair s.H s.L : Nat) : Int) : Int) - (s.CY : Int)) 0xff).toNat % 256), S := signFlag ((Int.land ((s.A : Int) - (s.memory ((pair s.H s.L : Nat) : Int) : Int) - (s.CY : Int)) 0xff).toNat % 256), P := parity (((Int.land ((s.A : Int) - (s.memory ((pair s.H s.L : Nat) : Int) : Int) - (s.CY : Int)) 0xff).toNat % 256 : Nat) : Int) 8, CY := 1, pc := (s.pc + 1) % 65536, cycles := (s.cycles + 4) % 4294967296 } := by
  simp [emulateCycle, opcodeAt, h, pcAdd, cyclesAdd]

/-- C25: for every A, every memory operand `M = memory[HL]` and every incoming CY, SBB M
(0x9E) sets A to `(A - M - CY_old) mod 256`, sets Z, S and P from the new A, and leaves
CY = 1 whatever the operands are. -/
theorem sbb_m_correct (s : State) (h : s.memory s.pc = 0x9E) :
    (emulateCycle s).A
      = (((s.A : Int) - (s.memory ((pair s.H s.L : Nat) : Int) : Int) - (s.CY : Int)) % 256).toNat ∧
    (emulateCycle s).Z = (if (emulateCycle s).A = 0 then 1 else 0) ∧
    (emulateCycle s).S = (emulateCycle s).A / 128 ∧
    (emulateCycle s).P = evenParity (emulateCycle s).A ∧
    (emulateCycle s).CY = 1 := by
  have ha : (Int.land ((s.A : Int) - (s.memory ((pair s.H s.L : Nat) : Int) : Int) - (s.CY : Int)) 0xff).toNat % 256
      = (((s.A : Int) - (s.memory ((pair s.H s.L : Nat) : Int) : Int) - (s.CY : Int)) % 256).toNat := by
    rw [land_ff]
    omega
  have hlt : (((s.A : Int) - (s.memory ((pair s.H s.L : Nat) : Int) : Int) - (s.CY : Int)) % 256).toNat < 256 := by
    omega
  have hr := result_flags _ hlt
  rw [step_sbb_m s h]
  dsimp only
  rw [ha]
  exact ⟨rfl, hr.1, hr.2.1, hr.2.2, rfl⟩

/-- Witness for C25: A = 0x05, memory[HL] = 0x07, CY = 1 give A = 0xFD and CY = 1. -/
theorem sbb_m_correct_witness :
    (emulateCycle { bootWith [0x9E, 0x07] with A := 0x05, L := 0x01, CY := 1 }).A = 0xFD ∧
    (emulateCycle { bootWith [0x9E, 0x07] with A := 0x05, L := 0x01, CY := 1 }).CY = 1 :=
  ⟨(sbb_m_correct { bootWith [0x9E, 0x07] with A := 0x05, L := 0x01, CY := 1 } (by decide)).1.trans
      (by decide),
    (sbb_m_correct { bootWith [0x9E, 0x07] with A := 0x05, L := 0x01, CY := 1 } (by decide)).2.2.2.2⟩

/-! ### C26: the conditional jumps -/

set_option maxRecDepth 100000 in
/-- JNZ, JZ, JNC, JC and JM: `taken` is the test of the mnemonic. -/
theorem step_cond_jump (s : State) (taken : Prop) [Decidable taken]
    (hop : (s.memory s.pc = 0xC2 ∧ (taken ↔ s.Z = 0)) ∨
      (s.memory s.pc = 0xCA ∧ (taken ↔ s.Z = 1)) ∨
      (s.memory s.pc = 0xD2 ∧ (taken ↔ s.CY = 0)) ∨
      (s.memory s.pc = 0xDA ∧ (taken ↔ s.CY = 1)) ∨
      (s.memory s.pc = 0xFA ∧ (taken ↔ s.S = 1))) :
    emulateCycle s = { s with pc := if taken then (s.memory ((s.pc : Int) + 1) ||| (s.memory ((s.pc : Int) + 2) <<< 8)) % 65536 else (s.pc + 3) % 65536, cycles := (s.cycles + 10) % 4294967296 } := by
  rcases hop with ⟨h, ht⟩ | ⟨h, ht⟩ | ⟨h, ht⟩ | ⟨h, ht⟩ | ⟨h, ht⟩ <;>
  simp [emulateCycle, opcodeAt, h, ht, pcAdd, cyclesAdd]

/-- C26, counterexample to the "iff": JNZ 0x0003 at pc = 0 with Z = 1 (all flags in {0,1}) is
not taken, and yet the new pc, pc + 3 = 3, equals the operand address
`memory[pc+1] | memory[pc+2] << 8 = 3`. -/
theorem cond_jump_iff_counterexample :
    flagsOK { bootWith [0xC2, 0x03, 0x00] with Z := 1 } ∧
    { bootWith [0xC2, 0x03, 0x00] with Z := 1 }.memory 0 = 0xC2 ∧
    (emulateCycle { bootWith [0xC2, 0x03, 0x00] with Z := 1 }).pc
      = ({ bootWith [0xC2, 0x03, 0x00] with Z := 1 }.memory 1 |||
          ({ bootWith [0xC2, 0x03, 0x00] with Z := 1 }.memory 2 <<< 8)) ∧
    ¬ ({ bootWith [0xC2, 0x03, 0x00] with Z := 1 }.Z = 0) :=
  ⟨⟨by decide, by decide, by decide, by decide⟩, by decide, by decide, by decide⟩

/-- C26, amended: for each of JNZ (0xC2), JZ (0xCA), JNC (0xD2), JC (0xDA), JM (0xFA) and
every state with byte operands, one step changes only pc and cycles: pc becomes the
little-endian operand address `memory[pc+1] | memory[pc+2] << 8` if the tested flag has the
mnemonic's value (Z = 0, Z = 1, CY = 0, CY = 1, S = 1) and pc + 3 otherwise, and cycles
increase by 10; whenever the operand address differs from pc + 3, pc equals the operand
address iff the tested flag has the mnemonic's value. -/
theorem cond_jump_correct (s : State) (taken : Prop) [Decidable taken]
    (hlo : s.memory ((s.pc : Int) + 1) < 256) (hhi : s.memory ((s.pc : Int) + 2) < 256)
    (hop : (s.memory s.pc = 0xC2 ∧ (taken ↔ s.Z = 0)) ∨
      (s.memory s.pc = 0xCA ∧ (taken ↔ s.Z = 1)) ∨
      (s.memory s.pc = 0xD2 ∧ (taken ↔ s.CY = 0)) ∨
      (s.memory s.pc = 0xDA ∧ (taken ↔ s.CY = 1)) ∨
      (s.memory s.pc = 0xFA ∧ (taken ↔ s.S = 1))) :
    emulateCycle s = { s with pc := if taken then s.memory ((s.pc : Int) + 1) ||| (s.memory ((s.pc : Int) + 2) <<< 8) else (s.pc + 3) % 65536, cycles := (s.cycles + 10) % 4294967296 } ∧
    (taken → (emulateCycle s).pc
      = s.memory ((s.pc : Int) + 1) ||| (s.memory ((s.pc : Int) + 2) <<< 8)) ∧
    (¬ taken → (emulateCycle s).pc = (s.pc + 3) % 65536) ∧
    (s.memory ((s.pc : Int) + 1) ||| (s.memory ((s.pc : Int) + 2) <<< 8) ≠ (s.pc + 3) % 65536 →
      ((emulateCycle s).pc
        = s.memory ((s.pc : Int) + 1) ||| (s.memory ((s.pc : Int) + 2) <<< 8) ↔ taken)) := by
  have hmod : (s.memory ((s.pc : Int) + 1) ||| (s.memory ((s.pc : Int) + 2) <<< 8)) % 65536
      = s.memory ((s.pc : Int) + 1) ||| (s.memory ((s.pc : Int) + 2) <<< 8) := by
    rw [addr_eq _ _ hlo]
    omega
  have e := step_cond_jump s taken hop
  rw [hmod] at e
  rw [e]
  dsimp only
  refine ⟨rfl, ?_, ?_, ?_⟩
  · intro ht; rw [if_pos ht]
  · intro ht; rw [if_neg ht]
  · intro hne
    by_cases ht : taken
    · rw [if_pos ht]; exact ⟨fun _ => ht, fun _ => rfl⟩
    · rw [if_neg ht]; exact ⟨fun hh => absurd hh.symm hne, fun hh => absurd hh ht⟩

/-- Witness for C26: JC 0x1234 with CY = 1 jumps to 0x1234. -/
theorem cond_jump_correct_witness :
    (emulateCycle { bootWith [0xDA, 0x34, 0x12] with CY := 1 }).pc = 0x1234 :=
  ((cond_jump_correct { bootWith [0xDA, 0x34, 0x12] with CY := 1 }
    ({ bootWith [0xDA, 0x34, 0x12] with CY := 1 }.CY = 1) (by decide) (by decide)
    (Or.inr (Or.inr (Or.inr (Or.inl ⟨by decide, Iff.rfl⟩))))).2.1 (by decide)).trans (by decide)
/-! ### C27: XCHG and XTHL -/

/-- XCHG. -/
theorem step_xchg (s : State) (h : s.memory s.pc = 0xEB) :
    emulateCycle s = { s with H := s.D, D := s.H, L := s.E, E := s.L, pc := (s.pc + 1) % 65536, cycles := (s.cycles + 5) % 4294967296 } := by
  simp [emulateCycle, opcodeAt, h, pcAdd, cyclesAdd]

/-- XTHL. -/
theorem step_xthl (s : State) (h : s.memory s.pc = 0xE3) :
    emulateCycle s = { s with L := s.memory s.sp, H := s.memory ((s.sp : Int) + 1), memory := store (store s.memory s.sp s.L) ((s.sp : Int) + 1) s.H, pc := (s.pc + 1) % 65536, cycles := (s.cycles + 18) % 4294967296 } := by
  have hne : ((s.sp : Int) + 1) ≠ (s.sp : Int) := by omega
  simp [emulateCycle, opcodeAt, h, pcAdd, cyclesAdd, store_other _ _ _ _ hne]

/-- C27: XCHG (0xEB) swaps H with D and L with E; XTHL (0xE3), with sp <= 0xFFFE, swaps L
with memory[sp] and H with memory[sp+1]; neither changes Z, S, P, CY, sp or A; and when the
next instruction executed is the same one, two XCHG steps, or two XTHL steps, restore H, L,
D, E, memory[sp] and memory[sp+1]. -/
theorem xchg_xthl_correct (s : State) :
    (s.memory s.pc = 0xEB →
      emulateCycle s = { s with H := s.D, D := s.H, L := s.E, E := s.L, pc := (s.pc + 1) % 65536, cycles := (s.cycles + 5) % 4294967296 }) ∧
    (s.memory s.pc = 0xE3 → s.sp ≤ 0xFFFE →
      (emulateCycle s).L = s.memory s.sp ∧ (emulateCycle s).H = s.memory ((s.sp : Int) + 1) ∧
      (emulateCycle s).memory s.sp = s.L ∧ (emulateCycle s).memory ((s.sp : Int) + 1) = s.H ∧
      (∀ a : Int, a ≠ s.sp → a ≠ (s.sp : Int) + 1 → (emulateCycle s).memory a = s.memory a) ∧
      (emulateCycle s).D = s.D ∧ (emulateCycle s).E = s.E ∧
      (emulateCycle s).Z = s.Z ∧ (emulateCycle s).S = s.S ∧ (emulateCycle s).P = s.P ∧
      (emulateCycle s).CY = s.CY ∧ (emulateCycle s).sp = s.sp ∧ (emulateCycle s).A = s.A) ∧
    (s.memory s.pc = 0xEB → (emulateCycle s).memory (emulateCycle s).pc = 0xEB →
      (emulateCycle (emulateCycle s)).H = s.H ∧ (emulateCycle (emulateCycle s)).L = s.L ∧
      (emulateCycle (emulateCycle s)).D = s.D ∧ (emulateCycle (emulateCycle s)).E = s.E ∧
      (emulateCycle (emulateCycle s)).memory s.sp = s.memory s.sp ∧
      (emulateCycle (emulateCycle s)).memory ((s.sp : Int) + 1) = s.memory ((s.sp : Int) + 1)) ∧
    (s.memory s.pc = 0xE3 → s.sp ≤ 0xFFFE → (emulateCycle s).memory (emulateCycle s).pc = 0xE3 →
      (emulateCycle (emulateCycle s)).H = s.H ∧ (emulateCycle (emulateCycle s)).L = s.L ∧
      (emulateCycle (emulateCycle s)).D = s.D ∧ (emulateCycle (emulateCycle s)).E = s.E ∧
      (emulateCycle (emulateCycle s)).memory s.sp = s.memory s.sp ∧
      (emulateCycle (emulateCycle s)).memory ((s.sp : Int) + 1) = s.memory ((s.sp : Int) + 1)) := by
  have hne : ((s.sp : Int) + 1) ≠ (s.sp : Int) := by omega
  have hne' : (s.sp : Int) ≠ (s.sp : Int) + 1 := by omega
  refine ⟨step_xchg s, ?_, ?_, ?_⟩
  · intro h _
    rw [step_xthl s h]
    dsimp only
    refine ⟨rfl, rfl, ?_, store_same _ _ _, ?_, rfl, rfl, rfl, rfl, rfl, rfl, rfl, rfl⟩
    · rw [store_other _ _ _ _ hne', store_same]
    · intro a h1 h2
      rw [store_other _ _ _ _ h2, store_other _ _ _ _ h1]
  · intro h h2
    rw [step_xchg (emulateCycle s) h2, step_xchg s h]
    exact ⟨rfl, rfl, rfl, rfl, rfl, rfl⟩
  · intro h _ h2
    rw [step_xthl (emulateCycle s) h2, step_xthl s h]
    dsimp only
    refine ⟨store_same _ _ _, ?_, rfl, rfl, ?_, store_same _ _ _⟩
    · rw [store_other _ _ _ _ hne', store_same]
    · rw [store_other _ _ _ _ hne', store_same]

/-- Witness for C27: two XTHL steps at sp = 0xF000 restore H = 0x12. -/
theorem xchg_xthl_correct_witness :
    (emulateCycle (emulateCycle { bootWith [0xE3, 0xE3] with H := 0x12, L := 0x34 })).H = 0x12 :=
  ((xchg_xthl_correct { bootWith [0xE3, 0xE3] with H := 0x12, L := 0x34 }).2.2.2
    (by decide) (by decide) (by decide)).1
/-! ### C29: the cycle counter and the refresh threshold -/

/-- C29, counterexample: from the reset state with a NOP at pc, interrupts disabled
(INT = 0) and cycles = 20000, the counter after the instruction is 20004 >= refresh, and at
the end of the frame-driver iteration it is still 20004, not 0. -/
theorem cycles_reset_counterexample :
    refresh = 16666 ∧
    (emulateCycle { bootWith [0x00] with cycles := 20000 }).cycles ≥ refresh ∧
    (frameIteration [] { bootWith [0x00] with cycles := 20000 } true).1.cycles = 20004 ∧
    (frameIteration [] { bootWith [0x00] with cycles := 20000 } true).1.cycles ≠ 0 := by
  decide

/-- C29, amended: with refresh = (2000000/60)/2 = 16666, after one frame-driver iteration
(one `emulateCycle` step followed by the threshold check): if interrupts are enabled
(INT = 1) and the cycle counter has reached the threshold after the instruction, the counter
is 0 at the end of the iteration; if INT is not 1, or the counter is below the threshold, the
counter is left as the instruction left it. -/
theorem cycles_reset_when_enabled (events : List Event) (s : State) (rep : Bool) :
    refresh = 16666 ∧
    ((emulateCycle s).INT = 1 → (emulateCycle s).cycles ≥ refresh →
      (frameIteration events s rep).1.cycles = 0) ∧
    ((emulateCycle s).INT ≠ 1 ∨ (emulateCycle s).cycles < refresh →
      (frameIteration events s rep).1.cycles = (emulateCycle s).cycles) := by
  refine ⟨rfl, ?_, ?_⟩
  · intro h1 h2
    unfold frameIteration thresholdCheck
    dsimp only
    rw [if_pos ⟨h1, h2⟩]
  · intro h
    unfold frameIteration thresholdCheck
    dsimp only
    rw [if_neg (by
      rintro ⟨h1, h2⟩
      rcases h with h | h
      · exact h h1
      · exact absurd h2 (Nat.not_le.mpr h))]

/-- Witness for C29: EI at pc with cycles = 20000 enables interrupts, and the iteration ends
with the counter at 0. -/
theorem cycles_reset_when_enabled_witness :
    (frameIteration [] { bootWith [0xFB] with cycles := 20000 } true).1.cycles = 0 :=
  (cycles_reset_when_enabled [] { bootWith [0xFB] with cycles := 20000 } true).2.1
    (by decide) (by decide)

/-! ### C24: DAA after a BCD addition -/

/-- DAA: the accumulator and the carry are adjusted by `daaAdjust`, and Z, S, P are computed
from the new accumulator. -/
theorem step_daa (s : State) (h : s.memory s.pc = 0x27) :
    emulateCycle s = { s with A := (daaAdjust s.A s.CY).1, CY := (daaAdjust s.A s.CY).2, Z := zeroFlag (daaAdjust s.A s.CY).1, S := signFlag (daaAdjust s.A s.CY).1, P := parity ((daaAdjust s.A s.CY).1 : Int) 8, pc := (s.pc + 1) % 65536, cycles := (s.cycles + 4) % 4294967296 } := by
  by_cases hc : (((if s.A &&& 0xf > 9 then (s.A + 6) % 256 else s.A) &&& 0xf0) >>> 4 > 9 ∨ s.CY = 1)
  · simp [emulateCycle, opcodeAt, h, pcAdd, cyclesAdd, daaAdjust, hc]
  · simp [emulateCycle, opcodeAt, h, pcAdd, cyclesAdd, daaAdjust, hc]

/-- C24 fails on the code. With x = 0x70 and y = 0x90 (valid BCD, low digits 0 + 0), the
addition leaves A = 0x00 and CY = 1; DAA then gives A = 0x60 but clears CY, where
70 + 90 = 160 >= 100 asks for CY = 1. With x = 0x61 and y = 0x99 (low digits 1 + 9 = 10),
the addition leaves A = 0xFA and CY = 0; DAA then gives A = 0x00 and CY = 0, where the BCD
encoding of (61 + 99) mod 100 is 0x60 and 160 >= 100 asks for CY = 1. -/
theorem daa_bcd_sum_fails :
    (0x70 / 16 ≤ 9 ∧ 0x70 % 16 ≤ 9 ∧ 0x90 / 16 ≤ 9 ∧ 0x90 % 16 ≤ 9 ∧ 0x70 % 16 + 0x90 % 16 ≤ 15) ∧
    (emulateCycle { bootWith [0x27] with A := (0x70 + 0x90) % 256, CY := 1 }).A = 0x60 ∧
    (emulateCycle { bootWith [0x27] with A := (0x70 + 0x90) % 256, CY := 1 }).CY = 0 ∧
    bcdEncode ((bcdValue 0x70 + bcdValue 0x90) % 100) = 0x60 ∧
    bcdValue 0x70 + bcdValue 0x90 ≥ 100 ∧
    (0x61 / 16 ≤ 9 ∧ 0x61 % 16 ≤ 9 ∧ 0x99 / 16 ≤ 9 ∧ 0x99 % 16 ≤ 9 ∧ 0x61 % 16 + 0x99 % 16 ≤ 15) ∧
    (emulateCycle { bootWith [0x27] with A := (0x61 + 0x99) % 256, CY := 0 }).A = 0x00 ∧
    (emulateCycle { bootWith [0x27] with A := (0x61 + 0x99) % 256, CY := 0 }).CY = 0 ∧
    bcdEncode ((bcdValue 0x61 + bcdValue 0x99) % 100) = 0x60 ∧
    bcdValue 0x61 + bcdValue 0x99 ≥ 100 := by
  decide

set_option maxRecDepth 100000 in
/-- On the bytes a BCD addition below 100 can leave (high nibble at most 9, and at most 8
when the low nibble is above 9), with CY = 0, the DAA block adds 6 exactly when the low
nibble is above 9 and leaves the carry at 0. -/
theorem daaAdjust_small :
    ∀ a < 160, (a % 16 > 9 → a / 16 ≤ 8) →
      daaAdjust a 0 = (if a % 16 ≤ 9 then a else a + 6, 0) := by
  decide

/-- Where the code agrees with C24: for valid packed-BCD bytes x and y whose low digits sum
to at most 15 and whose decimal sum is below 100, DAA after the addition leaves the
packed-BCD encoding of the sum, CY = 0, and Z, S, P computed from the final A. -/
theorem daa_bcd_sum_below_100 (s : State) (x y : Nat) (h : s.memory s.pc = 0x27)
    (hx : x / 16 ≤ 9 ∧ x % 16 ≤ 9) (hy : y / 16 ≤ 9 ∧ y % 16 ≤ 9)
    (hlow : x % 16 + y % 16 ≤ 15) (hsum : bcdValue x + bcdValue y < 100)
    (hA : s.A = (x + y) % 256) (hCY : s.CY = if x + y > 0xFF then 1 else 0) :
    (emulateCycle s).A = bcdEncode ((bcdValue x + bcdValue y) % 100) ∧
    (emulateCycle s).CY = 0 ∧
    (emulateCycle s).Z = (if (emulateCycle s).A = 0 then 1 else 0) ∧
    (emulateCycle s).S = (emulateCycle s).A / 128 ∧
    (emulateCycle s).P = evenParity (emulateCycle s).A := by
  unfold bcdValue at hsum
  have hxy : x + y < 160 := by omega
  have hA' : s.A = x + y := by rw [hA]; omega
  have hCY' : s.CY = 0 := by rw [hCY, if_neg (by omega)]
  have hd := daaAdjust_small (x + y) hxy (by omega)
  have henc : bcdEncode ((bcdValue x + bcdValue y) % 100)
      = (if (x + y) % 16 ≤ 9 then x + y else x + y + 6) := by
    unfold bcdEncode bcdValue
    split <;> omega
  have hlt : (if (x + y) % 16 ≤ 9 then x + y else x + y + 6) < 256 := by
    split <;> omega
  have hr := result_flags _ hlt
  rw [step_daa s h, hA', hCY', hd, henc]
  exact ⟨rfl, rfl, hr.1, hr.2.1, hr.2.2⟩

/-! ### C31: DAA with the carry clear leaves valid BCD -/

set_option maxRecDepth 100000 in
/-- With CY = 0 on entry, the DAA block leaves both nibbles of every byte at most 9. -/
theorem daaAdjust_valid :
    ∀ a < 256, (daaAdjust a 0).1 &&& 0xf ≤ 9 ∧ ((daaAdjust a 0).1 &&& 0xf0) >>> 4 ≤ 9 ∧
      (daaAdjust a 0).1 % 16 ≤ 9 ∧ (daaAdjust a 0).1 / 16 ≤ 9 := by
  decide

/-- C31: for every accumulator value A (a byte), if CY = 0 on entry then after DAA (0x27)
the accumulator is a valid packed-BCD byte: its low nibble `A & 0xf` and its high nibble
`(A & 0xf0) >> 4` are both at most 9 (equally, `A mod 16 <= 9` and `A / 16 <= 9`). -/
theorem daa_valid_bcd (s : State) (h : s.memory s.pc = 0x27) (hA : s.A < 256)
    (hCY : s.CY = 0) :
    (emulateCycle s).A &&& 0xf ≤ 9 ∧ ((emulateCycle s).A &&& 0xf0) >>> 4 ≤ 9 ∧
    (emulateCycle s).A % 16 ≤ 9 ∧ (emulateCycle s).A / 16 ≤ 9 := by
  rw [step_daa s h, hCY]
  exact daaAdjust_valid s.A hA

/-- Witness for C31: A = 0x9A with CY = 0 is adjusted to 0x00. -/
theorem daa_valid_bcd_witness :
    (emulateCycle { bootWith [0x27] with A := 0x9A }).A &&& 0xf ≤ 9 ∧
    ((emulateCycle { bootWith [0x27] with A := 0x9A }).A &&& 0xf0) >>> 4 ≤ 9 ∧
    (emulateCycle { bootWith [0x27] with A := 0x9A }).A % 16 ≤ 9 ∧
    (emulateCycle { bootWith [0x27] with A := 0x9A }).A / 16 ≤ 9 :=
  daa_valid_bcd { bootWith [0x27] with A := 0x9A } (by decide) (by decide) (by decide)

end Emu
